import Mathlib

/-!
# Deskwise agent: remote-control core

A shallow embedding of the Go sources under `agent/` (the session manager of
`remotecontrol/remotecontrol.go`, the pending-session poll of `main.go`, the
peer initialisation, control channel and rescaler of
`remotecontrol/webrtc.go`, the monitor detection and frame source of
`remotecontrol/screencapture.go`, the input handling of
`remotecontrol/input.go` and `remotecontrol/input_windows.go`, the encoder
of `remotecontrol/vp8_encoder.go` and the signal client of
`remotecontrol/signalling.go`), followed by the properties proved of it.

Conventions.
* A Go `error` is an `Option String`: `none` is `nil`.
* A `*Session` is an index into `World.heap`, the list of all `Session`
  objects allocated so far; `map[string]*Session` is an association list.
* Goroutines are interleaved by the `Step` relation: what the scheduler, the
  network and the operating system decide is an explicit argument of the
  function that embeds the Go code.
* Go `int` is `Int` (no arithmetic here leaves the 64-bit range for inputs
  that are screen sizes); conversions to `int32` wrap explicitly.
* A Go `float64` is the rational it denotes; every `float64` operation is
  the exact operation over `ℚ` followed by `roundFloat64`, the rounding to 53
  significant bits (to nearest, ties to even). A division by zero, which Go
  answers with an infinity or a NaN, is the `0` of `ℚ` here: no property
  below divides by zero.
* A function that can panic returns an `Option`: `none` is the panic.
* A byte is a `Nat`; a byte slice is a `List Nat`.
-/

namespace RemoteControl

/-! ## Session manager (`remotecontrol.go`, `webrtc.go`, `main.go`) -/

/-- What the libraries called by `WebRTCPeer.Init` answer: one flag per
fallible call, `true` when that call returns an error. -/
structure InitEnv where
  registerDefaultCodecsErr : Bool
  newPeerConnectionErr : Bool
  newTrackErr : Bool
  addTrackErr : Bool
  newVP8EncoderErr : Bool
deriving DecidableEq, Repr

/-- The fields of `WebRTCPeer` that the lifecycle reads or writes. A pointer
field is `true` when it is non-nil; `pumps` counts the
`sendScreenCaptureFrames` goroutines spawned so far. -/
structure WebRTCPeer where
  connected : Bool
  peerConnection : Bool
  videoTrack : Bool
  vp8Encoder : Bool
  signalClient : Bool
  cancelled : Bool
  pumps : Nat
deriving DecidableEq, Repr

/-- `NewWebRTCPeer`. -/
def NewWebRTCPeer : WebRTCPeer :=
  { connected := false, peerConnection := false, videoTrack := false,
    vp8Encoder := false, signalClient := false, cancelled := false, pumps := 0 }

/-- `WebRTCPeer.Init`: the peer connection is stored (and its handlers are
registered) before the track and the encoder are created, so an error after
that point leaves `peerConnection` set. -/
def WebRTCPeer.Init (env : InitEnv) (wp : WebRTCPeer) : Option String × WebRTCPeer :=
  if env.registerDefaultCodecsErr then (some "failed to register codecs", wp)
  else if env.newPeerConnectionErr then (some "failed to create peer connection", wp)
  else
    let wp1 := { wp with peerConnection := true }
    if env.newTrackErr then (some "failed to create video track", wp1)
    else
      let wp2 := { wp1 with videoTrack := true }
      if env.addTrackErr then (some "failed to add video track", wp2)
      else if env.newVP8EncoderErr then (some "failed to create VP8 encoder", wp2)
      else (none, { wp2 with vp8Encoder := true })

/-- `webrtc.PeerConnectionState`, as delivered to `OnConnectionStateChange`. -/
inductive PeerConnectionState
  | new
  | connecting
  | connected
  | disconnected
  | failed
  | closed
deriving DecidableEq, Repr

/-- The closure `WebRTCPeer.Init` passes to `pc.OnConnectionStateChange`. -/
def WebRTCPeer.onConnectionStateChange (state : PeerConnectionState) (wp : WebRTCPeer) :
    WebRTCPeer :=
  match state with
  | .connected => { wp with connected := true, pumps := wp.pumps + 1 }
  | .failed | .disconnected | .closed => { wp with connected := false }
  | _ => wp

/-- `WebRTCPeer.Close`. -/
def WebRTCPeer.Close (wp : WebRTCPeer) : WebRTCPeer :=
  { wp with connected := false, cancelled := true }

/-- Where the goroutine `Session.run` stands. -/
inductive RunPoint
  | spawned
  | activated
  | capturing
  | signalling
  | returned
deriving DecidableEq, Repr

/-- The struct `Session`. `cancelled` is the state of `ctx` (set by `cancel`),
`screenCaptureRunning` the `running` flag of the session's frame source,
`pc` the program point of the session's `run` goroutine. -/
structure Session where
  SessionID : String
  Token : String
  ServerURL : String
  AssetID : String
  OrgID : String
  Status : String
  cancelled : Bool
  screenCaptureRunning : Bool
  webrtcPeer : WebRTCPeer
  pc : RunPoint
deriving DecidableEq, Repr

/-- `Session.cleanup`: marks the session ended, closes the peer and stops the
frame source. It has no access to the manager. -/
def Session.cleanup (s : Session) : Session :=
  { s with Status := "ended", webrtcPeer := s.webrtcPeer.Close,
           screenCaptureRunning := false }

/-- `Session.setupWebRTC`. -/
def Session.setupWebRTC (env : InitEnv) (s : Session) : Option String × Session :=
  match s.webrtcPeer.Init env with
  | (some _, wp) => (some "failed to initialize WebRTC peer", { s with webrtcPeer := wp })
  | (none, wp) => (none, { s with webrtcPeer := wp })

/-- What the environment decides for one step of `Session.run`. -/
structure RunEnv where
  captureStartErr : Bool
  init : InitEnv
  selectCtxDone : Bool
deriving DecidableEq, Repr

/-- One step of `Session.run`, from the program point `s.pc`:
* `spawned`: `s.Status = "active"`;
* `activated`: `screenCapture.Start()`; on error return (deferred `cleanup`);
  otherwise the input handler is given the monitor info (an error there is
  only logged);
* `capturing`: `setupWebRTC()`; on error return (deferred `Stop`, `cleanup`),
  otherwise `SetSignalClient`;
* `signalling`: one round of the `select`: `ctx.Done()` can be taken only
  after `cancel`, and then the function returns; otherwise a tick, whose
  `handleSignalling` touches neither `Status` nor the registry.
-/
def Session.runStep (env : RunEnv) (s : Session) : Session :=
  match s.pc with
  | .spawned => { s with Status := "active", pc := .activated }
  | .activated =>
    if env.captureStartErr then { s.cleanup with pc := .returned }
    else { s with screenCaptureRunning := true, pc := .capturing }
  | .capturing =>
    match s.setupWebRTC env.init with
    | (some _, s1) => { s1.cleanup with pc := .returned }
    | (none, s1) =>
      { s1 with webrtcPeer := { s1.webrtcPeer with signalClient := true }, pc := .signalling }
  | .signalling =>
    if s.cancelled && env.selectCtxDone then { s.cleanup with pc := .returned }
    else s
  | .returned => s

/-- The struct `Manager`: `sessions` maps a session id to a session pointer. -/
structure Manager where
  serverURL : String
  sessions : List (String × Nat)
deriving DecidableEq, Repr

/-- The process state: the session objects and the global `rcManager`. -/
structure World where
  heap : List Session
  rcManager : Manager
deriving DecidableEq, Repr

/-- `NewManager`, in a process that has allocated no session yet. -/
def NewManager (serverURL : String) : World :=
  { heap := [], rcManager := { serverURL := serverURL, sessions := [] } }

/-- The keys of the registry. -/
def World.ids (w : World) : List String := w.rcManager.sessions.map Prod.fst

/-- `Manager.StartSession`. -/
def StartSession (w : World) (sessionID token assetID orgID : String) :
    Option String × World :=
  match w.rcManager.sessions.lookup sessionID with
  | some _ => (some s!"session {sessionID} already exists", w)
  | none =>
    let session : Session :=
      { SessionID := sessionID, Token := token, ServerURL := w.rcManager.serverURL,
        AssetID := assetID, OrgID := orgID, Status := "pending",
        cancelled := false, screenCaptureRunning := false,
        webrtcPeer := NewWebRTCPeer, pc := .spawned }
    (none, { heap := w.heap ++ [session],
             rcManager := { w.rcManager with
               sessions := w.rcManager.sessions ++ [(sessionID, w.heap.length)] } })

/-- `Manager.StopSession`. -/
def StopSession (w : World) (sessionID : String) : Option String × World :=
  match w.rcManager.sessions.lookup sessionID with
  | none => (some s!"session {sessionID} not found", w)
  | some a =>
    (none, { heap := w.heap.modify (fun s => { s with cancelled := true }) a,
             rcManager := { w.rcManager with
               sessions := w.rcManager.sessions.filter (fun e => e.1 != sessionID) } })

/-- `Manager.GetActiveSession`. Go ranges over a map in an unspecified order:
`order` is the order in which this call visits the entries. The result is
the session object found, as it is at that moment. -/
def GetActiveSession (w : World) (order : List (String × Nat)) : Option Session :=
  order.findSome? (fun e =>
    match w.heap[e.2]? with
    | some s => if s.Status = "active" then some s else none
    | none => none)

/-- The struct `SessionInfo` of `main.go`. -/
structure SessionInfo where
  SessionID : String
  Token : String
  AssetID : String
  OrgID : String
  Status : String
deriving DecidableEq, Repr

/-- The decoded body of `GET /api/agent/rc/poll`. -/
structure PollResult where
  Success : Bool
  Session : SessionInfo
deriving DecidableEq, Repr

/-- `checkForRemoteControlSession`. `resp` is `none` when the request could
not be built or sent, the status was not 200 or the body did not decode. -/
def checkForRemoteControlSession (w : World) (order : List (String × Nat))
    (resp : Option PollResult) : World :=
  match resp with
  | none => w
  | some result =>
    if result.Success && result.Session.SessionID != "" then
      match GetActiveSession w order with
      | some activeSession =>
        if activeSession.SessionID = result.Session.SessionID then w
        else
          let w1 := (StopSession w activeSession.SessionID).2
          (StartSession w1 result.Session.SessionID result.Session.Token
            result.Session.AssetID result.Session.OrgID).2
      | none =>
        (StartSession w result.Session.SessionID result.Session.Token
          result.Session.AssetID result.Session.OrgID).2
    else w

/-- One step of the `run` goroutine of the session at address `a`. -/
def runSession (w : World) (a : Nat) (env : RunEnv) : World :=
  { w with heap := w.heap.modify (Session.runStep env) a }

/-- The peer connection of the session at address `a` reports `state`; the
handler exists once `Init` has stored the peer connection. -/
def connectionStateChange (w : World) (a : Nat) (state : PeerConnectionState) : World :=
  { w with heap := w.heap.modify (fun s =>
      if s.webrtcPeer.peerConnection then
        { s with webrtcPeer := s.webrtcPeer.onConnectionStateChange state }
      else s) a }

/-- One atomic action of the process. -/
inductive Step : World → World → Prop
  | start (w : World) (sessionID token assetID orgID : String) :
      Step w (StartSession w sessionID token assetID orgID).2
  | stop (w : World) (sessionID : String) : Step w (StopSession w sessionID).2
  | run (w : World) (a : Nat) (env : RunEnv) : Step w (runSession w a env)
  | poll (w : World) (order : List (String × Nat)) (resp : Option PollResult) :
      order.Perm w.rcManager.sessions → Step w (checkForRemoteControlSession w order resp)
  | conn (w : World) (a : Nat) (state : PeerConnectionState) :
      Step w (connectionStateChange w a state)

/-- The states the process can be in, starting from an empty manager. -/
inductive Reachable : World → Prop
  | init (serverURL : String) : Reachable (NewManager serverURL)
  | step {w w1 : World} : Reachable w → Step w w1 → Reachable w1

/-- The registry entries whose session has `Status = "active"`. -/
def World.activeSessions (w : World) : List (String × Nat) :=
  w.rcManager.sessions.filter (fun e =>
    match w.heap[e.2]? with
    | some s => decide (s.Status = "active")
    | none => false)

/-- Every registry entry points at an allocated session whose `SessionID` is
the key it is registered under. -/
def World.Consistent (w : World) : Prop :=
  ∀ e ∈ w.rcManager.sessions, ∃ s, w.heap[e.2]? = some s ∧ s.SessionID = e.1

/-! ### Concrete executions -/

/-- An environment in which every call succeeds and no cancellation is seen. -/
def okEnv : RunEnv :=
  { captureStartErr := false,
    init := { registerDefaultCodecsErr := false, newPeerConnectionErr := false,
              newTrackErr := false, addTrackErr := false, newVP8EncoderErr := false },
    selectCtxDone := false }

/-- The environment in which only `api.NewPeerConnection` returns an error. -/
def peerFailEnv : RunEnv :=
  { okEnv with init := { okEnv.init with newPeerConnectionErr := true } }

/-- The environment in which only `NewVP8Encoder` returns an error. -/
def codecFailEnv : RunEnv :=
  { okEnv with init := { okEnv.init with newVP8EncoderErr := true } }

/-- A poll response announcing the pending session `sessionID`. -/
def pendingPoll (sessionID : String) : PollResult :=
  { Success := true,
    Session := { SessionID := sessionID, Token := "T", AssetID := "A", OrgID := "O",
                 Status := "pending" } }

/-- After the poll returned `S1`: `S1` is registered, its `run` has not run. -/
def racePolled1 : World :=
  checkForRemoteControlSession (NewManager "https://srv") [] (some (pendingPoll "S1"))

/-- After the next poll returned `S2` while `S1` is still pending. -/
def racePolled2 : World :=
  checkForRemoteControlSession racePolled1 racePolled1.rcManager.sessions
    (some (pendingPoll "S2"))

/-- Both `run` goroutines have executed their first statement. -/
def raceWorld : World := runSession (runSession racePolled2 0 okEnv) 1 okEnv

/-- The session `S1` has been started and its `run` has set it active. -/
def leakActive : World :=
  runSession (StartSession (NewManager "https://srv") "S1" "T" "A" "O").2 0 okEnv

/-- While `S1` is active, `StartSession` is called for `S2` and the `run` of
`S2` executes its first statement. -/
def directWorld : World :=
  runSession (StartSession leakActive "S2" "T" "A" "O").2 1 okEnv

/-- Then the screen capture of `S1` has started. -/
def leakCapturing : World := runSession leakActive 0 okEnv

/-- Then `setupWebRTC` failed (no peer connection could be created): `run`
returned through the deferred `Stop` and `cleanup`. -/
def leakWorld : World := runSession leakCapturing 0 peerFailEnv

/-- The session `S1` started, set active, capturing; then the encoder
constructor failed inside `setupWebRTC`. -/
def codecFailWorld : World := runSession leakCapturing 0 codecFailEnv

/-! ## Monitors (`screencapture.go`) -/

/-- The struct `MonitorInfo`. -/
structure MonitorInfo where
  Index : Int
  Name : String
  X : Int
  Y : Int
  Width : Int
  Height : Int
  Primary : Bool
deriving DecidableEq, Repr

/-- The struct `MultiMonitorInfo`. -/
structure MultiMonitorInfo where
  Monitors : List MonitorInfo
  VirtualWidth : Int
  VirtualHeight : Int
  VirtualMinX : Int
  VirtualMinY : Int
deriving DecidableEq, Repr

/-- Go `image.Point`. -/
structure Point where
  X : Int
  Y : Int
deriving DecidableEq, Repr

/-- Go `image.Rectangle`, as returned by `screenshot.GetDisplayBounds`. -/
structure Rectangle where
  Min : Point
  Max : Point
deriving DecidableEq, Repr

/-- `Rectangle.Dx`. -/
def Rectangle.Dx (r : Rectangle) : Int := r.Max.X - r.Min.X

/-- `Rectangle.Dy`. -/
def Rectangle.Dy (r : Rectangle) : Int := r.Max.Y - r.Min.Y

/-- The display rectangle with origin `(x, y)` and size `w` by `h`. -/
def displayBounds (x y w h : Int) : Rectangle :=
  { Min := { X := x, Y := y }, Max := { X := x + w, Y := y + h } }

/-- The local variables of `DetectMonitors`. -/
structure DetectState where
  monitors : List MonitorInfo
  minX : Int
  minY : Int
  maxX : Int
  maxY : Int
deriving DecidableEq, Repr

/-- The body of the loop of `DetectMonitors` for display `i` with bounds
`bounds`. -/
def DetectMonitors.body (st : DetectState) (i : Nat) (bounds : Rectangle) : DetectState :=
  { monitors := st.monitors ++
      [{ Index := i, Name := s!"Monitor {i + 1}", X := bounds.Min.X, Y := bounds.Min.Y,
         Width := bounds.Dx, Height := bounds.Dy, Primary := i == 0 }],
    minX := if bounds.Min.X < st.minX then bounds.Min.X else st.minX,
    minY := if bounds.Min.Y < st.minY then bounds.Min.Y else st.minY,
    maxX := if bounds.Max.X > st.maxX then bounds.Max.X else st.maxX,
    maxY := if bounds.Max.Y > st.maxY then bounds.Max.Y else st.maxY }

/-- The loop of `DetectMonitors` from display `i` on. -/
def DetectMonitors.loop : List Rectangle → Nat → DetectState → DetectState
  | [], _, st => st
  | bounds :: rest, i, st => DetectMonitors.loop rest (i + 1) (DetectMonitors.body st i bounds)

/-- `DetectMonitors`; `displays` lists `screenshot.GetDisplayBounds(i)` for
`i` below `screenshot.NumActiveDisplays()`. All four bounds start at 0. -/
def DetectMonitors (displays : List Rectangle) : MultiMonitorInfo :=
  let st := DetectMonitors.loop displays 0
    { monitors := [], minX := 0, minY := 0, maxX := 0, maxY := 0 }
  { Monitors := st.monitors,
    VirtualWidth := st.maxX - st.minX,
    VirtualHeight := st.maxY - st.minY,
    VirtualMinX := st.minX,
    VirtualMinY := st.minY }

/-! ## Windows input injector (`input_windows.go`) -/

def INPUT_TYPE_MOUSE : Nat := 0

def MOUSEEVENTF_MOVE : Nat := 0x0001

def MOUSEEVENTF_ABSOLUTE : Nat := 0x8000

/-- The struct `MOUSEINPUT`; `Dx` and `Dy` are `int32`. -/
structure MOUSEINPUT where
  Dx : Int
  Dy : Int
  MouseData : Nat
  DwFlags : Nat
  Time : Nat
  DwExtraInfo : Nat
deriving DecidableEq, Repr

/-- The struct `INPUT_MOUSE` (its field `Type` is `InputType` here). -/
structure INPUT_MOUSE where
  InputType : Nat
  Mi : MOUSEINPUT
deriving DecidableEq, Repr

/-- Rounding of a rational to the nearest integer, ties to the even one. -/
def roundHalfEven (q : ℚ) : Int :=
  if q - ⌊q⌋ < 1 / 2 then ⌊q⌋
  else if 1 / 2 < q - ⌊q⌋ then ⌊q⌋ + 1
  else if ⌊q⌋ % 2 = 0 then ⌊q⌋ else ⌊q⌋ + 1

/-- The `float64` that an IEEE 754 operation returns when its exact result is
`q`: `q` rounded to 53 significant bits, to nearest, ties to even. The
exponent range is not modelled: the values computed from Go integers stay far
inside it. -/
def roundFloat64 (q : ℚ) : ℚ :=
  if q = 0 then 0
  else (roundHalfEven (q / 2 ^ (Int.log 2 |q| - 52)) : ℚ) * 2 ^ (Int.log 2 |q| - 52)

/-- Go conversion `float64(n)` of an integer. -/
def float64OfInt (n : Int) : ℚ := roundFloat64 (n : ℚ)

/-- Reduction of an integer to the `int32` range, as a Go integer conversion
does. -/
def wrapInt32 (n : Int) : Int := (n + 2147483648) % 4294967296 - 2147483648

/-- Go conversion `int32(f)` of a `float64`: the fraction is discarded
(truncation towards zero). Go leaves the result for values outside the
`int32` range to the implementation; here they wrap. -/
def int32OfFloat (f : ℚ) : Int := wrapInt32 (if 0 ≤ f then ⌊f⌋ else ⌈f⌉)

/-- The struct `WindowsInputInjector`; `monitorInfo` is a pointer, `none` is
nil. -/
structure WindowsInputInjector where
  screenWidth : Int
  screenHeight : Int
  encodedWidth : Int
  encodedHeight : Int
  monitorIndex : Int
  monitorInfo : Option MonitorInfo
  monitors : MultiMonitorInfo
deriving DecidableEq, Repr

/-- The zero value `&WindowsInputInjector{}` of `newPlatformInputInjector`. -/
def WindowsInputInjector.zero : WindowsInputInjector :=
  { screenWidth := 0, screenHeight := 0, encodedWidth := 0, encodedHeight := 0,
    monitorIndex := 0, monitorInfo := none,
    monitors := { Monitors := [], VirtualWidth := 0, VirtualHeight := 0,
                  VirtualMinX := 0, VirtualMinY := 0 } }

/-- `WindowsInputInjector.Initialize`; `width` and `height` are what
`GetSystemMetrics` returns for `SM_CXSCREEN` and `SM_CYSCREEN`. -/
def WindowsInputInjector.Initialize (wii : WindowsInputInjector) (width height : Nat) :
    WindowsInputInjector :=
  { wii with screenWidth := wrapInt32 width, screenHeight := wrapInt32 height,
             encodedWidth := 1920, encodedHeight := 1080, monitorIndex := 0 }

/-- `WindowsInputInjector.SetMonitorInfo`: the returned error and the injector
after the call. The index and the monitor set are stored before the index is
examined. -/
def WindowsInputInjector.SetMonitorInfo (wii : WindowsInputInjector) (monitorIndex : Int)
    (monitors : MultiMonitorInfo) : Option String × WindowsInputInjector :=
  let wii1 := { wii with monitorIndex := monitorIndex, monitors := monitors }
  if monitorIndex = -1 then
    (none, { wii1 with screenWidth := wrapInt32 monitors.VirtualWidth,
                       screenHeight := wrapInt32 monitors.VirtualHeight,
                       monitorInfo := none })
  else if h : 0 ≤ monitorIndex ∧ monitorIndex < monitors.Monitors.length then
    let mon := monitors.Monitors.get ⟨monitorIndex.toNat, by omega⟩
    (none, { wii1 with screenWidth := wrapInt32 mon.Width,
                       screenHeight := wrapInt32 mon.Height,
                       monitorInfo := some mon })
  else
    (some s!"invalid monitor index: {monitorIndex}", wii1)

/-- The first part of `InjectMouseMove`: the desktop point
`(screenX, screenY)` computed for the encoded point `(x, y)`, in `float64`
arithmetic: every conversion, division, product and sum is rounded on its own
(the compiler for amd64 does not fuse a product with a sum). -/
def WindowsInputInjector.screenPoint (wii : WindowsInputInjector) (x y : Int) : ℚ × ℚ :=
  match wii.monitorInfo with
  | some monitorInfo =>
    let scaleX : ℚ :=
      roundFloat64 (float64OfInt monitorInfo.Width / float64OfInt wii.encodedWidth)
    let scaleY : ℚ :=
      roundFloat64 (float64OfInt monitorInfo.Height / float64OfInt wii.encodedHeight)
    let scaledX : ℚ := roundFloat64 (float64OfInt x * scaleX)
    let scaledY : ℚ := roundFloat64 (float64OfInt y * scaleY)
    (roundFloat64 (float64OfInt monitorInfo.X + scaledX),
     roundFloat64 (float64OfInt monitorInfo.Y + scaledY))
  | none =>
    if wii.monitorIndex = -1 then
      let scaleX : ℚ :=
        roundFloat64 (float64OfInt wii.monitors.VirtualWidth / float64OfInt wii.encodedWidth)
      let scaleY : ℚ :=
        roundFloat64 (float64OfInt wii.monitors.VirtualHeight / float64OfInt wii.encodedHeight)
      let scaledX : ℚ := roundFloat64 (float64OfInt x * scaleX)
      let scaledY : ℚ := roundFloat64 (float64OfInt y * scaleY)
      (roundFloat64 (float64OfInt wii.monitors.VirtualMinX + scaledX),
       roundFloat64 (float64OfInt wii.monitors.VirtualMinY + scaledY))
    else
      (float64OfInt x, float64OfInt y)

/-- `WindowsInputInjector.InjectMouseMove`: the `INPUT_MOUSE` handed to
`SendInput`. `virtualWidth` and `virtualHeight` are what `GetSystemMetrics`
returns for `SM_CXVIRTUALSCREEN` and `SM_CYVIRTUALSCREEN`. -/
def WindowsInputInjector.InjectMouseMove (wii : WindowsInputInjector)
    (virtualWidth virtualHeight : Nat) (x y : Int) : INPUT_MOUSE :=
  let screen := wii.screenPoint x y
  let absX := int32OfFloat
    (roundFloat64 (roundFloat64 (screen.1 * 65535) / float64OfInt (virtualWidth : Int)))
  let absY := int32OfFloat
    (roundFloat64 (roundFloat64 (screen.2 * 65535) / float64OfInt (virtualHeight : Int)))
  { InputType := INPUT_TYPE_MOUSE,
    Mi := { Dx := absX, Dy := absY, MouseData := 0,
            DwFlags := MOUSEEVENTF_MOVE ||| MOUSEEVENTF_ABSOLUTE,
            Time := 0, DwExtraInfo := 0 } }

/-! ### Concrete monitor sets -/

/-- Two Full-HD monitors side by side, the second to the right of the first. -/
def sideBySide : MultiMonitorInfo :=
  DetectMonitors [displayBounds 0 0 1920 1080, displayBounds 1920 0 1920 1080]

/-- Two Full-HD monitors, the second to the left of the primary one. -/
def leftOfPrimary : MultiMonitorInfo :=
  DetectMonitors [displayBounds 0 0 1920 1080, displayBounds (-1920) 0 1920 1080]

/-- One 8K monitor at the origin. -/
def eightK : MultiMonitorInfo := DetectMonitors [displayBounds 0 0 7680 4320]

/-- One display of 1366 by 768 at the origin. -/
def laptop : MultiMonitorInfo := DetectMonitors [displayBounds 0 0 1366 768]

/-- The monitor of `laptop`. -/
def laptopMonitor : MonitorInfo :=
  { Index := 0, Name := "Monitor 1", X := 0, Y := 0, Width := 1366, Height := 768,
    Primary := true }

/-- The second monitor of `sideBySide`. -/
def rightMonitor : MonitorInfo :=
  { Index := 1, Name := "Monitor 2", X := 1920, Y := 0, Width := 1920, Height := 1080,
    Primary := false }

/-- The monitor of `eightK`. -/
def eightKMonitor : MonitorInfo :=
  { Index := 0, Name := "Monitor 1", X := 0, Y := 0, Width := 7680, Height := 4320,
    Primary := true }

/-! ## Frame source (`screencapture.go`) -/

/-- Go `image.Rect`: the rectangle with the given corners, put in canonical
form. -/
def Rect (x0 y0 x1 y1 : Int) : Rectangle :=
  { Min := { X := if x0 > x1 then x1 else x0, Y := if y0 > y1 then y1 else y0 },
    Max := { X := if x0 > x1 then x0 else x1, Y := if y0 > y1 then y0 else y1 } }

/-- Go `image.RGBA`; `Pix` holds bytes. -/
structure RGBA where
  Pix : List Nat
  Stride : Int
  Rect : Rectangle
deriving DecidableEq, Repr

/-- `RGBA.Bounds`. -/
def RGBA.Bounds (p : RGBA) : Rectangle := p.Rect

/-- Go `image.NewRGBA`: a zeroed buffer of 4 bytes per pixel, rows packed. -/
def NewRGBA (r : Rectangle) : RGBA :=
  { Pix := List.replicate (4 * r.Dx * r.Dy).toNat 0, Stride := 4 * r.Dx, Rect := r }

/-- The struct `DisplayInfo`. -/
structure DisplayInfo where
  Width : Int
  Height : Int
  DPI : Int
deriving DecidableEq, Repr

/-- The operating system as the frame source sees it: `runtime.GOOS` and the
bounds of the active displays (`screenshot.NumActiveDisplays` is the length
of `displays`). -/
structure Host where
  GOOS : String
  displays : List Rectangle
deriving DecidableEq, Repr

/-- `screenshot.GetDisplayBounds`; the library answers the zero rectangle for
an index that names no display. -/
def Host.GetDisplayBounds (host : Host) (i : Int) : Rectangle :=
  if 0 ≤ i then host.displays.getD i.toNat (Rect 0 0 0 0) else Rect 0 0 0 0

/-- The implementations of the interface `PlatformCapturer`, with their
fields. -/
inductive PlatformCapturer
  | windows (displayInfo : DisplayInfo) (monitorIndex : Int) (monitors : MultiMonitorInfo)
  | linux (displayInfo : DisplayInfo)
  | darwin (displayInfo : DisplayInfo)
  | dummy (displayInfo : DisplayInfo)
deriving DecidableEq, Repr

/-- `newPlatformCapturerWithMonitor`. -/
def newPlatformCapturerWithMonitor (goos : String) (monitorIndex : Int)
    (monitors : MultiMonitorInfo) : PlatformCapturer :=
  let zero : DisplayInfo := { Width := 0, Height := 0, DPI := 0 }
  if goos = "windows" then .windows zero monitorIndex monitors
  else if goos = "linux" then .linux zero
  else if goos = "darwin" then .darwin zero
  else .dummy zero

/-- `Initialize` of each capturer: the returned error (always nil) and the
capturer after the call. -/
def PlatformCapturer.Initialize (host : Host) :
    PlatformCapturer → Option String × PlatformCapturer
  | .windows _ monitorIndex monitors =>
    if monitorIndex = -1 then
      (none, .windows { Width := monitors.VirtualWidth, Height := monitors.VirtualHeight,
                        DPI := 96 } monitorIndex monitors)
    else
      let bounds := host.GetDisplayBounds monitorIndex
      (none, .windows { Width := bounds.Dx, Height := bounds.Dy, DPI := 96 }
        monitorIndex monitors)
  | .linux _ => (none, .linux { Width := 1920, Height := 1080, DPI := 96 })
  | .darwin _ => (none, .darwin { Width := 1920, Height := 1080, DPI := 96 })
  | .dummy _ => (none, .dummy { Width := 1920, Height := 1080, DPI := 96 })

/-- A buffered Go channel of frames: the queued frames, oldest first, the
capacity, and whether `close` was called. -/
structure Chan where
  buf : List RGBA
  cap : Nat
  closed : Bool
deriving DecidableEq, Repr

/-- The non-blocking send `select { case c <- frame: default: }`: the frame
is queued when there is room and dropped otherwise; `none` is the panic of a
send on a closed channel. -/
def Chan.trySend (c : Chan) (frame : RGBA) : Option Chan :=
  if c.closed then none
  else if c.buf.length < c.cap then some { c with buf := c.buf ++ [frame] }
  else some c

/-- The receive `frame, ok := <-c` when it does not block: the oldest queued
frame, or `ok = false` (here a `none` frame) on a closed and empty channel.
The result `none` stands for a receive that blocks. -/
def Chan.recv (c : Chan) : Option (Option RGBA × Chan) :=
  match c.buf with
  | frame :: rest => some (some frame, { c with buf := rest })
  | [] => if c.closed then some (none, c) else none

/-- The struct `ScreenCapture`; `capturer` is `none` when the interface is
nil. -/
structure ScreenCapture where
  running : Bool
  frameChan : Chan
  targetFPS : Int
  capturer : Option PlatformCapturer
  monitorIndex : Int
  monitors : MultiMonitorInfo
deriving DecidableEq, Repr

/-- `NewScreenCapture`. -/
def NewScreenCapture : ScreenCapture :=
  { running := false,
    frameChan := { buf := [], cap := 2, closed := false },
    targetFPS := 30,
    capturer := none,
    monitorIndex := 0,
    monitors := { Monitors := [], VirtualWidth := 0, VirtualHeight := 0,
                  VirtualMinX := 0, VirtualMinY := 0 } }

/-- `ScreenCapture.SetMonitor`. When `Initialize` of the new capturer fails
the function returns early, with the new capturer already stored. -/
def ScreenCapture.SetMonitor (sc : ScreenCapture) (host : Host) (index : Int) :
    ScreenCapture :=
  let sc1 := { sc with monitorIndex := index }
  if sc1.running && sc1.capturer.isSome then
    let r := (newPlatformCapturerWithMonitor host.GOOS sc1.monitorIndex
      sc1.monitors).Initialize host
    { sc1 with capturer := some r.2 }
  else sc1

/-- `ScreenCapture.GetMonitors`. -/
def ScreenCapture.GetMonitors (sc : ScreenCapture) : MultiMonitorInfo := sc.monitors

/-- `ScreenCapture.GetMonitorIndex`. -/
def ScreenCapture.GetMonitorIndex (sc : ScreenCapture) : Int := sc.monitorIndex

/-- `ScreenCapture.Start`: the returned error and the frame source after the
call (on success the capture loop has been spawned). -/
def ScreenCapture.Start (sc : ScreenCapture) (host : Host) : Option String × ScreenCapture :=
  if sc.running then (some "screen capture already running", sc)
  else
    let sc1 := { sc with monitors := DetectMonitors host.displays }
    let r := (newPlatformCapturerWithMonitor host.GOOS sc1.monitorIndex
      sc1.monitors).Initialize host
    let sc2 := { sc1 with capturer := some r.2 }
    match r.1 with
    | some _ => (some "failed to initialize capturer", sc2)
    | none => (none, { sc2 with running := true })

/-- `ScreenCapture.Stop`; `none` is the panic of closing a closed channel. -/
def ScreenCapture.Stop (sc : ScreenCapture) : Option ScreenCapture :=
  if !sc.running then some sc
  else if sc.frameChan.closed then none
  else some { sc with running := false, frameChan := { sc.frameChan with closed := true } }

/-- One iteration of `captureLoop`: the loop ends when `running` is false;
`captured` is the result of `CaptureFrame` (`none` for an error, after which
the loop continues); a captured frame is offered to the queue. -/
def ScreenCapture.captureLoopStep (sc : ScreenCapture) (captured : Option RGBA) :
    Option ScreenCapture :=
  if !sc.running then some sc
  else
    match captured with
    | none => some sc
    | some frame =>
      match sc.frameChan.trySend frame with
      | some c => some { sc with frameChan := c }
      | none => none

/-- The consumer's receive on `GetFrameChannel()`, when it does not block. -/
def ScreenCapture.receive (sc : ScreenCapture) : Option (Option RGBA × ScreenCapture) :=
  match sc.frameChan.recv with
  | some (frame, c) => some (frame, { sc with frameChan := c })
  | none => none

/-- The states of a frame source that is created, started, fed by its capture
loop, drained by the frame pump and switched between monitors. -/
inductive CaptureReachable (host : Host) : ScreenCapture → Prop
  | new : CaptureReachable host NewScreenCapture
  | start {sc : ScreenCapture} :
      CaptureReachable host sc → CaptureReachable host (sc.Start host).2
  | capture {sc sc1 : ScreenCapture} (captured : Option RGBA) :
      CaptureReachable host sc → sc.captureLoopStep captured = some sc1 →
      CaptureReachable host sc1
  | receive {sc sc1 : ScreenCapture} (frame : Option RGBA) :
      CaptureReachable host sc → sc.receive = some (frame, sc1) → CaptureReachable host sc1
  | setMonitor {sc : ScreenCapture} (index : Int) :
      CaptureReachable host sc → CaptureReachable host (sc.SetMonitor host index)

/-! ## Keyboard injection (`input_windows.go`, `input.go`) -/

def INPUT_TYPE_KEYBOARD : Nat := 1

def KEYEVENTF_KEYUP : Nat := 0x0002

def VK_BACK : Nat := 0x08

def VK_TAB : Nat := 0x09

def VK_RETURN : Nat := 0x0D

def VK_SHIFT : Nat := 0x10

def VK_CONTROL : Nat := 0x11

def VK_MENU : Nat := 0x12

def VK_ESCAPE : Nat := 0x1B

def VK_SPACE : Nat := 0x20

def VK_PRIOR : Nat := 0x21

def VK_NEXT : Nat := 0x22

def VK_END : Nat := 0x23

def VK_HOME : Nat := 0x24

def VK_LEFT : Nat := 0x25

def VK_UP : Nat := 0x26

def VK_RIGHT : Nat := 0x27

def VK_DOWN : Nat := 0x28

def VK_INSERT : Nat := 0x2D

def VK_DELETE : Nat := 0x2E

def VK_LWIN : Nat := 0x5B

def VK_RWIN : Nat := 0x5C

def VK_F1 : Nat := 0x70

def VK_F2 : Nat := 0x71

def VK_F3 : Nat := 0x72

def VK_F4 : Nat := 0x73

def VK_F5 : Nat := 0x74

def VK_F6 : Nat := 0x75

def VK_F7 : Nat := 0x76

def VK_F8 : Nat := 0x77

def VK_F9 : Nat := 0x78

def VK_F10 : Nat := 0x79

def VK_F11 : Nat := 0x7A

def VK_F12 : Nat := 0x7B

/-- `convertKeyToVK`: the `uint16` virtual-key code of a key name, 0 for an
unknown key. `len(jsKey) == 1` is the length in bytes and `jsKey[0]` the
first byte. -/
def convertKeyToVK (jsKey : String) : Nat :=
  match jsKey with
  | "Backspace" => VK_BACK
  | "Tab" => VK_TAB
  | "Enter" => VK_RETURN
  | "Shift" | "ShiftLeft" | "ShiftRight" => VK_SHIFT
  | "Control" | "ControlLeft" | "ControlRight" => VK_CONTROL
  | "Alt" | "AltLeft" | "AltRight" => VK_MENU
  | "Escape" => VK_ESCAPE
  | " " | "Space" => VK_SPACE
  | "PageUp" => VK_PRIOR
  | "PageDown" => VK_NEXT
  | "End" => VK_END
  | "Home" => VK_HOME
  | "ArrowLeft" => VK_LEFT
  | "ArrowUp" => VK_UP
  | "ArrowRight" => VK_RIGHT
  | "ArrowDown" => VK_DOWN
  | "Insert" => VK_INSERT
  | "Delete" => VK_DELETE
  | "Meta" | "MetaLeft" | "OSLeft" => VK_LWIN
  | "MetaRight" | "OSRight" => VK_RWIN
  | "F1" => VK_F1
  | "F2" => VK_F2
  | "F3" => VK_F3
  | "F4" => VK_F4
  | "F5" => VK_F5
  | "F6" => VK_F6
  | "F7" => VK_F7
  | "F8" => VK_F8
  | "F9" => VK_F9
  | "F10" => VK_F10
  | "F11" => VK_F11
  | "F12" => VK_F12
  | _ =>
    if jsKey.utf8ByteSize = 1 then
      let ch := (jsKey.get 0).toNat
      if 65 ≤ ch ∧ ch ≤ 90 then ch
      else if 97 ≤ ch ∧ ch ≤ 122 then ch - 32
      else if 48 ≤ ch ∧ ch ≤ 57 then ch
      else 0
    else 0

/-- The struct `KEYBDINPUT`. -/
structure KEYBDINPUT where
  WVk : Nat
  WScan : Nat
  DwFlags : Nat
  Time : Nat
  DwExtraInfo : Nat
deriving DecidableEq, Repr

/-- The struct `INPUT_KEYBOARD` (its field `Type` is `InputType` here). -/
structure INPUT_KEYBOARD where
  InputType : Nat
  Ki : KEYBDINPUT
deriving DecidableEq, Repr

/-- `sendKeyboardInput`, given the value `ret` that `SendInput` returns. -/
def sendKeyboardInput (ret : Nat) : Option String :=
  if ret = 0 then some "SendInput failed" else none

/-- `WindowsInputInjector.InjectKeyPress`: the returned error and the inputs
handed to `SendInput` (one call per element); `ret` is what `SendInput`
returns. -/
def WindowsInputInjector.InjectKeyPress (_wii : WindowsInputInjector) (ret : Nat)
    (key : String) (pressed : Bool) : Option String × List INPUT_KEYBOARD :=
  let vkCode := convertKeyToVK key
  if vkCode = 0 then (none, [])
  else
    let flags := if !pressed then KEYEVENTF_KEYUP else 0
    let input : INPUT_KEYBOARD :=
      { InputType := INPUT_TYPE_KEYBOARD,
        Ki := { WVk := vkCode, WScan := 0, DwFlags := flags, Time := 0, DwExtraInfo := 0 } }
    (sendKeyboardInput ret, [input])

/-- The struct `InputHandler`; the injector is `none` (a nil interface) on
every platform but Windows. -/
structure InputHandler where
  injector : Option WindowsInputInjector
deriving DecidableEq, Repr

/-- `newPlatformInputInjector`, given `runtime.GOOS`. -/
def newPlatformInputInjector (goos : String) : Option WindowsInputInjector :=
  if goos = "windows" then some WindowsInputInjector.zero else none

/-- `NewInputHandler`. -/
def NewInputHandler (goos : String) : InputHandler :=
  { injector := newPlatformInputInjector goos }

/-- `InputHandler.Initialize`; `goos` is `runtime.GOOS`, `width` and `height`
are the primary screen size the injector reads from the system. -/
def InputHandler.Initialize (ih : InputHandler) (goos : String) (width height : Nat) :
    Option String × InputHandler :=
  match ih.injector with
  | none => (some ("no input injector available for platform: " ++ goos), ih)
  | some wii => (none, { ih with injector := some (wii.Initialize width height) })

/-- `InputHandler.SetMonitorInfo`. -/
def InputHandler.SetMonitorInfo (ih : InputHandler) (monitorIndex : Int)
    (monitors : MultiMonitorInfo) : Option String × InputHandler :=
  match ih.injector with
  | none => (some "no input injector available", ih)
  | some wii =>
    let r := wii.SetMonitorInfo monitorIndex monitors
    (r.1, { ih with injector := some r.2 })

/-- The struct `KeyboardEvent`. -/
structure KeyboardEvent where
  Key : String
  Down : Bool
deriving DecidableEq, Repr

/-- `InputHandler.HandleKeyboardEvent`; `none` is the panic of a method call
on the nil injector. -/
def InputHandler.HandleKeyboardEvent (ih : InputHandler) (ret : Nat) (event : KeyboardEvent) :
    Option (Option String × List INPUT_KEYBOARD) :=
  match ih.injector with
  | none => none
  | some wii => some (wii.InjectKeyPress ret event.Key event.Down)

/-! ## Control channel (`webrtc.go`) -/

/-- A value decoded by `json.Unmarshal` into `interface{}`; a JSON number is
a `float64`. -/
inductive JSONValue
  | null
  | bool (b : Bool)
  | number (f : ℚ)
  | string (s : String)
  | array
  | object
deriving DecidableEq, Repr

/-- A decoded control message, `map[string]interface{}`. -/
abbrev Message := List (String × JSONValue)

/-- The type assertion `message[k].(string)`: the value, and `ok`. -/
def Message.asString (message : Message) (k : String) : String × Bool :=
  match message.lookup k with
  | some (.string s) => (s, true)
  | _ => ("", false)

/-- The type assertion `message[k].(bool)`. -/
def Message.asBool (message : Message) (k : String) : Bool × Bool :=
  match message.lookup k with
  | some (.bool b) => (b, true)
  | _ => (false, false)

/-- The type assertion `message[k].(float64)`. -/
def Message.asFloat64 (message : Message) (k : String) : ℚ × Bool :=
  match message.lookup k with
  | some (.number f) => (f, true)
  | _ => (0, false)

/-- Go conversion `int(f)` of a `float64`: truncation towards zero. -/
def intOfFloat (f : ℚ) : Int := if 0 ≤ f then ⌊f⌋ else ⌈f⌉

/-- `WebRTCPeer.handleKeyboardInput` on the peer's input handler. -/
def handleKeyboardInput (message : Message) (inputHandler : InputHandler) (ret : Nat) :
    Option (Option String × List INPUT_KEYBOARD) :=
  let key := (message.asString "key").1
  let down := (message.asBool "down").1
  inputHandler.HandleKeyboardEvent ret { Key := key, Down := down }

/-- The control message `{type:"keyboard", key, down}`. -/
def keyboardMessage (key : String) (down : Bool) : Message :=
  [("type", .string "keyboard"), ("key", .string key), ("down", .bool down)]

/-- `WebRTCPeer.handleMonitorChange` on the peer's frame source and input
handler: the returned error and both objects after the call. -/
def handleMonitorChange (host : Host) (message : Message) (screenCapture : ScreenCapture)
    (inputHandler : InputHandler) : Option String × ScreenCapture × InputHandler :=
  let monitorIndex := message.asFloat64 "monitorIndex"
  if !monitorIndex.2 then (some "missing or invalid monitorIndex", screenCapture, inputHandler)
  else
    let index := intOfFloat monitorIndex.1
    let screenCapture1 := screenCapture.SetMonitor host index
    let monitors := screenCapture1.GetMonitors
    let r := inputHandler.SetMonitorInfo index monitors
    match r.1 with
    | some err =>
      (some ("failed to update input handler monitor info: " ++ err), screenCapture1, r.2)
    | none => (none, screenCapture1, r.2)

/-- The control message `{type:"monitor", monitorIndex:k}`. -/
def monitorMessage (k : Int) : Message :=
  [("type", .string "monitor"), ("monitorIndex", .number (k : ℚ))]

/-! ## Loops -/

/-- The loop `for i := 0; i < n; i++ { st = body(st, i) }`. -/
def forLoop {σ : Type} (n : Nat) (body : σ → Nat → σ) (init : σ) : σ :=
  (List.range n).foldl body init

/-- The same loop with a body that may panic (`none`). -/
def forLoopM {σ : Type} (n : Nat) (body : σ → Nat → Option σ) (init : σ) : Option σ :=
  (List.range n).foldlM body init

/-- Two nested loops over rows `y < h` and columns `x < w` that store
`val y x` at `idx y x` whenever `cond y x` holds. -/
def writeLoops (h w : Nat) (cond : Nat → Nat → Bool) (idx : Nat → Nat → Nat)
    (val : Nat → Nat → Nat) (l : List Nat) : List Nat :=
  forLoop h (fun l1 y =>
    forLoop w (fun l2 x => if cond y x then l2.set (idx y x) (val y x) else l2) l1) l

/-! ## Video encoder (`vp8_encoder.go`) -/

/-- The struct `VP8Encoder` without the libvpx context and configuration. An
encoder exists only for dimensions libvpx accepted, so `width*height*4` does
not leave the range of `int`. -/
structure VP8Encoder where
  width : Int
  height : Int
  fps : Int
deriving DecidableEq, Repr

/-- The three planes of a `vpx_image_t` in format I420, as byte memory. -/
structure I420 where
  yPlane : List Nat
  uPlane : List Nat
  vPlane : List Nat
deriving DecidableEq, Repr

/- In the definitions below `>>>` with a `Nat` amount is the arithmetic right
shift of Go on signed integers: it rounds towards minus infinity. -/

/-- The clamp of `rgbaToI420`: `if v < 0 { v = 0 } else if v > 255 { v = 255 }`. -/
def clampByte (v : Int) : Int := if v < 0 then 0 else if v > 255 then 255 else v

/-- The value `yVal` of `rgbaToI420` before the clamp. -/
def yValOf (r g b : Int) : Int := ((66 * r + 129 * g + 25 * b + 128) >>> (8 : Nat)) + 16

/-- The value `uVal` of `rgbaToI420` before the clamp. -/
def uValOf (r g b : Int) : Int := ((-38 * r - 74 * g + 112 * b + 128) >>> (8 : Nat)) + 128

/-- The value `vVal` of `rgbaToI420` before the clamp. -/
def vValOf (r g b : Int) : Int := ((112 * r - 94 * g - 18 * b + 128) >>> (8 : Nat)) + 128

/-- The body of the inner loop of `rgbaToI420` for the pixel `(x, y)`. A read
`rgba[i]` is `getD i 0`: `Encode` calls the conversion only on a buffer of
`width*height*4` bytes, where every index read is in range. -/
def rgbaToI420.pixel (rgba : List Nat) (width : Nat) (img : I420) (y x : Nat) : I420 :=
  let idx := (y * width + x) * 4
  let r : Int := (rgba.getD idx 0 : Nat)
  let g : Int := (rgba.getD (idx + 1) 0 : Nat)
  let b : Int := (rgba.getD (idx + 2) 0 : Nat)
  let yVal := clampByte (yValOf r g b)
  let uVal := clampByte (uValOf r g b)
  let vVal := clampByte (vValOf r g b)
  let img1 := { img with yPlane := img.yPlane.set (y * width + x) yVal.toNat }
  if y % 2 = 0 ∧ x % 2 = 0 then
    let uvIdx := (y / 2) * (width / 2) + (x / 2)
    { img1 with uPlane := img1.uPlane.set uvIdx uVal.toNat,
                vPlane := img1.vPlane.set uvIdx vVal.toNat }
  else img1

/-- The luma byte `rgbaToI420` computes for the pixel `(x, y)`. -/
def rgbaToI420.yByte (rgba : List Nat) (width y x : Nat) : Nat :=
  (clampByte (yValOf (rgba.getD ((y * width + x) * 4) 0 : Nat)
    (rgba.getD ((y * width + x) * 4 + 1) 0 : Nat)
    (rgba.getD ((y * width + x) * 4 + 2) 0 : Nat))).toNat

/-- The chroma byte U `rgbaToI420` computes for the pixel `(x, y)`. -/
def rgbaToI420.uByte (rgba : List Nat) (width y x : Nat) : Nat :=
  (clampByte (uValOf (rgba.getD ((y * width + x) * 4) 0 : Nat)
    (rgba.getD ((y * width + x) * 4 + 1) 0 : Nat)
    (rgba.getD ((y * width + x) * 4 + 2) 0 : Nat))).toNat

/-- The chroma byte V `rgbaToI420` computes for the pixel `(x, y)`. -/
def rgbaToI420.vByte (rgba : List Nat) (width y x : Nat) : Nat :=
  (clampByte (vValOf (rgba.getD ((y * width + x) * 4) 0 : Nat)
    (rgba.getD ((y * width + x) * 4 + 1) 0 : Nat)
    (rgba.getD ((y * width + x) * 4 + 2) 0 : Nat))).toNat

/-- `VP8Encoder.rgbaToI420`: the planes after the conversion. -/
def VP8Encoder.rgbaToI420 (e : VP8Encoder) (rgba : List Nat) (img : I420) : I420 :=
  forLoop e.height.toNat
    (fun img1 y => forLoop e.width.toNat (fun img2 x => rgbaToI420.pixel rgba e.width.toNat img2 y x)
      img1) img

/-- What libvpx answers during one `Encode`: the image `vpx_img_alloc`
provides (`none` when it returns nil), the result of `vpx_codec_encode`
(0 is `VPX_CODEC_OK`) and the packets of `vpx_codec_get_cx_data`, each with
the flag "is a frame packet" and its bytes. -/
structure CodecEnv where
  alloc : Option I420
  encodeRes : Int
  packets : List (Bool × List Nat)
deriving DecidableEq, Repr

/-- The outcome of `Encode`: the returned bytes and error, and the image
handed to `vpx_codec_encode` if the call was made (`none`: nothing was
converted, nothing reached the codec). -/
structure EncodeResult where
  data : List Nat
  err : Option String
  codecInput : Option I420
deriving DecidableEq, Repr

/-- `VP8Encoder.Encode`. -/
def VP8Encoder.Encode (e : VP8Encoder) (env : CodecEnv) (frameData : List Nat)
    (_frameCount : Int) : EncodeResult :=
  let expected := e.width * e.height * 4
  let got := frameData.length
  if (got : Int) ≠ expected then
    { data := [], err := some s!"invalid frame size: expected {expected}, got {got}",
      codecInput := none }
  else
    match env.alloc with
    | none => { data := [], err := some "failed to allocate image", codecInput := none }
    | some img =>
      let img1 := e.rgbaToI420 frameData img
      let res := env.encodeRes
      if res ≠ 0 then
        { data := [], err := some s!"failed to encode frame: {res}", codecInput := some img1 }
      else
        { data := ((env.packets.filter (fun pkt => pkt.1)).map (fun pkt => pkt.2)).flatten,
          err := none, codecInput := some img1 }

/-! ## Rescaler (`webrtc.go`) -/

/-- The read `pix[off]`; `none` is the panic of an index out of range. -/
def pixRead (pix : List Nat) (off : Int) : Option Nat :=
  if 0 ≤ off then pix[off.toNat]? else none

/-- The write `pix[off] = v`; `none` is the panic of an index out of range. -/
def pixWrite (pix : List Nat) (off : Int) (v : Nat) : Option (List Nat) :=
  if 0 ≤ off ∧ off.toNat < pix.length then some (pix.set off.toNat v) else none

/-- The copy `dst[dstOffset] = src[srcOffset]` of one byte. -/
def copyByte (src : List Nat) (srcOffset : Int) (dst : List Nat) (dstOffset : Int) :
    Option (List Nat) :=
  match pixRead src srcOffset with
  | some v => pixWrite dst dstOffset v
  | none => none

/-- The body of the inner loop of `downscaleFrame` for the target column
`x`. -/
def downscaleFrame.pixel (src : RGBA) (xRatio srcRowOffset dstRowOffset : Int)
    (dst : RGBA) (x : Nat) : Option RGBA :=
  let srcX := ((x : Int) * xRatio) >>> (16 : Nat)
  let srcOffset := srcRowOffset + srcX * 4
  let dstOffset := dstRowOffset + (x : Int) * 4
  (copyByte src.Pix srcOffset dst.Pix dstOffset).bind fun p0 =>
  (copyByte src.Pix (srcOffset + 1) p0 (dstOffset + 1)).bind fun p1 =>
  (copyByte src.Pix (srcOffset + 2) p1 (dstOffset + 2)).bind fun p2 =>
  (copyByte src.Pix (srcOffset + 3) p2 (dstOffset + 3)).map fun p3 =>
  { dst with Pix := p3 }

/-- The body of the outer loop of `downscaleFrame` for the target row `y`. -/
def downscaleFrame.row (src : RGBA) (targetWidth xRatio yRatio : Int) (dst : RGBA)
    (y : Nat) : Option RGBA :=
  let srcY := ((y : Int) * yRatio) >>> (16 : Nat)
  let srcRowOffset := srcY * src.Stride
  let dstRowOffset := (y : Int) * dst.Stride
  forLoopM targetWidth.toNat (downscaleFrame.pixel src xRatio srcRowOffset dstRowOffset) dst

/-- `WebRTCPeer.downscaleFrame`; `none` is a panic (an index out of range or
a division by zero). `srcWidth << 16` is `srcWidth * 65536`, Go's `/` is
`Int.tdiv`. -/
def downscaleFrame (src : RGBA) (targetWidth targetHeight : Int) : Option RGBA :=
  let srcBounds := src.Bounds
  let srcWidth := srcBounds.Dx
  let srcHeight := srcBounds.Dy
  if srcWidth = targetWidth ∧ srcHeight = targetHeight then some src
  else
    let dst := NewRGBA (Rect 0 0 targetWidth targetHeight)
    if targetWidth = 0 ∨ targetHeight = 0 then none
    else
      let xRatio := Int.tdiv (srcWidth * 65536) targetWidth
      let yRatio := Int.tdiv (srcHeight * 65536) targetHeight
      forLoopM targetHeight.toNat (downscaleFrame.row src targetWidth xRatio yRatio) dst

/-- A frame as every capturer produces it (`image.NewRGBA` of a rectangle at
the origin, then filled): rows packed, 4 bytes per pixel. -/
def RGBA.Packed (p : RGBA) : Prop :=
  p.Rect.Min = { X := 0, Y := 0 } ∧ 0 ≤ p.Rect.Max.X ∧ 0 ≤ p.Rect.Max.Y ∧
  p.Stride = 4 * p.Rect.Dx ∧ (p.Pix.length : Int) = 4 * p.Rect.Dx * p.Rect.Dy

/-! ## Signal transport (`signalling.go`) -/

/-- The struct `SignalMessage` (its field `Type` is `MsgType` here); `Data`
is the raw JSON text. -/
structure SignalMessage where
  MsgType : String
  Data : String
  Timestamp : Int
deriving DecidableEq, Repr

/-- The struct `SignalClient` without its HTTP client. -/
structure SignalClient where
  serverURL : String
  sessionID : String
  token : String
  lastPollTime : Int
deriving DecidableEq, Repr

/-- `NewSignalClient`. -/
def NewSignalClient (serverURL sessionID token : String) : SignalClient :=
  { serverURL := serverURL, sessionID := sessionID, token := token, lastPollTime := 0 }

/-- The decoded body of a poll response. -/
structure PollBody where
  Success : Bool
  Data : List SignalMessage
deriving DecidableEq, Repr

/-- What the network answers to one poll: the request cannot be built, the
transport fails, or a response arrives with a status code and a body that
decodes (`some`) or not (`none`). -/
inductive PollOutcome
  | requestError
  | transportError
  | response (statusCode : Nat) (body : Option PollBody)
deriving DecidableEq, Repr

/-- The URL `PollSignals` requests. -/
def SignalClient.pollURL (sc : SignalClient) : String :=
  let serverURL := sc.serverURL
  let sessionID := sc.sessionID
  let token := sc.token
  let since := sc.lastPollTime
  s!"{serverURL}/api/rc/signalling?sessionId={sessionID}&token={token}&since={since}&role=agent"

/-- `SignalClient.PollSignals`: the returned messages (empty for nil) and
error, and the client after the call. -/
def SignalClient.PollSignals (sc : SignalClient) (net : PollOutcome) :
    (List SignalMessage × Option String) × SignalClient :=
  match net with
  | .requestError => (([], some "failed to create request"), sc)
  | .transportError => (([], some "failed to poll signals"), sc)
  | .response statusCode body =>
    if statusCode ≠ 200 then (([], some "poll request failed"), sc)
    else
      match body with
      | none => (([], some "failed to decode response"), sc)
      | some result =>
        if !result.Success then (([], some "poll failed"), sc)
        else
          match result.Data.getLast? with
          | some last => ((result.Data, none), { sc with lastPollTime := last.Timestamp })
          | none => ((result.Data, none), sc)

/-! ### Concrete frame sources, injectors and messages -/

/-- A Windows host with two Full-HD displays side by side. -/
def windowsHost : Host :=
  { GOOS := "windows",
    displays := [displayBounds 0 0 1920 1080, displayBounds 1920 0 1920 1080] }

/-- The frame source of a session on `windowsHost` after `Start`. -/
def startedCapture : ScreenCapture := (NewScreenCapture.Start windowsHost).2

/-- The input handler of that session after `Initialize` and the
`SetMonitorInfo` of `Session.run`. -/
def sessionInput : InputHandler :=
  ((((NewInputHandler "windows").Initialize "windows" 1920 1080).2).SetMonitorInfo
    startedCapture.GetMonitorIndex startedCapture.GetMonitors).2

/-- An initialised injector with the virtual desktop of `sideBySide`
selected. -/
def virtualInjector : WindowsInputInjector :=
  ((WindowsInputInjector.zero.Initialize 1920 1080).SetMonitorInfo (-1) sideBySide).2

/-- One display of 1920 by 1080 whose origin is `(100, 50)`. -/
def offsetDisplay : List Rectangle := [displayBounds 100 50 1920 1080]

/-- A frame of one pixel with the given red value. -/
def tinyFrame (red : Nat) : RGBA :=
  { Pix := [red, 0, 0, 255], Stride := 4, Rect := Rect 0 0 1 1 }

/-- The frame source `startedCapture` after its capture loop queued two
frames. -/
def fullCapture : ScreenCapture :=
  { startedCapture with
    frameChan := { startedCapture.frameChan with buf := [tinyFrame 1, tinyFrame 2] } }

/-- A buffer of 2 by 2 pixels: red, green, blue, white. -/
def fourPixels : List Nat :=
  [255, 0, 0, 255, 0, 255, 0, 255, 0, 0, 255, 255, 255, 255, 255, 255]

/-- Zeroed planes for an image of 2 by 2 pixels. -/
def fourPixelPlanes : I420 := { yPlane := [0, 0, 0, 0], uPlane := [0], vPlane := [0] }

/-- A codec that allocates `fourPixelPlanes` and produces no packet. -/
def idleCodec : CodecEnv := { alloc := some fourPixelPlanes, encodeRes := 0, packets := [] }

/-- A black frame of the encoded size. -/
def fullHDFrame : RGBA := NewRGBA (Rect 0 0 1920 1080)

/-- Two signals, stamped 8 and 9. -/
def twoSignals : List SignalMessage :=
  [{ MsgType := "offer", Data := "sdp", Timestamp := 8 },
   { MsgType := "ice-candidate", Data := "c", Timestamp := 9 }]

/-- A signal client whose cursor stands at 7. -/
def polledClient : SignalClient :=
  { serverURL := "https://srv", sessionID := "S1", token := "T", lastPollTime := 7 }

/-! ## Mouse injection and message dispatch (`input_windows.go`, `input.go`, `webrtc.go`) -/

def MOUSEEVENTF_LEFTDOWN : Nat := 0x0002

def MOUSEEVENTF_LEFTUP : Nat := 0x0004

def MOUSEEVENTF_RIGHTDOWN : Nat := 0x0008

def MOUSEEVENTF_RIGHTUP : Nat := 0x0010

def MOUSEEVENTF_MIDDLEDOWN : Nat := 0x0020

def MOUSEEVENTF_MIDDLEUP : Nat := 0x0040

def MOUSEEVENTF_WHEEL : Nat := 0x0800

def WHEEL_DELTA : Nat := 120

/-- `sendMouseInput`, given the value `ret` that `SendInput` returns. -/
def sendMouseInput (ret : Nat) : Option String :=
  if ret = 0 then some "SendInput failed" else none

/-- The `switch` of `InjectMouseButton`: the flags of a button transition,
`none` for the `default` case. -/
def mouseButtonFlags (button : String) (pressed : Bool) : Option Nat :=
  match button with
  | "left" => some (if pressed then MOUSEEVENTF_LEFTDOWN else MOUSEEVENTF_LEFTUP)
  | "right" => some (if pressed then MOUSEEVENTF_RIGHTDOWN else MOUSEEVENTF_RIGHTUP)
  | "middle" | "center" => some (if pressed then MOUSEEVENTF_MIDDLEDOWN else MOUSEEVENTF_MIDDLEUP)
  | _ => none

/-- `WindowsInputInjector.InjectMouseButton`: the returned error and the
inputs handed to `SendInput`. -/
def WindowsInputInjector.InjectMouseButton (_wii : WindowsInputInjector) (ret : Nat)
    (button : String) (pressed : Bool) : Option String × List INPUT_MOUSE :=
  match mouseButtonFlags button pressed with
  | none => (some s!"unknown mouse button: {button}", [])
  | some flags =>
    (sendMouseInput ret,
      [{ InputType := INPUT_TYPE_MOUSE,
         Mi := { Dx := 0, Dy := 0, MouseData := 0, DwFlags := flags, Time := 0,
                 DwExtraInfo := 0 } }])

/-- Go conversion `uint32(n)` of an integer: reduction modulo `2^32`. -/
def wrapUint32 (n : Int) : Nat := (n % 4294967296).toNat

/-- `WindowsInputInjector.InjectMouseScroll`: the returned error and the
inputs handed to `SendInput`. The amount is `uint32(int32(-deltaY))`. -/
def WindowsInputInjector.InjectMouseScroll (_wii : WindowsInputInjector) (ret : Nat)
    (_deltaX deltaY : Int) : Option String × List INPUT_MOUSE :=
  let scrollAmount := wrapInt32 (-deltaY)
  (sendMouseInput ret,
    [{ InputType := INPUT_TYPE_MOUSE,
       Mi := { Dx := 0, Dy := 0, MouseData := wrapUint32 scrollAmount,
               DwFlags := MOUSEEVENTF_WHEEL, Time := 0, DwExtraInfo := 0 } }])

/-- What Windows answers to the injector: the extents of the virtual screen
(`GetSystemMetrics` 78 and 79) and the return value of `SendInput`. -/
structure SysEnv where
  virtualWidth : Nat
  virtualHeight : Nat
  sendInputRet : Nat
deriving DecidableEq, Repr

/-- The struct `MouseEvent` (its field `Type` is `EventType` here). -/
structure MouseEvent where
  EventType : String
  X : Int
  Y : Int
  Button : String
  Down : Bool
  DeltaX : Int
  DeltaY : Int
deriving DecidableEq, Repr

/-- `InputHandler.HandleMouseEvent`: the returned error and the inputs handed
to `SendInput`; `none` is the panic of a method call on the nil injector. -/
def InputHandler.HandleMouseEvent (ih : InputHandler) (sys : SysEnv) (event : MouseEvent) :
    Option (Option String × List INPUT_MOUSE) :=
  match event.EventType with
  | "move" =>
    ih.injector.map fun wii =>
      (sendMouseInput sys.sendInputRet,
        [wii.InjectMouseMove sys.virtualWidth sys.virtualHeight event.X event.Y])
  | "button" =>
    ih.injector.map fun wii => wii.InjectMouseButton sys.sendInputRet event.Button event.Down
  | "scroll" =>
    ih.injector.map fun wii => wii.InjectMouseScroll sys.sendInputRet event.DeltaX event.DeltaY
  | _ => some (some ("unknown mouse event type: " ++ event.EventType), [])

/-- `WebRTCPeer.handleMouseInput` on the peer's input handler. A message with
another `eventType` falls through the `switch` to `return nil`. -/
def handleMouseInput (message : Message) (inputHandler : InputHandler) (sys : SysEnv) :
    Option (Option String × List INPUT_MOUSE) :=
  let eventType := (message.asString "eventType").1
  match eventType with
  | "move" =>
    let x := (message.asFloat64 "x").1
    let y := (message.asFloat64 "y").1
    inputHandler.HandleMouseEvent sys
      { EventType := "move", X := intOfFloat x, Y := intOfFloat y, Button := "", Down := false,
        DeltaX := 0, DeltaY := 0 }
  | "button" =>
    let button := (message.asString "button").1
    let down := (message.asBool "down").1
    inputHandler.HandleMouseEvent sys
      { EventType := "button", X := 0, Y := 0, Button := button, Down := down,
        DeltaX := 0, DeltaY := 0 }
  | "scroll" =>
    let deltaX := (message.asFloat64 "deltaX").1
    let deltaY := (message.asFloat64 "deltaY").1
    inputHandler.HandleMouseEvent sys
      { EventType := "scroll", X := 0, Y := 0, Button := "", Down := false,
        DeltaX := intOfFloat deltaX, DeltaY := intOfFloat deltaY }
  | _ => some (none, [])

/-- What one call of `HandleDataChannel` returns and does: the error, the
mouse and keyboard inputs handed to `SendInput`, and the frame source and
input handler after the call. -/
structure ControlResult where
  err : Option String
  mouse : List INPUT_MOUSE
  keyboard : List INPUT_KEYBOARD
  screenCapture : ScreenCapture
  inputHandler : InputHandler
deriving DecidableEq, Repr

/-- `WebRTCPeer.HandleDataChannel`; `decoded` is what `json.Unmarshal` makes
of the message bytes (`none` when it returns an error); the result `none` is
a panic. -/
def HandleDataChannel (host : Host) (sys : SysEnv) (decoded : Option Message)
    (screenCapture : ScreenCapture) (inputHandler : InputHandler) : Option ControlResult :=
  let failed (msg : String) : Option ControlResult :=
    some { err := some msg, mouse := [], keyboard := [], screenCapture := screenCapture,
           inputHandler := inputHandler }
  match decoded with
  | none => failed "invalid data channel message"
  | some message =>
    let msgType := message.asString "type"
    if !msgType.2 then failed "missing message type"
    else
      match msgType.1 with
      | "mouse" =>
        (handleMouseInput message inputHandler sys).map fun r =>
          { err := r.1, mouse := r.2, keyboard := [], screenCapture := screenCapture,
            inputHandler := inputHandler }
      | "keyboard" =>
        (handleKeyboardInput message inputHandler sys.sendInputRet).map fun r =>
          { err := r.1, mouse := [], keyboard := r.2, screenCapture := screenCapture,
            inputHandler := inputHandler }
      | "monitor" =>
        let r := handleMonitorChange host message screenCapture inputHandler
        some { err := r.1, mouse := [], keyboard := [], screenCapture := r.2.1,
               inputHandler := r.2.2 }
      | _ => failed ("unknown message type: " ++ msgType.1)

/-- The named keys of the documented key vocabulary. -/
def documentedKeyNames : List String :=
  ["Backspace", "Tab", "Enter", "ShiftLeft", "ShiftRight", "ControlLeft", "ControlRight",
   "AltLeft", "AltRight", "Escape", "Space", "PageUp", "PageDown", "End", "Home",
   "ArrowLeft", "ArrowUp", "ArrowRight", "ArrowDown", "Insert", "Delete", "MetaLeft",
   "MetaRight", "F1", "F2", "F3", "F4", "F5", "F6", "F7", "F8", "F9", "F10", "F11", "F12"]

/-- The documented key vocabulary: a named key, or a single character among
`A..Z`, `a..z`, `0..9`. -/
def documentedKey (key : String) : Prop :=
  key ∈ documentedKeyNames ∨
  ∃ c : Char, key = String.singleton c ∧
    ((65 ≤ c.toNat ∧ c.toNat ≤ 90) ∨ (97 ≤ c.toNat ∧ c.toNat ≤ 122) ∨
     (48 ≤ c.toNat ∧ c.toNat ≤ 57))

/-- The further names `convertKeyToVK` recognises. -/
def keyAliases : List String := ["Shift", "Control", "Alt", " ", "Meta", "OSLeft", "OSRight"]

/-- `Stop` called `n` times in a row; `none` is a panic. -/
def ScreenCapture.stopTimes : Nat → ScreenCapture → Option ScreenCapture
  | 0, sc => some sc
  | n + 1, sc => (sc.Stop).bind (ScreenCapture.stopTimes n)

/-- The control message `{type:"mouse", eventType:"drag"}`. -/
def dragMessage : Message := [("type", .string "mouse"), ("eventType", .string "drag")]

/-- A Windows system with a virtual screen of 3840 by 1080. -/
def windowsSys : SysEnv := { virtualWidth := 3840, virtualHeight := 1080, sendInputRet := 1 }

/-! ## Virtual-desktop composition (`screencapture.go`) -/

/-- Go `RGBA.PixOffset`: the index in `Pix` of the first byte of the pixel at
`(x, y)`. -/
def RGBA.PixOffset (p : RGBA) (x y : Int) : Int :=
  (y - p.Rect.Min.Y) * p.Stride + (x - p.Rect.Min.X) * 4

/-- Byte `c` (of 4) of the pixel at `(x, y)`; `none` when the index is outside
`Pix`. -/
def RGBA.channel (p : RGBA) (x y : Int) (c : Nat) : Option Nat :=
  pixRead p.Pix (p.PixOffset x y + c)

/-- The call `copy(dst[d:d+4], src[s:s+4])`; `none` is the panic of a slice
bound out of range (both buffers have their capacity equal to their
length). -/
def copyPixel (dst : List Nat) (d : Int) (src : List Nat) (s : Int) : Option (List Nat) :=
  if 0 ≤ d ∧ d + 4 ≤ dst.length ∧ 0 ≤ s ∧ s + 4 ≤ src.length then
    some ((((dst.set d.toNat (src.getD s.toNat 0)).set (d.toNat + 1)
      (src.getD (s.toNat + 1) 0)).set (d.toNat + 2) (src.getD (s.toNat + 2) 0)).set
      (d.toNat + 3) (src.getD (s.toNat + 3) 0))
  else none

/-- The body of the inner loop of `captureVirtualDesktop` for the column `x`
of the row `y` of the capture `img`. -/
def captureVirtualDesktop.pixel (monitors : MultiMonitorInfo) (img : RGBA)
    (offsetX offsetY : Int) (y : Nat) (canvas : RGBA) (x : Nat) : Option RGBA :=
  let srcOffset := (y : Int) * img.Stride + (x : Int) * 4
  let dstX := offsetX + (x : Int)
  let dstY := offsetY + (y : Int)
  let dstOffset := dstY * canvas.Stride + dstX * 4
  if dstX ≥ 0 ∧ dstX < monitors.VirtualWidth ∧ dstY ≥ 0 ∧ dstY < monitors.VirtualHeight then
    (copyPixel canvas.Pix dstOffset img.Pix srcOffset).map fun p => { canvas with Pix := p }
  else some canvas

/-- The body of the loop of `captureVirtualDesktop` over the monitors;
`captureDisplay` is `screenshot.CaptureDisplay`, `none` its error. -/
def captureVirtualDesktop.monitor (monitors : MultiMonitorInfo)
    (captureDisplay : Int → Option RGBA) (canvas : RGBA) (mon : MonitorInfo) : Option RGBA :=
  match captureDisplay mon.Index with
  | none => some canvas
  | some img =>
    let offsetX := mon.X - monitors.VirtualMinX
    let offsetY := mon.Y - monitors.VirtualMinY
    forLoopM mon.Height.toNat (fun cv y =>
      forLoopM mon.Width.toNat (captureVirtualDesktop.pixel monitors img offsetX offsetY y) cv)
      canvas

/-- `WindowsCapturer.captureVirtualDesktop`; the error it returns is always
`nil`, `none` is a panic. -/
def captureVirtualDesktop (monitors : MultiMonitorInfo) (captureDisplay : Int → Option RGBA) :
    Option RGBA :=
  monitors.Monitors.foldlM (captureVirtualDesktop.monitor monitors captureDisplay)
    (NewRGBA (Rect 0 0 monitors.VirtualWidth monitors.VirtualHeight))

/-- Whether the point `(x, y)` of the virtual desktop lies in the rectangle of
the monitor `m`. -/
def MonitorInfo.covers (m : MonitorInfo) (x y : Int) : Prop :=
  m.X ≤ x ∧ x < m.X + m.Width ∧ m.Y ≤ y ∧ y < m.Y + m.Height

/-- Whether the rectangles of two monitors have no point in common. -/
def MonitorInfo.disjoint (a b : MonitorInfo) : Prop :=
  a.X + a.Width ≤ b.X ∨ b.X + b.Width ≤ a.X ∨ a.Y + a.Height ≤ b.Y ∨ b.Y + b.Height ≤ a.Y

/-- Whether the rectangle of the monitor `m` has a size that is not negative
and lies inside the virtual bounds of `monitors`. -/
def MonitorInfo.within (m : MonitorInfo) (monitors : MultiMonitorInfo) : Prop :=
  0 ≤ m.Width ∧ 0 ≤ m.Height ∧ monitors.VirtualMinX ≤ m.X ∧
  m.X + m.Width ≤ monitors.VirtualMinX + monitors.VirtualWidth ∧
  monitors.VirtualMinY ≤ m.Y ∧
  m.Y + m.Height ≤ monitors.VirtualMinY + monitors.VirtualHeight

/-- A capture of `width` by `height` pixels: origin `(0, 0)`, every row of
`Stride` bytes holds its `width` pixels, and `Pix` holds every row. -/
def RGBA.Sized (p : RGBA) (width height : Int) : Prop :=
  p.Rect.Min = { X := 0, Y := 0 } ∧ p.Rect.Max = { X := width, Y := height } ∧
  0 ≤ width ∧ 0 ≤ height ∧ 4 * width ≤ p.Stride ∧
  p.Stride * height ≤ (p.Pix.length : Int)

/-- Two captures of 1 by 1 side by side: display 0 is red, display 1 fails. -/
def twoDisplays : MultiMonitorInfo :=
  DetectMonitors [displayBounds 0 0 1 1, displayBounds 1 0 1 1]

/-- The captures of `twoDisplays`: display 0 gives a red pixel, display 1 an
error. -/
def redThenError (index : Int) : Option RGBA :=
  if index = 0 then some (tinyFrame 9) else none

/-- A frame of 2 by 1 with a padded row of 12 bytes. -/
def paddedFrame : RGBA :=
  { Pix := [1, 2, 3, 255, 4, 5, 6, 255, 0, 0, 0, 0], Stride := 12, Rect := Rect 0 0 2 1 }

/-- A packed frame of 2 by 1. -/
def twoPixelFrame : RGBA :=
  { Pix := [1, 2, 3, 255, 4, 5, 6, 255], Stride := 8, Rect := Rect 0 0 2 1 }

/-! ## Properties of the session manager -/

theorem Session.runStep_SessionID (env : RunEnv) (s : Session) :
    (s.runStep env).SessionID = s.SessionID := by
  unfold Session.runStep Session.setupWebRTC Session.cleanup
  cases s.pc <;> simp only []
  · split <;> rfl
  · split <;> rename_i h <;> split at h <;> cases h <;> rfl
  · split <;> rfl

theorem Session.runStep_Status (env : RunEnv) (s : Session) :
    s.pc = RunPoint.spawned ∨ (s.runStep env).Status = "ended" ∨
      (s.runStep env).Status = s.Status := by
  unfold Session.runStep Session.setupWebRTC Session.cleanup
  cases s.pc <;> simp only []
  · exact Or.inl trivial
  · split <;> simp
  · split <;> rename_i h <;> split at h <;> cases h <;> simp
  · split <;> simp
  · simp

theorem World.Consistent.modify {w : World} (hw : w.Consistent) (f : Session → Session)
    (hf : ∀ s, (f s).SessionID = s.SessionID) (a : Nat) :
    World.Consistent { w with heap := w.heap.modify f a } := by
  intro e he
  obtain ⟨s, hs, hid⟩ := hw e he
  by_cases hae : a = e.2
  · refine ⟨f s, ?_, by rw [hf, hid]⟩
    simp [List.getElem?_modify, hae, hs]
  · exact ⟨s, by simp [List.getElem?_modify, hae, hs], hid⟩

theorem lookup_isSome_iff_mem_ids (w : World) (sessionID : String) :
    (w.rcManager.sessions.lookup sessionID).isSome ↔ sessionID ∈ w.ids := by
  simp [World.ids, List.lookup_isSome_iff]

theorem StartSession_consistent {w : World} (hw : w.Consistent)
    (sessionID token assetID orgID : String) :
    (StartSession w sessionID token assetID orgID).2.Consistent := by
  unfold StartSession
  split
  · exact hw
  · intro e he
    simp only [List.mem_append, List.mem_singleton] at he
    rcases he with he | rfl
    · obtain ⟨s, hs, hid⟩ := hw e he
      have hlt : e.2 < w.heap.length := by
        by_contra hcon
        rw [List.getElem?_eq_none (by omega)] at hs
        cases hs
      exact ⟨s, by simp [List.getElem?_append_left hlt, hs], hid⟩
    · exact ⟨_, List.getElem?_concat_length _ _, rfl⟩

theorem StopSession_consistent {w : World} (hw : w.Consistent) (sessionID : String) :
    (StopSession w sessionID).2.Consistent := by
  unfold StopSession
  split
  · exact hw
  · rename_i a _
    have h1 := hw.modify (fun s => { s with cancelled := true }) (fun _ => rfl) a
    intro e he
    exact h1 e (List.mem_of_mem_filter he)

theorem checkForRemoteControlSession_consistent {w : World} (hw : w.Consistent)
    (order : List (String × Nat)) (resp : Option PollResult) :
    (checkForRemoteControlSession w order resp).Consistent := by
  unfold checkForRemoteControlSession
  split
  · exact hw
  · split
    · split
      · split
        · exact hw
        · exact StartSession_consistent (StopSession_consistent hw _) _ _ _ _
      · exact StartSession_consistent hw _ _ _ _
    · exact hw

theorem Reachable.consistent {w : World} (hw : Reachable w) : w.Consistent := by
  induction hw with
  | init serverURL => intro e he; simp [NewManager] at he
  | step _ hstep ih =>
    cases hstep with
    | start => exact StartSession_consistent ih _ _ _ _
    | stop => exact StopSession_consistent ih _
    | run a env => exact ih.modify _ (Session.runStep_SessionID env) a
    | poll => exact checkForRemoteControlSession_consistent ih _ _
    | conn a state =>
      refine ih.modify _ (fun s => ?_) a
      split <;> rfl

theorem GetActiveSession_eq_some {w : World} {order : List (String × Nat)} {s : Session}
    (h : GetActiveSession w order = some s) :
    ∃ e ∈ order, w.heap[e.2]? = some s ∧ s.Status = "active" := by
  unfold GetActiveSession at h
  obtain ⟨e, he, hs⟩ := List.exists_of_findSome?_eq_some h
  refine ⟨e, he, ?_⟩
  split at hs
  · split at hs
    · cases hs
      exact ⟨by assumption, by assumption⟩
    · cases hs
  · cases hs

theorem StopSession_not_mem_ids (w : World) (sessionID : String) :
    sessionID ∉ (StopSession w sessionID).2.ids := by
  unfold StopSession
  split
  · rename_i h
    intro hmem
    have := (lookup_isSome_iff_mem_ids w sessionID).2 hmem
    rw [h] at this
    cases this
  · simp [World.ids]

theorem StartSession_ids (w : World) (sessionID token assetID orgID : String) :
    sessionID ∈ (StartSession w sessionID token assetID orgID).2.ids ∧
    ∀ other, other ≠ sessionID → other ∉ w.ids →
      other ∉ (StartSession w sessionID token assetID orgID).2.ids := by
  unfold StartSession
  split
  · rename_i a h
    refine ⟨(lookup_isSome_iff_mem_ids w sessionID).1 (by rw [h]; rfl), fun _ _ h2 => h2⟩
  · refine ⟨by simp [World.ids], fun other hne h2 => ?_⟩
    simp only [World.ids, List.map_append, List.mem_append, not_or]
    exact ⟨h2, by simpa using hne⟩

/-- C1 (single active session), evaluated on the code: two reachable states
in which the registry holds two sessions with `Status = "active"`.
`raceWorld` is reached by two polls and two `run` steps: the second poll
arrives while `S1` is still pending, so `GetActiveSession` finds nothing to
stop. `directWorld` is reached by `StartSession` for `S2` while `S1` is
active: `StartSession` looks only for the same id. -/
theorem C1_two_active_sessions_reachable :
    Reachable raceWorld ∧
    raceWorld.activeSessions = [("S1", 0), ("S2", 1)] ∧
    Reachable directWorld ∧
    directWorld.activeSessions = [("S1", 0), ("S2", 1)] ∧
    ¬ raceWorld.activeSessions.length ≤ 1 ∧ ¬ directWorld.activeSessions.length ≤ 1 := by
  refine ⟨?_, by decide, ?_, by decide, by decide, by decide⟩
  · have h0 : Reachable (NewManager "https://srv") := Reachable.init _
    have h1 : Reachable racePolled1 :=
      h0.step (Step.poll _ [] (some (pendingPoll "S1")) (List.Perm.refl _))
    have h2 : Reachable racePolled2 :=
      h1.step (Step.poll _ _ (some (pendingPoll "S2")) (List.Perm.refl _))
    exact (h2.step (Step.run _ 0 okEnv)).step (Step.run _ 1 okEnv)
  · have h0 : Reachable (NewManager "https://srv") := Reachable.init _
    have h1 : Reachable leakActive :=
      (h0.step (Step.start _ "S1" "T" "A" "O")).step (Step.run _ 0 okEnv)
    exact (h1.step (Step.start _ "S2" "T" "A" "O")).step (Step.run _ 1 okEnv)

/-- C2 (ended sessions leave the registry), evaluated on the code: `S1` is
started, `run` sets it active and starts the capture, then `setupWebRTC` fails
and `run` returns through `cleanup`. The session then has `Status = "ended"`,
its id is still a key of the registry, and `StartSession` with the same id
returns an error. -/
theorem C2_ended_session_stays_registered :
    Reachable leakWorld ∧
    leakWorld.heap[0]?.map (fun s => (s.SessionID, s.Status, s.pc))
      = some ("S1", "ended", RunPoint.returned) ∧
    leakWorld.rcManager.sessions = [("S1", 0)] ∧
    (StartSession leakWorld "S1" "T" "A" "O").1 = some "session S1 already exists" := by
  refine ⟨?_, by decide, by decide, by decide⟩
  have h0 : Reachable (NewManager "https://srv") := Reachable.init _
  exact (((h0.step (Step.start _ "S1" "T" "A" "O")).step (Step.run _ 0 okEnv)).step
    (Step.run _ 0 okEnv)).step (Step.run _ 0 peerFailEnv)

/-- C3 (pending-session poll handling): in a reachable state, when the poll
returns a non-empty session id and `GetActiveSession` returns the session
`s1`, then (a) if the ids differ the handler is `StopSession s1` (which
succeeds) followed by `StartSession` of the new id, and afterwards the
registry has the new id as a key and not the id of `s1`; (b) if the ids are
equal the whole state is unchanged. -/
theorem C3_poll_replaces_active_or_noop (w : World) (hw : Reachable w)
    (order : List (String × Nat)) (hperm : order.Perm w.rcManager.sessions)
    (result : PollResult) (hs : result.Success = true)
    (hid : result.Session.SessionID ≠ "")
    (s1 : Session) (hact : GetActiveSession w order = some s1) :
    (s1.SessionID ≠ result.Session.SessionID →
      checkForRemoteControlSession w order (some result)
        = (StartSession (StopSession w s1.SessionID).2 result.Session.SessionID
            result.Session.Token result.Session.AssetID result.Session.OrgID).2 ∧
      (StopSession w s1.SessionID).1 = none ∧
      result.Session.SessionID ∈ (checkForRemoteControlSession w order (some result)).ids ∧
      s1.SessionID ∉ (checkForRemoteControlSession w order (some result)).ids) ∧
    (s1.SessionID = result.Session.SessionID →
      checkForRemoteControlSession w order (some result) = w) := by
  have hcond : (result.Success && result.Session.SessionID != "") = true := by
    simp [hs, hid]
  constructor
  · intro hne
    have heq : checkForRemoteControlSession w order (some result)
        = (StartSession (StopSession w s1.SessionID).2 result.Session.SessionID
            result.Session.Token result.Session.AssetID result.Session.OrgID).2 := by
      simp only [checkForRemoteControlSession, hcond, hact, if_true, if_neg hne]
    refine ⟨heq, ?_, ?_, ?_⟩
    · obtain ⟨e, he, hget, _⟩ := GetActiveSession_eq_some hact
      have hmem : e ∈ w.rcManager.sessions := hperm.mem_iff.1 he
      obtain ⟨s, hs1, hkey⟩ := hw.consistent e hmem
      have hss : s = s1 := Option.some.inj (hs1.symm.trans hget)
      have hin : s1.SessionID ∈ w.ids := by
        rw [← hss, hkey]
        exact List.mem_map_of_mem Prod.fst hmem
      have hsome := (lookup_isSome_iff_mem_ids w s1.SessionID).2 hin
      unfold StopSession
      split
      · rename_i hnone
        rw [hnone] at hsome
        cases hsome
      · rfl
    · rw [heq]
      exact (StartSession_ids _ _ _ _ _).1
    · rw [heq]
      exact (StartSession_ids _ _ _ _ _).2 _ hne (StopSession_not_mem_ids w _)
  · intro heq
    simp only [checkForRemoteControlSession, hcond, hact, if_true, if_pos heq]

/-- Witness for C3: in `raceWorld` the poll returns `S3` while
`GetActiveSession` returns `S1`. -/
theorem C3_poll_replaces_active_or_noop_witness :
    (GetActiveSession raceWorld raceWorld.rcManager.sessions).map (fun s => s.SessionID)
      = some "S1" ∧
    "S3" ∈ (checkForRemoteControlSession raceWorld raceWorld.rcManager.sessions
      (some (pendingPoll "S3"))).ids ∧
    "S1" ∉ (checkForRemoteControlSession raceWorld raceWorld.rcManager.sessions
      (some (pendingPoll "S3"))).ids := by
  have hact : GetActiveSession raceWorld raceWorld.rcManager.sessions
      = some { SessionID := "S1", Token := "T", ServerURL := "https://srv", AssetID := "A",
               OrgID := "O", Status := "active", cancelled := false,
               screenCaptureRunning := false, webrtcPeer := NewWebRTCPeer,
               pc := .activated } := by decide
  have h := (C3_poll_replaces_active_or_noop raceWorld
    ((((Reachable.init "https://srv").step
        (Step.poll _ [] (some (pendingPoll "S1")) (List.Perm.refl _))).step
        (Step.poll _ _ (some (pendingPoll "S2")) (List.Perm.refl _))).step
        (Step.run _ 0 okEnv) |>.step (Step.run _ 1 okEnv))
    raceWorld.rcManager.sessions (List.Perm.refl _) (pendingPoll "S3") rfl (by decide)
    _ hact).1 (by decide)
  exact ⟨by decide, h.2.2.1, h.2.2.2⟩

/-- C4 (duplicate start): `StartSession` with an id that is a key of the
registry returns the error "session ... already exists" and returns the state
it was given: same registry, same session objects, no new `run` task. -/
theorem C4_start_existing_id_rejected (w : World) (sessionID token assetID orgID : String)
    (h : sessionID ∈ w.ids) :
    (StartSession w sessionID token assetID orgID).1
      = some s!"session {sessionID} already exists" ∧
    (StartSession w sessionID token assetID orgID).2 = w := by
  have hsome := (lookup_isSome_iff_mem_ids w sessionID).2 h
  unfold StartSession
  split
  · exact ⟨rfl, rfl⟩
  · rename_i hnone
    rw [hnone] at hsome
    cases hsome

/-- Witness for C4: a second start of `S1` in the state `leakActive`. -/
theorem C4_start_existing_id_rejected_witness :
    "S1" ∈ leakActive.ids ∧
    (StartSession leakActive "S1" "T2" "A2" "O2").1 = some "session S1 already exists" ∧
    (StartSession leakActive "S1" "T2" "A2" "O2").2 = leakActive :=
  ⟨by decide, C4_start_existing_id_rejected leakActive "S1" "T2" "A2" "O2" (by decide)⟩

/-- C5 as stated fails: in the execution `codecFailWorld` the constructor of
the VP8 encoder fails while `S1` is starting, yet `StartSession` had returned
`nil`, and it is not the case that the start was reported as an error with no
entry for `S1` left in the registry. -/
theorem C5_codec_failure_not_reported_by_start :
    (NewWebRTCPeer.Init codecFailEnv.init).1 = some "failed to create VP8 encoder" ∧
    (StartSession (NewManager "https://srv") "S1" "T" "A" "O").1 = none ∧
    ¬ ((StartSession (NewManager "https://srv") "S1" "T" "A" "O").1 ≠ none ∧
        "S1" ∉ codecFailWorld.ids) := by
  decide

/-- C5 amended: when a session with a fresh id is started, `StartSession`
returns `nil` and registers the session as pending; if the capture starts and
then the constructor of the VP8 encoder fails inside `setupWebRTC`, the third
step of `run` returns through `cleanup`: the session ends with
`Status = "ended"`, without an encoder and without entering the signalling
loop. -/
theorem C5_codec_failure_ends_session_after_start (w : World)
    (sessionID token assetID orgID : String) (e1 e2 e3 : RunEnv)
    (hnew : sessionID ∉ w.ids) (hcap : e2.captureStartErr = false)
    (hinit : (NewWebRTCPeer.Init e3.init).1 = some "failed to create VP8 encoder") :
    (StartSession w sessionID token assetID orgID).1 = none ∧
    (StartSession w sessionID token assetID orgID).2.heap[w.heap.length]?.map
      (fun s => (s.SessionID, s.Status)) = some (sessionID, "pending") ∧
    (runSession (runSession (runSession (StartSession w sessionID token assetID orgID).2
        w.heap.length e1) w.heap.length e2) w.heap.length e3).heap[w.heap.length]?.map
      (fun s => (s.Status, s.pc, s.webrtcPeer.vp8Encoder))
      = some ("ended", RunPoint.returned, false) := by
  have hnone : w.rcManager.sessions.lookup sessionID = none := by
    cases h : w.rcManager.sessions.lookup sessionID with
    | none => rfl
    | some a => exact absurd ((lookup_isSome_iff_mem_ids w sessionID).1 (by rw [h]; rfl)) hnew
  have hflags : e3.init.registerDefaultCodecsErr = false ∧ e3.init.newPeerConnectionErr = false ∧
      e3.init.newTrackErr = false ∧ e3.init.addTrackErr = false ∧
      e3.init.newVP8EncoderErr = true := by
    revert hinit
    unfold WebRTCPeer.Init
    cases e3.init.registerDefaultCodecsErr <;> cases e3.init.newPeerConnectionErr <;>
      cases e3.init.newTrackErr <;> cases e3.init.addTrackErr <;>
      cases e3.init.newVP8EncoderErr <;> decide
  obtain ⟨f1, f2, f3, f4, f5⟩ := hflags
  simp [StartSession, hnone, runSession, List.getElem?_modify, Session.runStep, hcap,
    Session.setupWebRTC, WebRTCPeer.Init, f1, f2, f3, f4, f5, Session.cleanup,
    WebRTCPeer.Close, NewWebRTCPeer]

/-- Witness for C5 amended: the execution `codecFailWorld`. -/
theorem C5_codec_failure_ends_session_after_start_witness :
    "S1" ∉ (NewManager "https://srv").ids ∧
    (NewWebRTCPeer.Init codecFailEnv.init).1 = some "failed to create VP8 encoder" ∧
    codecFailWorld.heap[0]?.map (fun s => (s.Status, s.pc, s.webrtcPeer.vp8Encoder))
      = some ("ended", RunPoint.returned, false) :=
  ⟨by decide, by decide,
    (C5_codec_failure_ends_session_after_start (NewManager "https://srv") "S1" "T" "A" "O"
      okEnv okEnv codecFailEnv (by decide) rfl (by decide)).2.2⟩

/-- C6 as stated fails: the state `leakActive` is reached by one
`StartSession` and one step of `run`; in it the session has
`Status = "active"` although no peer connection exists yet and the
connection-state handler has never seen `connected` (no frame pump was ever
started). -/
theorem C6_active_before_connected :
    Reachable leakActive ∧
    leakActive.heap[0]?.map
      (fun s => (s.Status, s.webrtcPeer.peerConnection, s.webrtcPeer.connected,
                 s.webrtcPeer.pumps))
      = some ("active", false, false, 0) := by
  refine ⟨?_, by decide⟩
  exact ((Reachable.init "https://srv").step (Step.start _ "S1" "T" "A" "O")).step
    (Step.run _ 0 okEnv)

/-- C6 amended: `Status` becomes "active" in the first step of `run`, whatever
the peer connection does: from the program point `spawned` a step of `run`
yields `Status = "active"` and touches neither the frame source nor the peer;
a step of `run` that yields "active" from another status is that first step;
a connection-state event changes the `Status` of no session and leaves the
registry alone; and the event `connected`, delivered to a session whose peer
connection exists, sets the `connected` flag of the peer and starts one more
frame pump, changing nothing else. -/
theorem C6_active_set_by_first_run_step (s : Session) (env : RunEnv) (w : World) (a : Nat)
    (state : PeerConnectionState) :
    (s.pc = RunPoint.spawned → (s.runStep env).Status = "active") ∧
    ((s.runStep env).Status = "active" → s.Status ≠ "active" → s.pc = RunPoint.spawned) ∧
    (connectionStateChange w a state).heap.map (fun t => t.Status)
      = w.heap.map (fun t => t.Status) ∧
    (connectionStateChange w a state).rcManager = w.rcManager ∧
    (s.pc = RunPoint.spawned →
      s.runStep env = { s with Status := "active", pc := RunPoint.activated }) ∧
    (∀ t, w.heap[a]? = some t → t.webrtcPeer.peerConnection = true →
      (connectionStateChange w a PeerConnectionState.connected).heap[a]?
        = some { t with webrtcPeer :=
            { t.webrtcPeer with connected := true, pumps := t.webrtcPeer.pumps + 1 } }) := by
  refine ⟨?_, ?_, ?_, rfl, ?_, ?_⟩
  · intro h
    simp [Session.runStep, h]
  · intro h hne
    rcases Session.runStep_Status env s with h1 | h1 | h1
    · exact h1
    · rw [h1] at h
      exact absurd h (by decide)
    · rw [h1] at h
      exact absurd h hne
  · unfold connectionStateChange
    simp only []
    apply List.ext_getElem?
    intro n
    simp only [List.getElem?_map, List.getElem?_modify]
    cases w.heap[n]? with
    | none => rfl
    | some t =>
      by_cases han : a = n
      · by_cases hp : t.webrtcPeer.peerConnection = true <;> simp [han, hp]
      · simp [han]
  · intro h
    simp [Session.runStep, h]
  · intro t ht hp
    unfold connectionStateChange
    simp only [List.getElem?_modify, ht, eq_self_iff_true, if_true, Option.map_eq_map,
      Option.map_some', if_pos hp]
    rfl

/-- Witness for C6 amended: the freshly started session of `leakActive`. -/
theorem C6_active_set_by_first_run_step_witness :
    (Session.runStep okEnv
      { SessionID := "S1", Token := "T", ServerURL := "https://srv", AssetID := "A",
        OrgID := "O", Status := "pending", cancelled := false, screenCaptureRunning := false,
        webrtcPeer := NewWebRTCPeer, pc := RunPoint.spawned }).Status = "active" :=
  (C6_active_set_by_first_run_step _ okEnv leakActive 0 PeerConnectionState.connected).1 rfl

/-! ## Properties of float64 rounding -/

theorem roundHalfEven_abs_sub (q : ℚ) : |(roundHalfEven q : ℚ) - q| ≤ 1 / 2 := by
  have h1 : (⌊q⌋ : ℚ) ≤ q := Int.floor_le q
  have h2 : q < (⌊q⌋ : ℚ) + 1 := Int.lt_floor_add_one q
  unfold roundHalfEven
  rw [abs_le]
  split_ifs with a b c
  · constructor <;> linarith
  · push_cast; constructor <;> linarith
  · constructor <;> linarith
  · push_cast; constructor <;> linarith

theorem roundHalfEven_eq_of_abs_lt (q : ℚ) (n : Int) (h : |q - n| < 1 / 2) :
    roundHalfEven q = n := by
  rw [abs_lt] at h
  obtain ⟨h1, h2⟩ := h
  unfold roundHalfEven
  rcases le_or_lt (n : ℚ) q with hle | hlt
  · have hfloor : ⌊q⌋ = n := by
      rw [Int.floor_eq_iff]
      constructor <;> linarith
    rw [hfloor, if_pos (by linarith)]
  · have hfloor : ⌊q⌋ = n - 1 := by
      rw [Int.floor_eq_iff]
      push_cast
      constructor <;> linarith
    rw [hfloor]
    push_cast
    rw [if_neg (by linarith), if_pos (by linarith)]
    ring

theorem roundHalfEven_tie (n : Int) (h : n % 2 = 0) :
    roundHalfEven ((n : ℚ) + 1 / 2) = n := by
  have hfloor : ⌊(n : ℚ) + 1 / 2⌋ = n := by
    rw [Int.floor_eq_iff]
    constructor <;> linarith
  unfold roundHalfEven
  rw [hfloor, if_neg (by linarith), if_neg (by linarith), if_pos h]

theorem roundHalfEven_intCast (n : Int) : roundHalfEven (n : ℚ) = n :=
  roundHalfEven_eq_of_abs_lt _ n (by simp)

theorem roundFloat64_zero : roundFloat64 0 = 0 := by
  simp [roundFloat64]

theorem two_zpow_pos (e : Int) : (0 : ℚ) < 2 ^ e := zpow_pos (by norm_num) e

theorem roundFloat64_abs_sub (q : ℚ) : |roundFloat64 q - q| ≤ |q| / 2 ^ 53 := by
  by_cases hq : q = 0
  · subst hq
    simp [roundFloat64_zero]
  · have hpos : 0 < |q| := abs_pos.mpr hq
    have hs : (0 : ℚ) < 2 ^ (Int.log 2 |q| - 52) := two_zpow_pos _
    have hlog : ((2 : ℕ) : ℚ) ^ Int.log 2 |q| ≤ |q| := Int.zpow_log_le_self (by norm_num) hpos
    have hlog1 : (2 : ℚ) ^ Int.log 2 |q| ≤ |q| := by exact_mod_cast hlog
    have hsplit : (2 : ℚ) ^ Int.log 2 |q| = 2 ^ (Int.log 2 |q| - 52) * 2 ^ (52 : ℕ) := by
      rw [← zpow_natCast, ← zpow_add₀ (by norm_num : (2 : ℚ) ≠ 0)]
      congr 1
      push_cast
      ring
    have hr := roundHalfEven_abs_sub (q / 2 ^ (Int.log 2 |q| - 52))
    have heq : roundFloat64 q - q
        = ((roundHalfEven (q / 2 ^ (Int.log 2 |q| - 52)) : ℚ) - q / 2 ^ (Int.log 2 |q| - 52))
          * 2 ^ (Int.log 2 |q| - 52) := by
      unfold roundFloat64
      rw [if_neg hq]
      field_simp
    rw [heq, abs_mul, abs_of_pos hs]
    have h1 : |(roundHalfEven (q / 2 ^ (Int.log 2 |q| - 52)) : ℚ) - q / 2 ^ (Int.log 2 |q| - 52)|
        * 2 ^ (Int.log 2 |q| - 52) ≤ 1 / 2 * 2 ^ (Int.log 2 |q| - 52) :=
      mul_le_mul_of_nonneg_right hr (le_of_lt hs)
    rw [le_div_iff₀ (by norm_num : (0 : ℚ) < 2 ^ 53)]
    rw [hsplit] at hlog1
    norm_num at hlog1 ⊢
    nlinarith

theorem roundFloat64_eq (q : ℚ) (e n : Int) (h1 : (2 : ℚ) ^ e ≤ |q|) (h2 : |q| < (2 : ℚ) ^ (e + 1))
    (h3 : roundHalfEven (q / 2 ^ (e - 52)) = n) : roundFloat64 q = (n : ℚ) * 2 ^ (e - 52) := by
  have hpos : 0 < |q| := lt_of_lt_of_le (two_zpow_pos e) h1
  have hq : q ≠ 0 := abs_pos.mp hpos
  have hlog : Int.log 2 |q| = e := by
    have a1 : e ≤ Int.log 2 |q| :=
      (Int.zpow_le_iff_le_log (by norm_num) hpos).mp (by exact_mod_cast h1)
    have a2 : Int.log 2 |q| < e + 1 :=
      (Int.lt_zpow_iff_log_lt (by norm_num) hpos).mp (by exact_mod_cast h2)
    omega
  unfold roundFloat64
  rw [if_neg hq, hlog, h3]

theorem roundFloat64_dyadic (m k : Int) (h : |m| < 2 ^ 53) :
    roundFloat64 ((m : ℚ) * 2 ^ k) = (m : ℚ) * 2 ^ k := by
  by_cases hm : m = 0
  · subst hm
    simp [roundFloat64_zero]
  · have h2 : (2 : ℚ) ≠ 0 := by norm_num
    have hq : (m : ℚ) * 2 ^ k ≠ 0 :=
      mul_ne_zero (by exact_mod_cast hm) (ne_of_gt (two_zpow_pos k))
    have hpos : 0 < |(m : ℚ) * 2 ^ k| := abs_pos.mpr hq
    have habs : |(m : ℚ) * 2 ^ k| = |(m : ℚ)| * 2 ^ k := by
      rw [abs_mul, abs_of_pos (two_zpow_pos k)]
    have hm53 : |(m : ℚ)| < 2 ^ (53 : ℤ) := by
      have : ((|m| : Int) : ℚ) < ((2 ^ 53 : Int) : ℚ) := by exact_mod_cast h
      rw [Int.cast_abs] at this
      norm_num at this ⊢
      exact this
    have hlt : |(m : ℚ) * 2 ^ k| < 2 ^ (53 + k) := by
      rw [habs, zpow_add₀ h2]
      exact mul_lt_mul_of_pos_right hm53 (two_zpow_pos k)
    have hlog : ((2 : ℕ) : ℚ) ^ Int.log 2 |(m : ℚ) * 2 ^ k| ≤ |(m : ℚ) * 2 ^ k| :=
      Int.zpow_log_le_self (by norm_num) hpos
    have hlog1 : (2 : ℚ) ^ Int.log 2 |(m : ℚ) * 2 ^ k| < 2 ^ (53 + k) :=
      lt_of_le_of_lt (by exact_mod_cast hlog) hlt
    have he : Int.log 2 |(m : ℚ) * 2 ^ k| < 53 + k :=
      (zpow_lt_zpow_iff_right₀ (by norm_num : (1 : ℚ) < 2)).mp hlog1
    unfold roundFloat64
    rw [if_neg hq]
    generalize Int.log 2 |(m : ℚ) * 2 ^ k| = e at he ⊢
    obtain ⟨j, hj⟩ : ∃ j : ℕ, k = (e - 52) + (j : ℤ) := ⟨(k - (e - 52)).toNat, by omega⟩
    have hk : (2 : ℚ) ^ k = 2 ^ (e - 52) * 2 ^ j := by
      conv_lhs => rw [hj]
      rw [zpow_add₀ h2, zpow_natCast]
    have hs := two_zpow_pos (e - 52)
    have hdiv : (m : ℚ) * 2 ^ k / 2 ^ (e - 52) = ((m * 2 ^ j : Int) : ℚ) := by
      rw [hk]
      push_cast
      field_simp
      ring
    rw [hdiv, roundHalfEven_intCast, hk]
    push_cast
    ring

theorem roundFloat64_intCast (n : Int) (h : |n| < 2 ^ 53) : roundFloat64 (n : ℚ) = n := by
  have := roundFloat64_dyadic n 0 h
  simpa using this

theorem roundFloat64_half (n : Int) (h : |n| < 2 ^ 53) :
    roundFloat64 ((n : ℚ) / 2) = (n : ℚ) / 2 := by
  have := roundFloat64_dyadic n (-1) h
  have e : (n : ℚ) * 2 ^ (-1 : ℤ) = (n : ℚ) / 2 := by
    rw [zpow_neg, zpow_one, div_eq_mul_inv]
  rw [e] at this
  exact this

theorem float64OfInt_small (n : Int) (h : |n| ≤ 2 ^ 32) : float64OfInt n = (n : ℚ) := by
  unfold float64OfInt
  exact roundFloat64_intCast n (lt_of_le_of_lt h (by norm_num))

theorem remap_error (X W x E : Int) (hE : 0 < E) (hEb : E ≤ 2 ^ 31) (hx0 : 0 ≤ x) (hx : x ≤ E)
    (hX : |X| ≤ 2 ^ 31) (hW : |W| ≤ 2 ^ 31) :
    |roundFloat64 (float64OfInt X
        + roundFloat64 (float64OfInt x * roundFloat64 (float64OfInt W / float64OfInt E)))
      - ((X : ℚ) + (x : ℚ) * (W : ℚ) / (E : ℚ))| ≤ 1 / 2 ^ 19 := by
  have hxabs : |x| ≤ 2 ^ 32 := by rw [abs_of_nonneg hx0]; omega
  have hEabs : |E| ≤ 2 ^ 32 := by rw [abs_of_pos hE]; omega
  rw [float64OfInt_small X (by omega), float64OfInt_small W (by omega),
    float64OfInt_small x hxabs, float64OfInt_small E hEabs]
  have hEq : (0 : ℚ) < (E : ℚ) := by exact_mod_cast hE
  have hxq0 : (0 : ℚ) ≤ (x : ℚ) := by exact_mod_cast hx0
  have hxq : (x : ℚ) ≤ (E : ℚ) := by exact_mod_cast hx
  have hXq : |(X : ℚ)| ≤ 2 ^ 31 := by
    have : ((|X| : Int) : ℚ) ≤ ((2 ^ 31 : Int) : ℚ) := by exact_mod_cast hX
    rw [Int.cast_abs] at this
    norm_num at this ⊢
    exact this
  have hWq : |(W : ℚ)| ≤ 2 ^ 31 := by
    have : ((|W| : Int) : ℚ) ≤ ((2 ^ 31 : Int) : ℚ) := by exact_mod_cast hW
    rw [Int.cast_abs] at this
    norm_num at this ⊢
    exact this
  -- the scale factor
  have hs := roundFloat64_abs_sub ((W : ℚ) / (E : ℚ))
  have ha : |(W : ℚ) / (E : ℚ)| = |(W : ℚ)| / (E : ℚ) := by
    rw [abs_div, abs_of_pos hEq]
  have hxa : (x : ℚ) * (|(W : ℚ)| / (E : ℚ)) ≤ |(W : ℚ)| := by
    have h1 : (x : ℚ) * (|(W : ℚ)| / (E : ℚ)) ≤ (E : ℚ) * (|(W : ℚ)| / (E : ℚ)) :=
      mul_le_mul_of_nonneg_right hxq (div_nonneg (abs_nonneg _) (le_of_lt hEq))
    have h2 : (E : ℚ) * (|(W : ℚ)| / (E : ℚ)) = |(W : ℚ)| := by field_simp
    linarith
  generalize roundFloat64 ((W : ℚ) / (E : ℚ)) = s at hs ⊢
  rw [ha] at hs
  -- the scaled coordinate
  have h1 : |(x : ℚ) * s - (x : ℚ) * ((W : ℚ) / (E : ℚ))| ≤ 2 ^ 31 / 2 ^ 53 := by
    rw [← mul_sub, abs_mul, abs_of_nonneg hxq0]
    have := mul_le_mul_of_nonneg_left hs hxq0
    have e : (x : ℚ) * (|(W : ℚ)| / (E : ℚ) / 2 ^ 53)
        = (x : ℚ) * (|(W : ℚ)| / (E : ℚ)) / 2 ^ 53 := by ring
    rw [e] at this
    have h3 : (x : ℚ) * (|(W : ℚ)| / (E : ℚ)) / 2 ^ 53 ≤ 2 ^ 31 / 2 ^ 53 :=
      div_le_div_of_nonneg_right (by linarith) (by norm_num)
    linarith
  have h2 : |(x : ℚ) * ((W : ℚ) / (E : ℚ))| ≤ 2 ^ 31 := by
    rw [abs_mul, abs_of_nonneg hxq0, ha]
    linarith
  have h3 : |(x : ℚ) * s| ≤ 2 * 2 ^ 31 := by
    rw [abs_le] at h1 h2 ⊢
    constructor <;> norm_num at h1 h2 ⊢ <;> linarith [h1.1, h1.2, h2.1, h2.2]
  have hp := roundFloat64_abs_sub ((x : ℚ) * s)
  generalize roundFloat64 ((x : ℚ) * s) = p at hp ⊢
  have h4 : |p - (x : ℚ) * s| ≤ 2 * 2 ^ 31 / 2 ^ 53 :=
    le_trans hp (div_le_div_of_nonneg_right h3 (by norm_num))
  have hr := roundFloat64_abs_sub ((X : ℚ) + p)
  generalize roundFloat64 ((X : ℚ) + p) = r at hr ⊢
  have e : (x : ℚ) * (W : ℚ) / (E : ℚ) = (x : ℚ) * ((W : ℚ) / (E : ℚ)) := by ring
  rw [e]
  generalize (x : ℚ) * ((W : ℚ) / (E : ℚ)) = xa at h1 h2 ⊢
  generalize (x : ℚ) * s = xs at h1 h3 h4 ⊢
  have h5 : |(X : ℚ) + p| ≤ 3 * 2 ^ 31 := by
    rw [abs_le] at h1 h2 h4 hXq ⊢
    norm_num at h1 h2 h4 hXq ⊢
    constructor <;> linarith [h1.1, h1.2, h2.1, h2.2, h4.1, h4.2, hXq.1, hXq.2]
  have h6 : |r - ((X : ℚ) + p)| ≤ 3 * 2 ^ 31 / 2 ^ 53 :=
    le_trans hr (div_le_div_of_nonneg_right h5 (by norm_num))
  rw [abs_le] at h1 h4 h6 ⊢
  norm_num at h1 h4 h6 ⊢
  constructor <;> linarith [h1.1, h1.2, h4.1, h4.2, h6.1, h6.2]

theorem remap_exact (X k x E : Int) (hE : 0 < E) (hEb : E ≤ 2 ^ 31) (hx0 : 0 ≤ x) (hx : x ≤ E)
    (hX : |X| ≤ 2 ^ 31) (hW : |E * k| ≤ 2 ^ 31) :
    roundFloat64 (float64OfInt X
        + roundFloat64 (float64OfInt x * roundFloat64 (float64OfInt (E * k) / float64OfInt E)))
      = (X : ℚ) + (x : ℚ) * (k : ℚ) := by
  have hxabs : |x| ≤ 2 ^ 32 := by rw [abs_of_nonneg hx0]; omega
  have hEabs : |E| ≤ 2 ^ 32 := by rw [abs_of_pos hE]; omega
  have hk : |k| ≤ 2 ^ 31 := by
    have h1 : |E * k| = E * |k| := by rw [abs_mul, abs_of_pos hE]
    have h2 : 1 * |k| ≤ E * |k| := Int.mul_le_mul_of_nonneg_right (by omega) (abs_nonneg k)
    omega
  have hxk : |x * k| ≤ 2 ^ 31 := by
    have h1 : |E * k| = E * |k| := by rw [abs_mul, abs_of_pos hE]
    have h2 : |x * k| = x * |k| := by rw [abs_mul, abs_of_nonneg hx0]
    have h3 : x * |k| ≤ E * |k| := Int.mul_le_mul_of_nonneg_right hx (abs_nonneg k)
    omega
  have hsum : |X + x * k| ≤ 2 ^ 32 := by
    have := abs_add X (x * k)
    omega
  rw [float64OfInt_small X (by omega), float64OfInt_small (E * k) (by omega),
    float64OfInt_small x hxabs, float64OfInt_small E hEabs]
  have hEq : (E : ℚ) ≠ 0 := by exact_mod_cast (ne_of_gt hE)
  have e1 : ((E * k : Int) : ℚ) / (E : ℚ) = (k : ℚ) := by
    push_cast
    field_simp
  rw [e1, roundFloat64_intCast k (lt_of_le_of_lt hk (by norm_num))]
  have e2 : (x : ℚ) * (k : ℚ) = ((x * k : Int) : ℚ) := by push_cast; rfl
  rw [e2, roundFloat64_intCast (x * k) (lt_of_le_of_lt hxk (by norm_num))]
  have e3 : (X : ℚ) + ((x * k : Int) : ℚ) = ((X + x * k : Int) : ℚ) := by push_cast; rfl
  rw [e3, roundFloat64_intCast (X + x * k) (lt_of_le_of_lt hsum (by norm_num))]

theorem remap_zero (X W E : Int) (hX : |X| ≤ 2 ^ 31) :
    roundFloat64 (float64OfInt X
        + roundFloat64 (float64OfInt 0 * roundFloat64 (float64OfInt W / float64OfInt E)))
      = (X : ℚ) := by
  have h0 : float64OfInt 0 = 0 := by simp [float64OfInt, roundFloat64_zero]
  rw [h0, zero_mul, roundFloat64_zero, add_zero, float64OfInt_small X (by omega)]
  exact roundFloat64_intCast X (lt_of_le_of_lt hX (by norm_num))

/-! ## Properties of the input injector -/

theorem WindowsInputInjector.SetMonitorInfo_virtual (wii : WindowsInputInjector)
    (monitors : MultiMonitorInfo) :
    wii.SetMonitorInfo (-1) monitors
      = (none, { wii with monitorIndex := -1, monitors := monitors,
                          screenWidth := wrapInt32 monitors.VirtualWidth,
                          screenHeight := wrapInt32 monitors.VirtualHeight,
                          monitorInfo := none }) := by
  simp [WindowsInputInjector.SetMonitorInfo]

theorem WindowsInputInjector.SetMonitorInfo_single (wii : WindowsInputInjector)
    (monitors : MultiMonitorInfo) (i : Nat) (mon : MonitorInfo)
    (hmon : monitors.Monitors[i]? = some mon) :
    wii.SetMonitorInfo (i : Int) monitors
      = (none, { wii with monitorIndex := (i : Int), monitors := monitors,
                          screenWidth := wrapInt32 mon.Width,
                          screenHeight := wrapInt32 mon.Height,
                          monitorInfo := some mon }) := by
  obtain ⟨hi, hget⟩ := List.getElem?_eq_some.1 hmon
  have hne : ¬ ((i : Int) = -1) := by omega
  have hrange : 0 ≤ (i : Int) ∧ (i : Int) < monitors.Monitors.length := by omega
  simp only [WindowsInputInjector.SetMonitorInfo, if_neg hne, dif_pos hrange]
  have hmon2 : monitors.Monitors.get ⟨(i : Int).toNat, by omega⟩ = mon := by
    simp only [List.get_eq_getElem, Int.toNat_ofNat]
    exact hget
  rw [hmon2]

theorem WindowsInputInjector.screenPoint_virtual (wii : WindowsInputInjector)
    (width height : Nat) (monitors : MultiMonitorInfo) (x y : Int) :
    ((wii.Initialize width height).SetMonitorInfo (-1) monitors).2.screenPoint x y
      = (roundFloat64 (float64OfInt monitors.VirtualMinX
          + roundFloat64 (float64OfInt x
            * roundFloat64 (float64OfInt monitors.VirtualWidth / float64OfInt 1920))),
         roundFloat64 (float64OfInt monitors.VirtualMinY
          + roundFloat64 (float64OfInt y
            * roundFloat64 (float64OfInt monitors.VirtualHeight / float64OfInt 1080)))) := by
  rw [WindowsInputInjector.SetMonitorInfo_virtual]
  rfl

theorem WindowsInputInjector.screenPoint_single (wii : WindowsInputInjector)
    (width height : Nat) (monitors : MultiMonitorInfo) (i : Nat) (mon : MonitorInfo)
    (hmon : monitors.Monitors[i]? = some mon) (x y : Int) :
    ((wii.Initialize width height).SetMonitorInfo (i : Int) monitors).2.screenPoint x y
      = (roundFloat64 (float64OfInt mon.X
          + roundFloat64 (float64OfInt x
            * roundFloat64 (float64OfInt mon.Width / float64OfInt 1920))),
         roundFloat64 (float64OfInt mon.Y
          + roundFloat64 (float64OfInt y
            * roundFloat64 (float64OfInt mon.Height / float64OfInt 1080)))) := by
  rw [WindowsInputInjector.SetMonitorInfo_single _ _ _ _ hmon]
  rfl

theorem remap_round_trip (X W E : Int) (hE : 2 ≤ E) (hEb : E ≤ 2 ^ 15) (hX : |X| ≤ 2 ^ 31)
    (hW : |W| ≤ 2 ^ 31) :
    |roundFloat64 (float64OfInt X
        + roundFloat64 (float64OfInt (E - 1)
          * roundFloat64 (float64OfInt W / float64OfInt E)))
      - ((X : ℚ) + (W : ℚ) - 1)| ≤ 1 ↔ (0 ≤ W ∧ W ≤ 2 * E) := by
  have herr := remap_error X W (E - 1) E (by omega) (by omega) (by omega) (by omega) hX hW
  have hEq : (2 : ℚ) ≤ (E : ℚ) := by exact_mod_cast hE
  have hEq1 : (E : ℚ) ≤ 2 ^ 15 := by exact_mod_cast hEb
  have hEpos : (0 : ℚ) < (E : ℚ) := by linarith
  have hinv : (1 : ℚ) / 32768 ≤ (E : ℚ)⁻¹ := by
    have := one_div_le_one_div_of_le hEpos hEq1
    rw [one_div, one_div] at this
    norm_num at this ⊢
    exact this
  have hmul : (E : ℚ)⁻¹ * (E : ℚ) = 1 := inv_mul_cancel₀ (ne_of_gt hEpos)
  have hexact : (X : ℚ) + ((E - 1 : Int) : ℚ) * (W : ℚ) / (E : ℚ)
      = (X : ℚ) + (W : ℚ) - (W : ℚ) / (E : ℚ) := by
    push_cast
    field_simp
    ring
  rw [hexact] at herr
  constructor
  · intro h
    rw [abs_le] at h herr
    norm_num at herr
    by_contra hcon
    have hcases : W ≤ -1 ∨ 2 * E + 1 ≤ W := by omega
    rcases hcases with hneg | hbig
    · have h1 : (W : ℚ) ≤ -1 := by exact_mod_cast hneg
      have h2 : (W : ℚ) / (E : ℚ) ≤ -(E : ℚ)⁻¹ := by
        rw [div_le_iff₀ hEpos]
        linarith
      linarith [h.1, h.2, herr.1, herr.2]
    · have h1 : (2 : ℚ) * (E : ℚ) + 1 ≤ (W : ℚ) := by exact_mod_cast hbig
      have h2 : 2 + (E : ℚ)⁻¹ ≤ (W : ℚ) / (E : ℚ) := by
        rw [le_div_iff₀ hEpos]
        linarith
      linarith [h.1, h.2, herr.1, herr.2]
  · rintro ⟨h0, h2⟩
    rcases lt_or_ge 0 W with hpos | hzero
    · rcases lt_or_ge W (2 * E) with hlt | hge
      · have h1 : (1 : ℚ) ≤ (W : ℚ) := by exact_mod_cast hpos
        have h3 : (W : ℚ) ≤ 2 * (E : ℚ) - 1 := by
          have : W ≤ 2 * E - 1 := by omega
          exact_mod_cast this
        have h4 : (E : ℚ)⁻¹ ≤ (W : ℚ) / (E : ℚ) := by
          rw [le_div_iff₀ hEpos]
          linarith
        have h5 : (W : ℚ) / (E : ℚ) ≤ 2 - (E : ℚ)⁻¹ := by
          rw [div_le_iff₀ hEpos]
          linarith
        rw [abs_le] at herr ⊢
        norm_num at herr
        constructor <;> linarith [herr.1, herr.2]
      · have hW2 : W = E * 2 := by omega
        subst hW2
        rw [remap_exact X 2 (E - 1) E (by omega) (by omega) (by omega) (by omega) hX hW]
        push_cast
        rw [abs_le]
        constructor <;> linarith
    · have hW0 : W = E * 0 := by omega
      subst hW0
      rw [remap_exact X 0 (E - 1) E (by omega) (by omega) (by omega) (by omega) hX hW]
      push_cast
      rw [abs_le]
      constructor <;> linarith

theorem int32OfFloat_of_floor (f : ℚ) (n : Int) (h0 : 0 ≤ f) (h1 : (n : ℚ) ≤ f)
    (h2 : f < (n : ℚ) + 1) (h3 : wrapInt32 n = n) : int32OfFloat f = n := by
  have hfloor : ⌊f⌋ = n := by
    rw [Int.floor_eq_iff]
    exact ⟨h1, h2⟩
  unfold int32OfFloat
  rw [if_pos h0, hfloor, h3]

theorem remap_1366 :
    roundFloat64 (float64OfInt 0
        + roundFloat64 (float64OfInt 1152 * roundFloat64 (float64OfInt 1366 / float64OfInt 1920)))
      = 1802319460250419 / 2199023255552 := by
  have h0 : float64OfInt 0 = 0 := by simp [float64OfInt, roundFloat64_zero]
  have h1 : float64OfInt 1366 = 1366 := by
    rw [float64OfInt_small 1366 (by norm_num)]; norm_num
  have h2 : float64OfInt 1920 = 1920 := by
    rw [float64OfInt_small 1920 (by norm_num)]; norm_num
  have h3 : float64OfInt 1152 = 1152 := by
    rw [float64OfInt_small 1152 (by norm_num)]; norm_num
  have hs : roundFloat64 (1366 / 1920) = 1602061742444817 / 2251799813685248 := by
    rw [roundFloat64_eq (1366 / 1920) (-1) 6408246969779268 (by norm_num [abs_of_pos])
      (by norm_num [abs_of_pos]) (roundHalfEven_eq_of_abs_lt _ _ (by norm_num [abs_lt]))]
    norm_num
  have hp : roundFloat64 (1152 * (1602061742444817 / 2251799813685248))
      = 1802319460250419 / 2199023255552 := by
    have htie : (1152 * (1602061742444817 / 2251799813685248) : ℚ) / 2 ^ ((9 : ℤ) - 52)
        = ((7209277841001676 : Int) : ℚ) + 1 / 2 := by norm_num
    rw [roundFloat64_eq (1152 * (1602061742444817 / 2251799813685248)) 9 7209277841001676
      (by norm_num [abs_of_pos]) (by norm_num [abs_of_pos])
      (by rw [htie]; exact roundHalfEven_tie _ (by decide))]
    norm_num
  have hr : roundFloat64 (0 + 1802319460250419 / 2199023255552)
      = 1802319460250419 / 2199023255552 := by
    have := roundFloat64_dyadic 1802319460250419 (-41) (by norm_num)
    norm_num at this ⊢
    exact this
  rw [h0, h1, h2, h3, hs, hp, hr]

theorem absolute_1366 :
    int32OfFloat (roundFloat64 (roundFloat64 (1802319460250419 / 2199023255552 * 65535)
      / float64OfInt ((1366 : Nat) : Int))) = 39320 := by
  have h1 : float64OfInt ((1366 : Nat) : Int) = 1366 := by
    rw [float64OfInt_small _ (by norm_num)]; norm_num
  have ht : roundFloat64 (1802319460250419 / 2199023255552 * 65535)
      = 7209167836151807 / 134217728 := by
    rw [roundFloat64_eq (1802319460250419 / 2199023255552 * 65535) 25 7209167836151807
      (by norm_num [abs_of_pos]) (by norm_num [abs_of_pos])
      (roundHalfEven_eq_of_abs_lt _ _ (by norm_num [abs_lt]))]
    norm_num
  have hd : roundFloat64 (7209167836151807 / 134217728 / 1366)
      = 5404237089472511 / 137438953472 := by
    rw [roundFloat64_eq (7209167836151807 / 134217728 / 1366) 15 5404237089472511
      (by norm_num [abs_of_pos]) (by norm_num [abs_of_pos])
      (roundHalfEven_eq_of_abs_lt _ _ (by norm_num [abs_lt]))]
    norm_num
  rw [h1, ht, hd]
  exact int32OfFloat_of_floor _ 39320 (by norm_num) (by norm_num) (by norm_num) (by decide)

/-- C7 as stated fails: for a single 8K monitor (7680 by 4320 at the origin)
selected with index 0, the desktop point computed for encoded `(1919, 1079)`
is `(7676, 4316)`, three pixels away from `(7679, 4319)` in each axis. -/
theorem C7_round_trip_fails_on_8K :
    eightK.Monitors[0]? = some eightKMonitor ∧
    ((WindowsInputInjector.zero.Initialize 7680 4320).SetMonitorInfo 0 eightK).2.screenPoint
      1919 1079 = (7676, 4316) ∧
    ¬ (|(((WindowsInputInjector.zero.Initialize 7680 4320).SetMonitorInfo 0
            eightK).2.screenPoint 1919 1079).1 - ((0 : ℚ) + 7680 - 1)| ≤ 1 ∧
       |(((WindowsInputInjector.zero.Initialize 7680 4320).SetMonitorInfo 0
            eightK).2.screenPoint 1919 1079).2 - ((0 : ℚ) + 4320 - 1)| ≤ 1) := by
  have hmon : eightK.Monitors[0]? = some eightKMonitor := by decide
  have hp := WindowsInputInjector.screenPoint_single WindowsInputInjector.zero 7680 4320
    eightK 0 eightKMonitor hmon 1919 1079
  simp only [Nat.cast_zero] at hp
  have hx := remap_exact 0 4 1919 1920 (by norm_num) (by norm_num) (by norm_num) (by norm_num)
    (by norm_num) (by norm_num)
  have hy := remap_exact 0 4 1079 1080 (by norm_num) (by norm_num) (by norm_num) (by norm_num)
    (by norm_num) (by norm_num)
  norm_num at hx hy
  have hval : (roundFloat64 (float64OfInt eightKMonitor.X
        + roundFloat64 (float64OfInt 1919
          * roundFloat64 (float64OfInt eightKMonitor.Width / float64OfInt 1920))),
      roundFloat64 (float64OfInt eightKMonitor.Y
        + roundFloat64 (float64OfInt 1079
          * roundFloat64 (float64OfInt eightKMonitor.Height / float64OfInt 1080))))
      = ((7676 : ℚ), (4316 : ℚ)) := by
    rw [Prod.mk.injEq]
    exact ⟨hx, hy⟩
  rw [hval] at hp
  refine ⟨hmon, hp, ?_⟩
  rw [hp]
  norm_num [abs_le]

/-- C7 amended: for every monitor set and every index `i` holding a monitor
`mon` whose origin and size are in the `int32` range (as every rectangle the
OS reports is), after `SetMonitorInfo(i, monitors)` the desktop point that
the `float64` computation gives for encoded `(0, 0)` is `(mon.X, mon.Y)`, and
the desktop point for encoded `(1919, 1079)` is within 1 pixel in each axis
of `(mon.X + mon.Width - 1, mon.Y + mon.Height - 1)` exactly when
`0 ≤ mon.Width ≤ 3840` and `0 ≤ mon.Height ≤ 2160` (at most twice the encoded
size). -/
theorem C7_round_trip_within_twice_encoded (wii : WindowsInputInjector)
    (width height : Nat) (monitors : MultiMonitorInfo) (i : Nat) (mon : MonitorInfo)
    (hmon : monitors.Monitors[i]? = some mon)
    (hrange : |mon.X| ≤ 2 ^ 31 ∧ |mon.Y| ≤ 2 ^ 31 ∧ |mon.Width| ≤ 2 ^ 31 ∧
      |mon.Height| ≤ 2 ^ 31) :
    ((wii.Initialize width height).SetMonitorInfo (i : Int) monitors).2.screenPoint 0 0
      = ((mon.X : ℚ), (mon.Y : ℚ)) ∧
    ((|(((wii.Initialize width height).SetMonitorInfo (i : Int) monitors).2.screenPoint
          1919 1079).1 - ((mon.X : ℚ) + mon.Width - 1)| ≤ 1 ∧
      |(((wii.Initialize width height).SetMonitorInfo (i : Int) monitors).2.screenPoint
          1919 1079).2 - ((mon.Y : ℚ) + mon.Height - 1)| ≤ 1) ↔
     (0 ≤ mon.Width ∧ mon.Width ≤ 3840 ∧ 0 ≤ mon.Height ∧ mon.Height ≤ 2160)) := by
  obtain ⟨hX, hY, hW, hH⟩ := hrange
  rw [WindowsInputInjector.screenPoint_single wii width height monitors i mon hmon,
      WindowsInputInjector.screenPoint_single wii width height monitors i mon hmon]
  have hx := remap_round_trip mon.X mon.Width 1920 (by norm_num) (by norm_num) hX hW
  have hy := remap_round_trip mon.Y mon.Height 1080 (by norm_num) (by norm_num) hY hH
  norm_num at hx hy
  refine ⟨?_, ?_⟩
  · rw [remap_zero mon.X mon.Width 1920 hX, remap_zero mon.Y mon.Height 1080 hY]
  · show (|roundFloat64 (float64OfInt mon.X
          + roundFloat64 (float64OfInt 1919
            * roundFloat64 (float64OfInt mon.Width / float64OfInt 1920)))
        - ((mon.X : ℚ) + mon.Width - 1)| ≤ 1 ∧
      |roundFloat64 (float64OfInt mon.Y
          + roundFloat64 (float64OfInt 1079
            * roundFloat64 (float64OfInt mon.Height / float64OfInt 1080)))
        - ((mon.Y : ℚ) + mon.Height - 1)| ≤ 1) ↔ _
    rw [hx, hy]
    tauto

/-- Witness for C7 amended: the right-hand monitor of `sideBySide`. -/
theorem C7_round_trip_within_twice_encoded_witness :
    sideBySide.Monitors[1]? = some rightMonitor ∧
    ((WindowsInputInjector.zero.Initialize 1920 1080).SetMonitorInfo
        ((1 : Nat) : Int) sideBySide).2.screenPoint 0 0
      = (((rightMonitor.X : Int) : ℚ), ((rightMonitor.Y : Int) : ℚ)) :=
  ⟨by decide, (C7_round_trip_within_twice_encoded WindowsInputInjector.zero 1920 1080
    sideBySide 1 rightMonitor (by decide) (by decide)).1⟩

/-- C8 as stated fails: the code computes in `float64`, not in exact rational
arithmetic. For a single 1366 by 768 monitor at the origin, selected with
index 0, the desktop point computed for encoded `(1152, 0)` has
`screenX = 1802319460250419 / 2^41` (819.5999999999999...), not
`1152 * 1366 / 1920 = 4098/5`; the difference is visible in what is sent:
`Dx = 39320`, where the exact point would give 39321. -/
theorem C8_exact_remap_fails_on_1366 :
    laptop.Monitors[0]? = some laptopMonitor ∧
    ((WindowsInputInjector.zero.Initialize 1366 768).SetMonitorInfo 0 laptop).2.screenPoint
      1152 0 = (1802319460250419 / 2199023255552, 0) ∧
    (1802319460250419 / 2199023255552 : ℚ) ≠ (0 : ℚ) + 1152 * 1366 / 1920 ∧
    (((WindowsInputInjector.zero.Initialize 1366 768).SetMonitorInfo 0
        laptop).2.InjectMouseMove 1366 768 1152 0).Mi.Dx = 39320 ∧
    int32OfFloat ((((0 : ℚ) + 1152 * 1366 / 1920) * 65535) / 1366) = 39321 := by
  have hmon : laptop.Monitors[0]? = some laptopMonitor := by decide
  have hp := WindowsInputInjector.screenPoint_single WindowsInputInjector.zero 1366 768
    laptop 0 laptopMonitor hmon 1152 0
  simp only [Nat.cast_zero] at hp
  have hx : roundFloat64 (float64OfInt laptopMonitor.X
      + roundFloat64 (float64OfInt 1152
        * roundFloat64 (float64OfInt laptopMonitor.Width / float64OfInt 1920)))
      = 1802319460250419 / 2199023255552 := remap_1366
  have hy : roundFloat64 (float64OfInt laptopMonitor.Y
      + roundFloat64 (float64OfInt 0
        * roundFloat64 (float64OfInt laptopMonitor.Height / float64OfInt 1080)))
      = 0 := by
    have := remap_zero 0 768 1080 (by norm_num)
    norm_num at this
    exact this
  rw [hx, hy] at hp
  refine ⟨hmon, hp, by norm_num, ?_, ?_⟩
  · show int32OfFloat (roundFloat64 (roundFloat64
      ((((WindowsInputInjector.zero.Initialize 1366 768).SetMonitorInfo 0
        laptop).2.screenPoint 1152 0).1 * 65535) / float64OfInt ((1366 : Nat) : Int))) = 39320
    rw [hp]
    exact absolute_1366
  · have e : ((((0 : ℚ) + 1152 * 1366 / 1920) * 65535) / 1366 : ℚ) = ((39321 : Int) : ℚ) := by
      norm_num
    rw [e]
    exact int32OfFloat_of_floor _ 39321 (by norm_num) (le_refl _) (by norm_num) (by decide)

/-- C8 amended: after `SetMonitorInfo(i, monitors)` with a monitor `mon` at
index `i` whose origin and size are in the `int32` range, the desktop point
computed in `float64` for every encoded point `(x, y)` with `0 ≤ x ≤ 1920`
and `0 ≤ y ≤ 1080` is within `2^-19` of a pixel, in each axis, of
`(mon.X + x*mon.Width/1920, mon.Y + y*mon.Height/1080)`; it is exactly that
point when 1920 divides `mon.Width` and 1080 divides `mon.Height`; and it is
the same for every other monitor set and index that hold the same monitor,
whatever the other monitors and the virtual bounds. -/
theorem C8_single_monitor_remap (wii : WindowsInputInjector) (width height : Nat)
    (monitors : MultiMonitorInfo) (i : Nat) (mon : MonitorInfo)
    (hmon : monitors.Monitors[i]? = some mon) (x y : Int)
    (hx : 0 ≤ x ∧ x ≤ 1920) (hy : 0 ≤ y ∧ y ≤ 1080)
    (hrange : |mon.X| ≤ 2 ^ 31 ∧ |mon.Y| ≤ 2 ^ 31 ∧ |mon.Width| ≤ 2 ^ 31 ∧
      |mon.Height| ≤ 2 ^ 31) :
    |(((wii.Initialize width height).SetMonitorInfo (i : Int) monitors).2.screenPoint x y).1
      - ((mon.X : ℚ) + (x : ℚ) * (mon.Width : ℚ) / 1920)| ≤ 1 / 2 ^ 19 ∧
    |(((wii.Initialize width height).SetMonitorInfo (i : Int) monitors).2.screenPoint x y).2
      - ((mon.Y : ℚ) + (y : ℚ) * (mon.Height : ℚ) / 1080)| ≤ 1 / 2 ^ 19 ∧
    (1920 ∣ mon.Width → 1080 ∣ mon.Height →
      ((wii.Initialize width height).SetMonitorInfo (i : Int) monitors).2.screenPoint x y
        = ((mon.X : ℚ) + (x : ℚ) * (mon.Width : ℚ) / 1920,
           (mon.Y : ℚ) + (y : ℚ) * (mon.Height : ℚ) / 1080)) ∧
    ∀ (others : MultiMonitorInfo) (j : Nat), others.Monitors[j]? = some mon →
      ((wii.Initialize width height).SetMonitorInfo (j : Int) others).2.screenPoint x y
        = ((wii.Initialize width height).SetMonitorInfo (i : Int) monitors).2.screenPoint x y := by
  obtain ⟨hX, hY, hW, hH⟩ := hrange
  rw [WindowsInputInjector.screenPoint_single wii width height monitors i mon hmon]
  have ex := remap_error mon.X mon.Width x 1920 (by norm_num) (by norm_num) hx.1 hx.2 hX hW
  have ey := remap_error mon.Y mon.Height y 1080 (by norm_num) (by norm_num) hy.1 hy.2 hY hH
  refine ⟨by exact_mod_cast ex, by exact_mod_cast ey, ?_, ?_⟩
  · rintro ⟨kx, hkx⟩ ⟨ky, hky⟩
    rw [hkx] at hW ⊢
    rw [hky] at hH ⊢
    rw [remap_exact mon.X kx x 1920 (by norm_num) (by norm_num) hx.1 hx.2 hX hW,
      remap_exact mon.Y ky y 1080 (by norm_num) (by norm_num) hy.1 hy.2 hY hH]
    push_cast
    rw [Prod.mk.injEq]
    constructor <;> ring
  · intro others j hj
    rw [WindowsInputInjector.screenPoint_single wii width height others j mon hj]

/-- Witness for C8 amended: the right-hand monitor of `sideBySide`, encoded
point `(960, 540)`. -/
theorem C8_single_monitor_remap_witness :
    sideBySide.Monitors[1]? = some rightMonitor ∧
    ((WindowsInputInjector.zero.Initialize 1920 1080).SetMonitorInfo
        ((1 : Nat) : Int) sideBySide).2.screenPoint 960 540
      = (((rightMonitor.X : Int) : ℚ) + ((960 : Int) : ℚ) * ((rightMonitor.Width : Int) : ℚ) / 1920,
         ((rightMonitor.Y : Int) : ℚ) + ((540 : Int) : ℚ) * ((rightMonitor.Height : Int) : ℚ) / 1080) :=
  ⟨by decide, (C8_single_monitor_remap WindowsInputInjector.zero 1920 1080 sideBySide 1
    rightMonitor (by decide) 960 540 (by decide) (by decide) (by decide)).2.2.1
      (by decide) (by decide)⟩

/-- C9 as stated fails: the code computes in `float64`. For the virtual
desktop of one 1366 by 768 display at the origin, the desktop point computed
for encoded `(1152, 0)` has `screenX = 1802319460250419 / 2^41`
(819.5999999999999...), not `0 + 1152 * 1366 / 1920 = 4098/5`, and
`Dx = 39320` is sent where the exact point would give 39321. -/
theorem C9_exact_remap_fails_on_1366 :
    (laptop.VirtualMinX, laptop.VirtualMinY, laptop.VirtualWidth, laptop.VirtualHeight)
      = (0, 0, 1366, 768) ∧
    ((WindowsInputInjector.zero.Initialize 1366 768).SetMonitorInfo (-1) laptop).2.screenPoint
      1152 0 = (1802319460250419 / 2199023255552, 0) ∧
    (1802319460250419 / 2199023255552 : ℚ) ≠ (0 : ℚ) + 1152 * 1366 / 1920 ∧
    (((WindowsInputInjector.zero.Initialize 1366 768).SetMonitorInfo (-1)
        laptop).2.InjectMouseMove 1366 768 1152 0).Mi.Dx = 39320 := by
  have hb : (laptop.VirtualMinX, laptop.VirtualMinY, laptop.VirtualWidth,
      laptop.VirtualHeight) = (0, 0, 1366, 768) := by decide
  have hp := WindowsInputInjector.screenPoint_virtual WindowsInputInjector.zero 1366 768
    laptop 1152 0
  have hx : roundFloat64 (float64OfInt laptop.VirtualMinX
      + roundFloat64 (float64OfInt 1152
        * roundFloat64 (float64OfInt laptop.VirtualWidth / float64OfInt 1920)))
      = 1802319460250419 / 2199023255552 := by
    simp only [Prod.mk.injEq] at hb
    rw [hb.1, hb.2.2.1]
    exact remap_1366
  have hy : roundFloat64 (float64OfInt laptop.VirtualMinY
      + roundFloat64 (float64OfInt 0
        * roundFloat64 (float64OfInt laptop.VirtualHeight / float64OfInt 1080)))
      = 0 := by
    simp only [Prod.mk.injEq] at hb
    rw [hb.2.1, hb.2.2.2]
    have := remap_zero 0 768 1080 (by norm_num)
    norm_num at this
    exact this
  rw [hx, hy] at hp
  refine ⟨hb, hp, by norm_num, ?_⟩
  show int32OfFloat (roundFloat64 (roundFloat64
    ((((WindowsInputInjector.zero.Initialize 1366 768).SetMonitorInfo (-1)
      laptop).2.screenPoint 1152 0).1 * 65535) / float64OfInt ((1366 : Nat) : Int))) = 39320
  rw [hp]
  exact absolute_1366

/-- C9 amended: after `SetMonitorInfo(-1, monitors)` with virtual bounds in
the `int32` range, the desktop point computed in `float64` for every encoded
point `(x, y)` with `0 ≤ x ≤ 1920` and `0 ≤ y ≤ 1080` is within `2^-19` of a
pixel, in each axis, of
`(VirtualMinX + x*VirtualWidth/1920, VirtualMinY + y*VirtualHeight/1080)`,
and is exactly that point when 1920 divides `VirtualWidth` and 1080 divides
`VirtualHeight`; for the monitor set `DetectMonitors` derives from the bounds
`(0,0,1920,1080)` and `(1920,0,1920,1080)` the virtual rectangle is 3840 by
1080 at `(0, 0)` and encoded `(960, 540)` maps to `(1920, 540)`, hence within
1 pixel of it. -/
theorem C9_virtual_desktop_remap (wii : WindowsInputInjector) (width height : Nat)
    (monitors : MultiMonitorInfo) (x y : Int) (hx : 0 ≤ x ∧ x ≤ 1920)
    (hy : 0 ≤ y ∧ y ≤ 1080)
    (hrange : |monitors.VirtualMinX| ≤ 2 ^ 31 ∧ |monitors.VirtualMinY| ≤ 2 ^ 31 ∧
      |monitors.VirtualWidth| ≤ 2 ^ 31 ∧ |monitors.VirtualHeight| ≤ 2 ^ 31) :
    |(((wii.Initialize width height).SetMonitorInfo (-1) monitors).2.screenPoint x y).1
      - ((monitors.VirtualMinX : ℚ) + (x : ℚ) * (monitors.VirtualWidth : ℚ) / 1920)|
      ≤ 1 / 2 ^ 19 ∧
    |(((wii.Initialize width height).SetMonitorInfo (-1) monitors).2.screenPoint x y).2
      - ((monitors.VirtualMinY : ℚ) + (y : ℚ) * (monitors.VirtualHeight : ℚ) / 1080)|
      ≤ 1 / 2 ^ 19 ∧
    (1920 ∣ monitors.VirtualWidth → 1080 ∣ monitors.VirtualHeight →
      ((wii.Initialize width height).SetMonitorInfo (-1) monitors).2.screenPoint x y
        = ((monitors.VirtualMinX : ℚ) + (x : ℚ) * (monitors.VirtualWidth : ℚ) / 1920,
           (monitors.VirtualMinY : ℚ) + (y : ℚ) * (monitors.VirtualHeight : ℚ) / 1080)) ∧
    (sideBySide.VirtualMinX, sideBySide.VirtualMinY, sideBySide.VirtualWidth,
      sideBySide.VirtualHeight) = (0, 0, 3840, 1080) ∧
    ((wii.Initialize width height).SetMonitorInfo (-1) sideBySide).2.screenPoint 960 540
      = (1920, 540) ∧
    |(((wii.Initialize width height).SetMonitorInfo (-1) sideBySide).2.screenPoint
        960 540).1 - 1920| ≤ 1 ∧
    |(((wii.Initialize width height).SetMonitorInfo (-1) sideBySide).2.screenPoint
        960 540).2 - 540| ≤ 1 := by
  obtain ⟨hX, hY, hW, hH⟩ := hrange
  have hb : (sideBySide.VirtualMinX, sideBySide.VirtualMinY, sideBySide.VirtualWidth,
      sideBySide.VirtualHeight) = (0, 0, 3840, 1080) := by decide
  have hp : ((wii.Initialize width height).SetMonitorInfo (-1) sideBySide).2.screenPoint
      960 540 = (1920, 540) := by
    rw [WindowsInputInjector.screenPoint_virtual]
    simp only [Prod.mk.injEq] at hb
    obtain ⟨h1, h2, h3, h4⟩ := hb
    rw [h1, h2, h3, h4]
    have a := remap_exact 0 2 960 1920 (by norm_num) (by norm_num) (by norm_num) (by norm_num)
      (by norm_num) (by norm_num)
    have b := remap_exact 0 1 540 1080 (by norm_num) (by norm_num) (by norm_num) (by norm_num)
      (by norm_num) (by norm_num)
    norm_num at a b
    rw [a, b]
  rw [WindowsInputInjector.screenPoint_virtual]
  have ex := remap_error monitors.VirtualMinX monitors.VirtualWidth x 1920 (by norm_num)
    (by norm_num) hx.1 hx.2 hX hW
  have ey := remap_error monitors.VirtualMinY monitors.VirtualHeight y 1080 (by norm_num)
    (by norm_num) hy.1 hy.2 hY hH
  refine ⟨by exact_mod_cast ex, by exact_mod_cast ey, ?_, hb, hp, ?_, ?_⟩
  · rintro ⟨kx, hkx⟩ ⟨ky, hky⟩
    rw [hkx] at hW ⊢
    rw [hky] at hH ⊢
    rw [remap_exact monitors.VirtualMinX kx x 1920 (by norm_num) (by norm_num) hx.1 hx.2 hX hW,
      remap_exact monitors.VirtualMinY ky y 1080 (by norm_num) (by norm_num) hy.1 hy.2 hY hH]
    push_cast
    rw [Prod.mk.injEq]
    constructor <;> ring
  · rw [hp]; norm_num
  · rw [hp]; norm_num

/-- Witness for C9 amended: the virtual desktop of `sideBySide`, encoded point
`(960, 540)`. -/
theorem C9_virtual_desktop_remap_witness :
    (|sideBySide.VirtualMinX| ≤ 2 ^ 31 ∧ |sideBySide.VirtualMinY| ≤ 2 ^ 31 ∧
      |sideBySide.VirtualWidth| ≤ 2 ^ 31 ∧ |sideBySide.VirtualHeight| ≤ 2 ^ 31) ∧
    ((WindowsInputInjector.zero.Initialize 1920 1080).SetMonitorInfo (-1)
        sideBySide).2.screenPoint 960 540 = (1920, 540) :=
  ⟨by decide, (C9_virtual_desktop_remap WindowsInputInjector.zero 1920 1080 sideBySide 960 540
    (by decide) (by decide) (by decide)).2.2.2.2.1⟩

/-- C10 (range of the absolute coordinates), evaluated on the code: two
Full-HD monitors, the second at `(-1920, 0)`, give a virtual rectangle of
3840 by 1080 with `VirtualMinX = -1920`; with the virtual desktop selected
and the OS extents equal to 3840 by 1080, `InjectMouseMove(0, 0)` sends
`Dx = -32767`, which is outside `0..65535`. -/
theorem C10_negative_origin_leaves_range :
    (leftOfPrimary.VirtualMinX, leftOfPrimary.VirtualMinY, leftOfPrimary.VirtualWidth,
      leftOfPrimary.VirtualHeight) = (-1920, 0, 3840, 1080) ∧
    (((WindowsInputInjector.zero.Initialize 1920 1080).SetMonitorInfo (-1)
        leftOfPrimary).2.InjectMouseMove 3840 1080 0 0).Mi.Dx = -32767 ∧
    ¬ (0 ≤ (((WindowsInputInjector.zero.Initialize 1920 1080).SetMonitorInfo (-1)
        leftOfPrimary).2.InjectMouseMove 3840 1080 0 0).Mi.Dx) := by
  have hb : (leftOfPrimary.VirtualMinX, leftOfPrimary.VirtualMinY,
      leftOfPrimary.VirtualWidth, leftOfPrimary.VirtualHeight) = (-1920, 0, 3840, 1080) := by
    decide
  have hdx : (((WindowsInputInjector.zero.Initialize 1920 1080).SetMonitorInfo (-1)
      leftOfPrimary).2.InjectMouseMove 3840 1080 0 0).Mi.Dx = -32767 := by
    simp only [WindowsInputInjector.InjectMouseMove,
      WindowsInputInjector.screenPoint_virtual]
    simp only [Prod.mk.injEq] at hb
    obtain ⟨h1, _, h3, _⟩ := hb
    rw [h1, h3, remap_zero (-1920) 3840 1920 (by norm_num)]
    have hprod : ((((-1920 : Int) : ℚ)) * 65535) = (((-125827200 : Int)) : ℚ) := by norm_num
    have hw : float64OfInt ((3840 : Nat) : Int) = 3840 := by
      rw [float64OfInt_small _ (by norm_num)]; norm_num
    have hq : ((((-125827200 : Int)) : ℚ)) / 3840 = (((-65535 : Int)) : ℚ) / 2 := by norm_num
    rw [hprod, roundFloat64_intCast _ (by norm_num), hw, hq,
      roundFloat64_half _ (by norm_num)]
    have hneg : ¬ ((0 : ℚ) ≤ (((-65535 : Int)) : ℚ) / 2) := by norm_num
    have hceil : ⌈((((-65535 : Int)) : ℚ) / 2)⌉ = -32767 := by
      rw [Int.ceil_eq_iff]
      norm_num
    simp only [int32OfFloat, if_neg hneg, hceil]
    decide
  refine ⟨hb, hdx, ?_⟩
  rw [hdx]
  decide

/-! ## Properties of monitor selection -/

theorem intOfFloat_intCast (k : Int) : intOfFloat (k : ℚ) = k := by
  unfold intOfFloat
  split
  · exact Int.floor_intCast k
  · exact Int.ceil_intCast k

theorem handleMonitorChange_monitorMessage (host : Host) (k : Int) (sc : ScreenCapture)
    (ih : InputHandler) :
    handleMonitorChange host (monitorMessage k) sc ih
      = (match (ih.SetMonitorInfo k (sc.SetMonitor host k).GetMonitors).1 with
         | some err => some ("failed to update input handler monitor info: " ++ err)
         | none => none,
         sc.SetMonitor host k,
         (ih.SetMonitorInfo k (sc.SetMonitor host k).GetMonitors).2) := by
  have hf : Message.asFloat64 (monitorMessage k) "monitorIndex" = ((k : ℚ), true) := by
    simp [Message.asFloat64, monitorMessage, List.lookup]
  simp only [handleMonitorChange, hf, intOfFloat_intCast, Bool.not_true, Bool.false_eq_true,
    if_false]
  split <;> rename_i h <;> simp [h]

/-- C11 (out-of-range index must not mutate), evaluated on the code: the
injector `virtualInjector` has the virtual desktop of `sideBySide` selected;
`SetMonitorInfo(5, eightK)` returns the error "invalid monitor index: 5", yet
afterwards `monitorIndex` is 5 (it was -1) and `monitors` is `eightK` (it was
`sideBySide`), while `monitorInfo`, `screenWidth` and `screenHeight` are kept.
The failed call changes the remapping: encoded `(960, 540)` mapped to desktop
`(1920, 540)` before it and is passed through as `(960, 540)` after it. -/
theorem C11_out_of_range_index_mutates :
    (virtualInjector.SetMonitorInfo 5 eightK).1 = some "invalid monitor index: 5" ∧
    virtualInjector.monitorIndex = -1 ∧
    (virtualInjector.SetMonitorInfo 5 eightK).2.monitorIndex = 5 ∧
    virtualInjector.monitors = sideBySide ∧
    (virtualInjector.SetMonitorInfo 5 eightK).2.monitors = eightK ∧
    (virtualInjector.SetMonitorInfo 5 eightK).2.monitorInfo = virtualInjector.monitorInfo ∧
    (virtualInjector.SetMonitorInfo 5 eightK).2.screenWidth = virtualInjector.screenWidth ∧
    (virtualInjector.SetMonitorInfo 5 eightK).2.screenHeight = virtualInjector.screenHeight ∧
    (virtualInjector.SetMonitorInfo 5 eightK).2 ≠ virtualInjector ∧
    virtualInjector.screenPoint 960 540 = (1920, 540) ∧
    (virtualInjector.SetMonitorInfo 5 eightK).2.screenPoint 960 540 = (960, 540) := by
  refine ⟨by decide, by decide, by decide, by decide, by decide, by decide, by decide,
    by decide, by decide, ?_, ?_⟩
  · have hb : (sideBySide.VirtualMinX, sideBySide.VirtualMinY, sideBySide.VirtualWidth,
        sideBySide.VirtualHeight) = (0, 0, 3840, 1080) := by decide
    simp only [Prod.mk.injEq] at hb
    obtain ⟨h1, h2, h3, h4⟩ := hb
    unfold virtualInjector
    rw [WindowsInputInjector.screenPoint_virtual, h1, h2, h3, h4]
    have a := remap_exact 0 2 960 1920 (by norm_num) (by norm_num) (by norm_num) (by norm_num)
      (by norm_num) (by norm_num)
    have b := remap_exact 0 1 540 1080 (by norm_num) (by norm_num) (by norm_num) (by norm_num)
      (by norm_num) (by norm_num)
    norm_num at a b
    rw [a, b]
  · have h1 : (virtualInjector.SetMonitorInfo 5 eightK).2.monitorInfo = none := by decide
    have h2 : (virtualInjector.SetMonitorInfo 5 eightK).2.monitorIndex = 5 := by decide
    have e1 : float64OfInt 960 = 960 := by
      rw [float64OfInt_small 960 (by norm_num)]; norm_num
    have e2 : float64OfInt 540 = 540 := by
      rw [float64OfInt_small 540 (by norm_num)]; norm_num
    unfold WindowsInputInjector.screenPoint
    rw [h1, h2]
    simp only [e1, e2]
    rfl

/-- C12 (monitor change is rejected as a whole), evaluated on the code: on
`windowsHost` (two monitors) with monitor 0 selected, the control message
`{type:"monitor", monitorIndex:5}` makes `handleMonitorChange` return an
error, yet the frame source has `monitorIndex = 5` and a capturer
reinitialised for monitor 5, and the injector has `monitorIndex = 5`. -/
theorem C12_rejected_monitor_change_is_applied :
    startedCapture.monitorIndex = 0 ∧
    sessionInput.injector.map (fun wii => wii.monitorIndex) = some 0 ∧
    (handleMonitorChange windowsHost (monitorMessage 5) startedCapture sessionInput).1
      = some "failed to update input handler monitor info: invalid monitor index: 5" ∧
    (handleMonitorChange windowsHost (monitorMessage 5) startedCapture sessionInput).2.1.monitorIndex
      = 5 ∧
    (∃ info, (handleMonitorChange windowsHost (monitorMessage 5) startedCapture
      sessionInput).2.1.capturer = some (.windows info 5 startedCapture.monitors)) ∧
    (handleMonitorChange windowsHost (monitorMessage 5) startedCapture
      sessionInput).2.2.injector.map (fun wii => wii.monitorIndex) = some 5 := by
  rw [handleMonitorChange_monitorMessage]
  exact ⟨by decide, by decide, by decide, by decide, ⟨_, rfl⟩, by decide⟩

/-- C13 (idempotent monitor change): for every frame source, running or not,
and every index `k`, `SetMonitor(k)` applied twice gives the same frame
source (selection, running flag, capturer, monitor set, queue) as
`SetMonitor(k)` applied once. -/
theorem C13_SetMonitor_idempotent (sc : ScreenCapture) (host : Host) (k : Int) :
    (sc.SetMonitor host k).SetMonitor host k = sc.SetMonitor host k := by
  unfold ScreenCapture.SetMonitor
  cases hr : sc.running <;> cases hc : sc.capturer <;> simp [hr, hc]

/-! ## Properties of the frame queue -/

theorem ScreenCapture.Start_frameChan (sc : ScreenCapture) (host : Host) :
    (sc.Start host).2.frameChan = sc.frameChan := by
  unfold ScreenCapture.Start
  split
  · rfl
  · dsimp only
    split <;> rfl

theorem ScreenCapture.SetMonitor_frameChan (sc : ScreenCapture) (host : Host) (index : Int) :
    (sc.SetMonitor host index).frameChan = sc.frameChan := by
  unfold ScreenCapture.SetMonitor
  dsimp only
  split <;> rfl

theorem Chan.trySend_bounded {c c1 : Chan} {frame : RGBA}
    (h : c.buf.length ≤ 2 ∧ c.cap = 2 ∧ c.closed = false) (hsend : c.trySend frame = some c1) :
    c1.buf.length ≤ 2 ∧ c1.cap = 2 ∧ c1.closed = false := by
  obtain ⟨h1, h2, h3⟩ := h
  unfold Chan.trySend at hsend
  rw [if_neg (by simp [h3])] at hsend
  split at hsend
  · rename_i hlt
    cases hsend
    refine ⟨?_, h2, h3⟩
    simp only [List.length_append, List.length_singleton]
    omega
  · cases hsend
    exact ⟨h1, h2, h3⟩

theorem Chan.recv_bounded {c c1 : Chan} {frame : Option RGBA}
    (h : c.buf.length ≤ 2 ∧ c.cap = 2 ∧ c.closed = false) (hrecv : c.recv = some (frame, c1)) :
    c1.buf.length ≤ 2 ∧ c1.cap = 2 ∧ c1.closed = false := by
  obtain ⟨h1, h2, h3⟩ := h
  unfold Chan.recv at hrecv
  split at hrecv
  · rename_i f rest hbuf
    cases hrecv
    rw [hbuf] at h1
    simp only [List.length_cons] at h1
    exact ⟨by simp only []; omega, h2, h3⟩
  · split at hrecv
    · cases hrecv
      exact ⟨h1, h2, h3⟩
    · cases hrecv

theorem CaptureReachable.chan {host : Host} {sc : ScreenCapture}
    (h : CaptureReachable host sc) :
    sc.frameChan.buf.length ≤ 2 ∧ sc.frameChan.cap = 2 ∧ sc.frameChan.closed = false := by
  induction h with
  | new => decide
  | start _ ih => rw [ScreenCapture.Start_frameChan]; exact ih
  | capture captured _ hstep ih =>
    unfold ScreenCapture.captureLoopStep at hstep
    split at hstep
    · cases hstep; exact ih
    · split at hstep
      · cases hstep; exact ih
      · split at hstep
        · rename_i c hc
          cases hstep
          exact Chan.trySend_bounded ih hc
        · cases hstep
  | receive frame _ hstep ih =>
    unfold ScreenCapture.receive at hstep
    split at hstep
    · rename_i f c hc
      cases hstep
      exact Chan.recv_bounded ih hc
    · cases hstep
  | setMonitor index _ ih => rw [ScreenCapture.SetMonitor_frameChan]; exact ih

/-- C16 (frame queue boundedness, drop-newest): in every state of a frame
source reached by `Start`, iterations of the capture loop, receives of the
consumer and monitor switches, the queue holds at most 2 frames; an
iteration of the running capture loop that offers a frame to a queue of 2
frames returns the frame source unchanged (the new frame is dropped, the
queued frames keep their order), and with fewer than 2 queued frames it
appends the frame at the end. -/
theorem C16_frame_queue_bounded_drop_newest (host : Host) (sc : ScreenCapture)
    (h : CaptureReachable host sc) (frame : RGBA) :
    sc.frameChan.buf.length ≤ 2 ∧
    (sc.frameChan.buf.length = 2 → sc.captureLoopStep (some frame) = some sc) ∧
    (sc.running = true → sc.frameChan.buf.length < 2 →
      sc.captureLoopStep (some frame)
        = some { sc with frameChan := { sc.frameChan with buf := sc.frameChan.buf ++ [frame] } }) := by
  obtain ⟨h1, h2, h3⟩ := h.chan
  refine ⟨h1, ?_, ?_⟩
  · intro hfull
    have hsend : sc.frameChan.trySend frame = some sc.frameChan := by
      unfold Chan.trySend
      simp [h2, h3, hfull]
    unfold ScreenCapture.captureLoopStep
    split
    · rfl
    · simp only [hsend]
  · intro hr hroom
    have hsend : sc.frameChan.trySend frame
        = some { sc.frameChan with buf := sc.frameChan.buf ++ [frame] } := by
      unfold Chan.trySend
      simp [h2, h3, hroom]
    unfold ScreenCapture.captureLoopStep
    rw [if_neg (by simp [hr])]
    simp only [hsend]

/-- Witness for C16: `fullCapture` is reached by `Start` and two iterations
of the capture loop; a third frame is dropped. -/
theorem C16_frame_queue_bounded_drop_newest_witness :
    CaptureReachable windowsHost fullCapture ∧
    fullCapture.frameChan.buf = [tinyFrame 1, tinyFrame 2] ∧
    fullCapture.captureLoopStep (some (tinyFrame 3)) = some fullCapture := by
  have h0 : CaptureReachable windowsHost startedCapture := CaptureReachable.start CaptureReachable.new
  have h1 : CaptureReachable windowsHost
      { startedCapture with
        frameChan := { startedCapture.frameChan with buf := [tinyFrame 1] } } :=
    CaptureReachable.capture (some (tinyFrame 1)) h0 (by decide)
  have h2 : CaptureReachable windowsHost fullCapture :=
    CaptureReachable.capture (some (tinyFrame 2)) h1 (by decide)
  exact ⟨h2, rfl, (C16_frame_queue_bounded_drop_newest windowsHost fullCapture h2
    (tinyFrame 3)).2.1 (by decide)⟩

theorem DetectMonitors.loop_spec (displays : List Rectangle) :
    ∀ (i : Nat) (st : DetectState),
      (DetectMonitors.loop displays i st).minX ≤ st.minX ∧
      (∀ b, b ∈ displays → (DetectMonitors.loop displays i st).minX ≤ b.Min.X) ∧
      ((DetectMonitors.loop displays i st).minX = st.minX ∨
        ∃ b, b ∈ displays ∧ b.Min.X = (DetectMonitors.loop displays i st).minX) ∧
      (DetectMonitors.loop displays i st).minY ≤ st.minY ∧
      (∀ b, b ∈ displays → (DetectMonitors.loop displays i st).minY ≤ b.Min.Y) ∧
      ((DetectMonitors.loop displays i st).minY = st.minY ∨
        ∃ b, b ∈ displays ∧ b.Min.Y = (DetectMonitors.loop displays i st).minY) ∧
      st.maxX ≤ (DetectMonitors.loop displays i st).maxX ∧
      (∀ b, b ∈ displays → b.Max.X ≤ (DetectMonitors.loop displays i st).maxX) ∧
      ((DetectMonitors.loop displays i st).maxX = st.maxX ∨
        ∃ b, b ∈ displays ∧ b.Max.X = (DetectMonitors.loop displays i st).maxX) ∧
      st.maxY ≤ (DetectMonitors.loop displays i st).maxY ∧
      (∀ b, b ∈ displays → b.Max.Y ≤ (DetectMonitors.loop displays i st).maxY) ∧
      ((DetectMonitors.loop displays i st).maxY = st.maxY ∨
        ∃ b, b ∈ displays ∧ b.Max.Y = (DetectMonitors.loop displays i st).maxY) ∧
      (DetectMonitors.loop displays i st).monitors.map
          (fun m => (m.X, m.Y, m.Width, m.Height))
        = st.monitors.map (fun m => (m.X, m.Y, m.Width, m.Height))
          ++ displays.map (fun b => (b.Min.X, b.Min.Y, b.Dx, b.Dy)) := by
  induction displays with
  | nil =>
    intro i st
    simp [DetectMonitors.loop]
  | cons b rest ih =>
    intro i st
    obtain ⟨a1, a2, a3, b1, b2, b3, c1, c2, c3, d1, d2, d3, e⟩ :=
      ih (i + 1) (DetectMonitors.body st i b)
    have hminX : (DetectMonitors.body st i b).minX
        = if b.Min.X < st.minX then b.Min.X else st.minX := rfl
    have hminY : (DetectMonitors.body st i b).minY
        = if b.Min.Y < st.minY then b.Min.Y else st.minY := rfl
    have hmaxX : (DetectMonitors.body st i b).maxX
        = if b.Max.X > st.maxX then b.Max.X else st.maxX := rfl
    have hmaxY : (DetectMonitors.body st i b).maxY
        = if b.Max.Y > st.maxY then b.Max.Y else st.maxY := rfl
    have hmons : (DetectMonitors.body st i b).monitors.map
        (fun m => (m.X, m.Y, m.Width, m.Height))
        = st.monitors.map (fun m => (m.X, m.Y, m.Width, m.Height))
          ++ [(b.Min.X, b.Min.Y, b.Dx, b.Dy)] := by
      simp [DetectMonitors.body]
    have hloop : DetectMonitors.loop (b :: rest) i st
        = DetectMonitors.loop rest (i + 1) (DetectMonitors.body st i b) := rfl
    rw [hloop]
    generalize DetectMonitors.loop rest (i + 1) (DetectMonitors.body st i b) = r at *
    rw [hminX] at a1 a3
    rw [hminY] at b1 b3
    rw [hmaxX] at c1 c3
    rw [hmaxY] at d1 d3
    refine ⟨?_, ?_, ?_, ?_, ?_, ?_, ?_, ?_, ?_, ?_, ?_, ?_, ?_⟩
    · split at a1 <;> omega
    · intro b0 hb0
      rcases List.mem_cons.mp hb0 with h | h
      · subst h; split at a1 <;> omega
      · exact a2 b0 h
    · rcases a3 with h | ⟨b0, hb0, h⟩
      · split at h
        · exact Or.inr ⟨b, List.mem_cons_self _ _, h.symm⟩
        · exact Or.inl h
      · exact Or.inr ⟨b0, List.mem_cons_of_mem _ hb0, h⟩
    · split at b1 <;> omega
    · intro b0 hb0
      rcases List.mem_cons.mp hb0 with h | h
      · subst h; split at b1 <;> omega
      · exact b2 b0 h
    · rcases b3 with h | ⟨b0, hb0, h⟩
      · split at h
        · exact Or.inr ⟨b, List.mem_cons_self _ _, h.symm⟩
        · exact Or.inl h
      · exact Or.inr ⟨b0, List.mem_cons_of_mem _ hb0, h⟩
    · split at c1 <;> omega
    · intro b0 hb0
      rcases List.mem_cons.mp hb0 with h | h
      · subst h; split at c1 <;> omega
      · exact c2 b0 h
    · rcases c3 with h | ⟨b0, hb0, h⟩
      · split at h
        · exact Or.inr ⟨b, List.mem_cons_self _ _, h.symm⟩
        · exact Or.inl h
      · exact Or.inr ⟨b0, List.mem_cons_of_mem _ hb0, h⟩
    · split at d1 <;> omega
    · intro b0 hb0
      rcases List.mem_cons.mp hb0 with h | h
      · subst h; split at d1 <;> omega
      · exact d2 b0 h
    · rcases d3 with h | ⟨b0, hb0, h⟩
      · split at h
        · exact Or.inr ⟨b, List.mem_cons_self _ _, h.symm⟩
        · exact Or.inl h
      · exact Or.inr ⟨b0, List.mem_cons_of_mem _ hb0, h⟩
    · rw [e, hmons]
      simp

/-- The bounds start at 0 and not at the first display: for one display of
1920 by 1080 at `(100, 50)`, a layout without a display at the origin,
`DetectMonitors` returns the virtual rectangle `(0, 0, 2020, 1130)`, the
union of the display and the origin. -/
theorem DetectMonitors_offsetDisplay :
    (DetectMonitors offsetDisplay).Monitors.map (fun m => (m.X, m.Y, m.Width, m.Height))
      = [(100, 50, 1920, 1080)] ∧
    ((DetectMonitors offsetDisplay).VirtualMinX, (DetectMonitors offsetDisplay).VirtualMinY,
      (DetectMonitors offsetDisplay).VirtualWidth, (DetectMonitors offsetDisplay).VirtualHeight)
      = (0, 0, 2020, 1130) := by
  decide

/-- C17 (virtual rectangle is the union of the monitors): for every list of
display bounds in which some display covers the point `(0, 0)` (the OS puts
the primary display there, so every list `screenshot.GetDisplayBounds`
yields is such a list, and it is not empty), `DetectMonitors` returns one
monitor per display, with the origin and size of its bounds, and virtual
bounds that are the union of the monitor rectangles: `VirtualMinX` is the
least `X` and `VirtualMinY` the least `Y` of a monitor,
`VirtualMinX + VirtualWidth` is the greatest `X + Width` and
`VirtualMinY + VirtualHeight` the greatest `Y + Height`. -/
theorem C17_virtual_bounds_union (displays : List Rectangle)
    (horigin : ∃ b, b ∈ displays ∧ b.Min.X ≤ 0 ∧ 0 ≤ b.Max.X ∧ b.Min.Y ≤ 0 ∧ 0 ≤ b.Max.Y) :
    (DetectMonitors displays).Monitors.map (fun m => (m.X, m.Y, m.Width, m.Height))
      = displays.map (fun b => (b.Min.X, b.Min.Y, b.Dx, b.Dy)) ∧
    (∀ m, m ∈ (DetectMonitors displays).Monitors → (DetectMonitors displays).VirtualMinX ≤ m.X) ∧
    (∃ m, m ∈ (DetectMonitors displays).Monitors ∧ m.X = (DetectMonitors displays).VirtualMinX) ∧
    (∀ m, m ∈ (DetectMonitors displays).Monitors → (DetectMonitors displays).VirtualMinY ≤ m.Y) ∧
    (∃ m, m ∈ (DetectMonitors displays).Monitors ∧ m.Y = (DetectMonitors displays).VirtualMinY) ∧
    (∀ m, m ∈ (DetectMonitors displays).Monitors →
      m.X + m.Width
        ≤ (DetectMonitors displays).VirtualMinX + (DetectMonitors displays).VirtualWidth) ∧
    (∃ m, m ∈ (DetectMonitors displays).Monitors ∧
      m.X + m.Width
        = (DetectMonitors displays).VirtualMinX + (DetectMonitors displays).VirtualWidth) ∧
    (∀ m, m ∈ (DetectMonitors displays).Monitors →
      m.Y + m.Height
        ≤ (DetectMonitors displays).VirtualMinY + (DetectMonitors displays).VirtualHeight) ∧
    (∃ m, m ∈ (DetectMonitors displays).Monitors ∧
      m.Y + m.Height
        = (DetectMonitors displays).VirtualMinY + (DetectMonitors displays).VirtualHeight) := by
  obtain ⟨b0, hb0, o1, o2, o3, o4⟩ := horigin
  obtain ⟨a1, a2, a3, b1, b2, b3, c1, c2, c3, d1, d2, d3, e⟩ := DetectMonitors.loop_spec displays 0
    { monitors := [], minX := 0, minY := 0, maxX := 0, maxY := 0 }
  have hM : (DetectMonitors displays).Monitors = (DetectMonitors.loop displays 0
      { monitors := [], minX := 0, minY := 0, maxX := 0, maxY := 0 }).monitors := rfl
  have hX : (DetectMonitors displays).VirtualMinX = (DetectMonitors.loop displays 0
      { monitors := [], minX := 0, minY := 0, maxX := 0, maxY := 0 }).minX := rfl
  have hY : (DetectMonitors displays).VirtualMinY = (DetectMonitors.loop displays 0
      { monitors := [], minX := 0, minY := 0, maxX := 0, maxY := 0 }).minY := rfl
  have hW : (DetectMonitors displays).VirtualWidth = (DetectMonitors.loop displays 0
      { monitors := [], minX := 0, minY := 0, maxX := 0, maxY := 0 }).maxX
      - (DetectMonitors.loop displays 0
      { monitors := [], minX := 0, minY := 0, maxX := 0, maxY := 0 }).minX := rfl
  have hH : (DetectMonitors displays).VirtualHeight = (DetectMonitors.loop displays 0
      { monitors := [], minX := 0, minY := 0, maxX := 0, maxY := 0 }).maxY
      - (DetectMonitors.loop displays 0
      { monitors := [], minX := 0, minY := 0, maxX := 0, maxY := 0 }).minY := rfl
  rw [hM, hX, hY, hW, hH]
  generalize DetectMonitors.loop displays 0
    { monitors := [], minX := 0, minY := 0, maxX := 0, maxY := 0 } = r at *
  simp only [List.map_nil, List.nil_append] at e
  have p1 := a2 b0 hb0
  have p2 := b2 b0 hb0
  have p3 := c2 b0 hb0
  have p4 := d2 b0 hb0
  have q1 : ∃ b, b ∈ displays ∧ b.Min.X = r.minX := by
    rcases a3 with h | h
    · exact ⟨b0, hb0, by simp only [] at h; omega⟩
    · exact h
  have q2 : ∃ b, b ∈ displays ∧ b.Min.Y = r.minY := by
    rcases b3 with h | h
    · exact ⟨b0, hb0, by simp only [] at h; omega⟩
    · exact h
  have q3 : ∃ b, b ∈ displays ∧ b.Max.X = r.maxX := by
    rcases c3 with h | h
    · exact ⟨b0, hb0, by simp only [] at h; omega⟩
    · exact h
  have q4 : ∃ b, b ∈ displays ∧ b.Max.Y = r.maxY := by
    rcases d3 with h | h
    · exact ⟨b0, hb0, by simp only [] at h; omega⟩
    · exact h
  have toDisplay : ∀ m, m ∈ r.monitors → ∃ b, b ∈ displays ∧ m.X = b.Min.X ∧ m.Y = b.Min.Y ∧
      m.Width = b.Dx ∧ m.Height = b.Dy := by
    intro m hm
    have hin : (m.X, m.Y, m.Width, m.Height)
        ∈ r.monitors.map (fun m => (m.X, m.Y, m.Width, m.Height)) :=
      List.mem_map.mpr ⟨m, hm, rfl⟩
    rw [e] at hin
    obtain ⟨b, hb, hbe⟩ := List.mem_map.mp hin
    simp only [Prod.mk.injEq] at hbe
    exact ⟨b, hb, hbe.1.symm, hbe.2.1.symm, hbe.2.2.1.symm, hbe.2.2.2.symm⟩
  have toMonitor : ∀ b, b ∈ displays → ∃ m, m ∈ r.monitors ∧ m.X = b.Min.X ∧ m.Y = b.Min.Y ∧
      m.Width = b.Dx ∧ m.Height = b.Dy := by
    intro b hb
    have hin : (b.Min.X, b.Min.Y, b.Dx, b.Dy)
        ∈ displays.map (fun b => (b.Min.X, b.Min.Y, b.Dx, b.Dy)) :=
      List.mem_map.mpr ⟨b, hb, rfl⟩
    rw [← e] at hin
    obtain ⟨m, hm, hme⟩ := List.mem_map.mp hin
    simp only [Prod.mk.injEq] at hme
    exact ⟨m, hm, hme.1, hme.2.1, hme.2.2.1, hme.2.2.2⟩
  refine ⟨e, ?_, ?_, ?_, ?_, ?_, ?_, ?_, ?_⟩
  · intro m hm
    obtain ⟨b, hb, h1, _, _, _⟩ := toDisplay m hm
    have := a2 b hb
    omega
  · obtain ⟨b, hb, h⟩ := q1
    obtain ⟨m, hm, h1, _, _, _⟩ := toMonitor b hb
    exact ⟨m, hm, by omega⟩
  · intro m hm
    obtain ⟨b, hb, _, h1, _, _⟩ := toDisplay m hm
    have := b2 b hb
    omega
  · obtain ⟨b, hb, h⟩ := q2
    obtain ⟨m, hm, _, h1, _, _⟩ := toMonitor b hb
    exact ⟨m, hm, by omega⟩
  · intro m hm
    obtain ⟨b, hb, h1, _, h2, _⟩ := toDisplay m hm
    have := c2 b hb
    unfold Rectangle.Dx at h2
    omega
  · obtain ⟨b, hb, h⟩ := q3
    obtain ⟨m, hm, h1, _, h2, _⟩ := toMonitor b hb
    unfold Rectangle.Dx at h2
    exact ⟨m, hm, by omega⟩
  · intro m hm
    obtain ⟨b, hb, _, h1, _, h2⟩ := toDisplay m hm
    have := d2 b hb
    unfold Rectangle.Dy at h2
    omega
  · obtain ⟨b, hb, h⟩ := q4
    obtain ⟨m, hm, _, h1, _, h2⟩ := toMonitor b hb
    unfold Rectangle.Dy at h2
    exact ⟨m, hm, by omega⟩

/-- Witness for C17: two Full-HD displays, the second to the left of the
primary one: the virtual rectangle is `(-1920, 0, 3840, 1080)`. -/
theorem C17_virtual_bounds_union_witness :
    (∃ b, b ∈ [displayBounds 0 0 1920 1080, displayBounds (-1920) 0 1920 1080] ∧
      b.Min.X ≤ 0 ∧ 0 ≤ b.Max.X ∧ b.Min.Y ≤ 0 ∧ 0 ≤ b.Max.Y) ∧
    ∀ m, m ∈ leftOfPrimary.Monitors → leftOfPrimary.VirtualMinX ≤ m.X :=
  ⟨⟨displayBounds 0 0 1920 1080, by decide⟩,
   (C17_virtual_bounds_union [displayBounds 0 0 1920 1080, displayBounds (-1920) 0 1920 1080]
      ⟨displayBounds 0 0 1920 1080, by decide⟩).2.1⟩

/-! ## Properties of the signal transport -/

/-- C18 (signal poll cursor): a poll answered with status 200, a decodable
body, `success = true` and a non-empty message list returns that list and
sets the cursor to the `Timestamp` of its last message; a poll that returns
an error (the request cannot be built, the transport fails, the status is not
200, the body does not decode, or `success` is false) or an empty list
leaves the client unchanged, so the next poll requests the same URL with the
same `since`. -/
theorem C18_poll_cursor (sc : SignalClient) (net : PollOutcome) (msgs : List SignalMessage)
    (last : SignalMessage) (statusCode : Nat) :
    (msgs.getLast? = some last →
      (sc.PollSignals (.response 200 (some { Success := true, Data := msgs }))).1
        = (msgs, none) ∧
      (sc.PollSignals (.response 200 (some { Success := true, Data := msgs }))).2.lastPollTime
        = last.Timestamp) ∧
    (sc.PollSignals .requestError).1.2 ≠ none ∧
    (sc.PollSignals .transportError).1.2 ≠ none ∧
    (statusCode ≠ 200 → (sc.PollSignals (.response statusCode (some { Success := true, Data := msgs }))).1.2 ≠ none) ∧
    (sc.PollSignals (.response 200 none)).1.2 ≠ none ∧
    (sc.PollSignals (.response 200 (some { Success := false, Data := msgs }))).1.2 ≠ none ∧
    (((sc.PollSignals net).1.2 ≠ none ∨ (sc.PollSignals net).1.1 = []) →
      (sc.PollSignals net).2 = sc ∧
      (sc.PollSignals net).2.lastPollTime = sc.lastPollTime ∧
      (sc.PollSignals net).2.pollURL = sc.pollURL) := by
  refine ⟨?_, ?_, ?_, ?_, ?_, ?_, ?_⟩
  · intro hlast
    simp [SignalClient.PollSignals, hlast]
  · simp [SignalClient.PollSignals]
  · simp [SignalClient.PollSignals]
  · intro hne
    simp [SignalClient.PollSignals, hne]
  · simp [SignalClient.PollSignals]
  · simp [SignalClient.PollSignals]
  · intro h
    have hsame : (sc.PollSignals net).2 = sc := by
      revert h
      unfold SignalClient.PollSignals
      cases net with
      | requestError => intro _; rfl
      | transportError => intro _; rfl
      | response code body =>
        by_cases hcode : code = 200
        · cases body with
          | none => intro _; simp [hcode]
          | some result =>
            cases hs : result.Success
            · intro _; simp [hcode, hs]
            · cases hl : result.Data.getLast? with
              | none => intro _; simp [hcode, hs, hl]
              | some lastMsg =>
                intro h
                simp only [hcode, hs, hl, ne_eq, not_true_eq_false, if_false,
                  Bool.not_true, Bool.false_eq_true, false_or] at h
                rw [h] at hl
                simp at hl
        · intro _; simp [hcode]
    rw [hsame]
    exact ⟨rfl, rfl, rfl⟩

/-- Witness for C18: the cursor of `polledClient` stands at 7; a successful
poll with messages stamped 8 and 9 moves it to 9, a failed transport leaves
it at 7. -/
theorem C18_poll_cursor_witness :
    (polledClient.PollSignals
      (.response 200 (some { Success := true, Data := twoSignals }))).2.lastPollTime = 9 ∧
    (polledClient.PollSignals .transportError).2.lastPollTime = 7 := by
  have h := C18_poll_cursor polledClient .transportError twoSignals
    { MsgType := "ice-candidate", Data := "c", Timestamp := 9 } 500
  exact ⟨(h.1 rfl).2, (h.2.2.2.2.2.2 (Or.inl (by decide))).2.1⟩

/-! ## Properties of key injection -/

/-- C19 (key dispatch): for every key name that `convertKeyToVK` recognises
and an input handler with a Windows injector, the control message
`{type:"keyboard", key, down:true}` hands exactly one keyboard input to
`SendInput`, carrying the key's virtual-key code with flags 0 (no key-up
flag), and the same message with `down:false` hands exactly one input with
the same code and the flag `KEYEVENTF_KEYUP`; the returned error is that of
`SendInput`. The code of "ArrowRight" is `VK_RIGHT` = 0x27. -/
theorem C19_key_dispatch (key : String) (wii : WindowsInputInjector) (ret : Nat)
    (hkey : convertKeyToVK key ≠ 0) :
    handleKeyboardInput (keyboardMessage key true) { injector := some wii } ret
      = some (sendKeyboardInput ret,
          [{ InputType := INPUT_TYPE_KEYBOARD,
             Ki := { WVk := convertKeyToVK key, WScan := 0, DwFlags := 0, Time := 0,
                     DwExtraInfo := 0 } }]) ∧
    handleKeyboardInput (keyboardMessage key false) { injector := some wii } ret
      = some (sendKeyboardInput ret,
          [{ InputType := INPUT_TYPE_KEYBOARD,
             Ki := { WVk := convertKeyToVK key, WScan := 0, DwFlags := KEYEVENTF_KEYUP,
                     Time := 0, DwExtraInfo := 0 } }]) ∧
    convertKeyToVK "ArrowRight" = 0x27 ∧ VK_RIGHT = 0x27 := by
  have hk (down : Bool) : (Message.asString (keyboardMessage key down) "key").1 = key := by
    simp [Message.asString, keyboardMessage, List.lookup]
  have hd (down : Bool) : (Message.asBool (keyboardMessage key down) "down").1 = down := by
    simp [Message.asBool, keyboardMessage, List.lookup]
  refine ⟨?_, ?_, by decide, by decide⟩
  · simp [handleKeyboardInput, InputHandler.HandleKeyboardEvent,
      WindowsInputInjector.InjectKeyPress, hk, hd, hkey]
  · simp [handleKeyboardInput, InputHandler.HandleKeyboardEvent,
      WindowsInputInjector.InjectKeyPress, hk, hd, hkey]

/-- Witness for C19: the key "ArrowRight" on the injector of a session. -/
theorem C19_key_dispatch_witness :
    convertKeyToVK "ArrowRight" ≠ 0 ∧
    handleKeyboardInput (keyboardMessage "ArrowRight" true)
        { injector := some virtualInjector } 1
      = some (none,
          [{ InputType := 1,
             Ki := { WVk := 0x27, WScan := 0, DwFlags := 0, Time := 0, DwExtraInfo := 0 } }]) :=
  ⟨by decide, (C19_key_dispatch "ArrowRight" virtualInjector 1 (by decide)).1⟩

/-- C20 (key vocabulary): `convertKeyToVK` returns a non-zero code for every
named key of the documented vocabulary; F1..F12 map to 0x70..0x7B in order;
the letter with ASCII code `65 + n` (A..Z) maps to `65 + n`, the letter with
code `97 + n` (a..z) maps to `65 + n`, the same code as its upper-case
letter, and the digit with code `48 + n` maps to `48 + n`. -/
theorem C20_key_vocabulary_recognised :
    (∀ key ∈ ["Backspace", "Tab", "Enter", "ShiftLeft", "ShiftRight", "ControlLeft",
        "ControlRight", "AltLeft", "AltRight", "Escape", "Space", "PageUp", "PageDown",
        "End", "Home", "ArrowLeft", "ArrowUp", "ArrowRight", "ArrowDown", "Insert",
        "Delete", "MetaLeft", "MetaRight", "F1", "F2", "F3", "F4", "F5", "F6", "F7", "F8",
        "F9", "F10", "F11", "F12"], convertKeyToVK key ≠ 0) ∧
    ["F1", "F2", "F3", "F4", "F5", "F6", "F7", "F8", "F9", "F10", "F11", "F12"].map
        convertKeyToVK
      = [0x70, 0x71, 0x72, 0x73, 0x74, 0x75, 0x76, 0x77, 0x78, 0x79, 0x7A, 0x7B] ∧
    (∀ n, n < 26 → convertKeyToVK (String.singleton (Char.ofNat (65 + n))) = 65 + n) ∧
    (∀ n, n < 26 → convertKeyToVK (String.singleton (Char.ofNat (97 + n))) = 65 + n) ∧
    (∀ n, n < 10 → convertKeyToVK (String.singleton (Char.ofNat (48 + n))) = 48 + n) ∧
    (∀ n, n < 26 →
      convertKeyToVK (String.singleton (Char.ofNat (97 + n)))
        = convertKeyToVK (String.singleton (Char.ofNat (65 + n)))) := by
  refine ⟨by decide, by decide, by decide, by decide, by decide, by decide⟩

/-! ## Properties of loops -/

theorem forLoop_zero {σ : Type} (body : σ → Nat → σ) (init : σ) :
    forLoop 0 body init = init := rfl

theorem forLoop_succ {σ : Type} (n : Nat) (body : σ → Nat → σ) (init : σ) :
    forLoop (n + 1) body init = body (forLoop n body init) n := by
  simp [forLoop, List.range_succ, List.foldl_append]

theorem forLoop_proj {σ τ : Type} (proj : σ → τ) (body : σ → Nat → σ) (body1 : τ → Nat → τ)
    (hbody : ∀ st i, proj (body st i) = body1 (proj st) i) (n : Nat) (init : σ) :
    proj (forLoop n body init) = forLoop n body1 (proj init) := by
  induction n with
  | zero => rfl
  | succ n ih => rw [forLoop_succ, forLoop_succ, hbody, ih]

theorem forLoop_congr {σ : Type} (body body1 : σ → Nat → σ)
    (hbody : ∀ st i, body st i = body1 st i) (n : Nat) (init : σ) :
    forLoop n body init = forLoop n body1 init := by
  have : body = body1 := funext fun st => funext fun i => hbody st i
  rw [this]

theorem forLoopM_succ {σ : Type} (n : Nat) (body : σ → Nat → Option σ) (init : σ) :
    forLoopM (n + 1) body init = (forLoopM n body init).bind (fun st => body st n) := by
  simp [forLoopM, List.range_succ, List.foldlM_append]

theorem forLoopM_invariant {σ : Type} (P : σ → Prop) (body : σ → Nat → Option σ)
    (hbody : ∀ st i st1, P st → body st i = some st1 → P st1) (n : Nat) (init out : σ)
    (hinit : P init) (hout : forLoopM n body init = some out) : P out := by
  induction n generalizing out with
  | zero =>
    simp [forLoopM] at hout
    rw [← hout]
    exact hinit
  | succ n ih =>
    rw [forLoopM_succ] at hout
    cases hmid : forLoopM n body init with
    | none => rw [hmid] at hout; cases hout
    | some mid =>
      rw [hmid] at hout
      exact hbody mid n out (ih mid hmid) hout

theorem rowLoop_length (n : Nat) (c : Nat → Bool) (ix : Nat → Nat) (v : Nat → Nat)
    (l : List Nat) :
    (forLoop n (fun l2 x => if c x then l2.set (ix x) (v x) else l2) l).length = l.length := by
  induction n with
  | zero => rfl
  | succ n ih =>
    rw [forLoop_succ]
    split
    · rw [List.length_set, ih]
    · exact ih

theorem rowLoop_other (n : Nat) (c : Nat → Bool) (ix : Nat → Nat) (v : Nat → Nat)
    (l : List Nat) (i : Nat) (hother : ∀ x, x < n → c x = true → ix x ≠ i) :
    (forLoop n (fun l2 x => if c x then l2.set (ix x) (v x) else l2) l)[i]? = l[i]? := by
  induction n with
  | zero => rfl
  | succ n ih =>
    rw [forLoop_succ]
    have ih1 := ih (fun x hx hc => hother x (by omega) hc)
    split
    · rename_i hc
      rw [List.getElem?_set_ne (hother n (by omega) hc), ih1]
    · exact ih1

theorem rowLoop_written (n : Nat) (c : Nat → Bool) (ix : Nat → Nat) (v : Nat → Nat)
    (l : List Nat) (x0 : Nat) (hx0 : x0 < n) (hc0 : c x0 = true) (hlen : ix x0 < l.length)
    (hlater : ∀ x, x0 < x → x < n → c x = true → ix x ≠ ix x0) :
    (forLoop n (fun l2 x => if c x then l2.set (ix x) (v x) else l2) l)[ix x0]?
      = some (v x0) := by
  induction n with
  | zero => omega
  | succ n ih =>
    rw [forLoop_succ]
    by_cases hlast : x0 = n
    · subst hlast
      rw [if_pos hc0, List.getElem?_set_self]
      rw [rowLoop_length]
      exact hlen
    · have ih1 := ih (by omega) (fun x h1 h2 hc => hlater x h1 (by omega) hc)
      split
      · rename_i hc
        rw [List.getElem?_set_ne (hlater n (by omega) (by omega) hc), ih1]
      · exact ih1

theorem writeLoops_length (h w : Nat) (cond : Nat → Nat → Bool) (idx : Nat → Nat → Nat)
    (val : Nat → Nat → Nat) (l : List Nat) :
    (writeLoops h w cond idx val l).length = l.length := by
  unfold writeLoops
  induction h with
  | zero => rfl
  | succ h ih => rw [forLoop_succ, rowLoop_length, ih]

theorem writeLoops_written (h w : Nat) (cond : Nat → Nat → Bool) (idx : Nat → Nat → Nat)
    (val : Nat → Nat → Nat) (l : List Nat)
    (hinj : ∀ y x y1 x1, y < h → x < w → y1 < h → x1 < w → cond y x = true →
      cond y1 x1 = true → idx y x = idx y1 x1 → y = y1 ∧ x = x1)
    (y0 x0 : Nat) (hy0 : y0 < h) (hx0 : x0 < w) (hc0 : cond y0 x0 = true)
    (hlen : idx y0 x0 < l.length) :
    (writeLoops h w cond idx val l)[idx y0 x0]? = some (val y0 x0) := by
  have key : ∀ k, k ≤ h → y0 < k →
      (writeLoops k w cond idx val l)[idx y0 x0]? = some (val y0 x0) := by
    intro k
    induction k with
    | zero => intro _ hk; omega
    | succ k ih =>
      intro hk hy
      have hstep : writeLoops (k + 1) w cond idx val l
          = forLoop w (fun l2 x => if cond k x then l2.set (idx k x) (val k x) else l2)
              (writeLoops k w cond idx val l) := by
        unfold writeLoops
        rw [forLoop_succ]
      rw [hstep]
      by_cases hyk : y0 = k
      · subst hyk
        apply rowLoop_written w (cond y0) (idx y0) (val y0) _ x0 hx0 hc0
        · rw [writeLoops_length]; exact hlen
        · intro x h1 h2 hc heq
          have := (hinj y0 x y0 x0 hy0 h2 hy0 hx0 hc hc0 heq).2
          omega
      · rw [rowLoop_other w (cond k) (idx k) (val k)]
        · exact ih (by omega) (by omega)
        · intro x hx hc heq
          have := (hinj k x y0 x0 (by omega) hx hy0 hx0 hc hc0 heq).1
          omega
  exact key h (Nat.le_refl h) hy0

theorem pair_index_inj (W a b a1 b1 : Nat) (hb : b < W) (hb1 : b1 < W)
    (h : a * W + b = a1 * W + b1) : a = a1 ∧ b = b1 := by
  have hW : 0 < W := by omega
  have h1 : (a * W + b) / W = a := by
    rw [Nat.mul_comm, Nat.mul_add_div hW, Nat.div_eq_of_lt hb, Nat.add_zero]
  have h2 : (a1 * W + b1) / W = a1 := by
    rw [Nat.mul_comm, Nat.mul_add_div hW, Nat.div_eq_of_lt hb1, Nat.add_zero]
  have ha : a = a1 := by rw [← h1, ← h2, h]
  subst ha
  exact ⟨rfl, Nat.add_left_cancel h⟩

theorem pair_index_lt (W H a b : Nat) (ha : a < H) (hb : b < W) : a * W + b < H * W := by
  have h1 : (a + 1) * W ≤ H * W := Nat.mul_le_mul_right W ha
  have h2 : (a + 1) * W = a * W + W := by ring
  omega

/-! ## Properties of the colour conversion -/

theorem rgbaToI420.pixel_yPlane (rgba : List Nat) (width : Nat) (img : I420) (y x : Nat) :
    (rgbaToI420.pixel rgba width img y x).yPlane
      = if (fun _ _ => true) y x then img.yPlane.set (y * width + x)
          (rgbaToI420.yByte rgba width y x) else img.yPlane := by
  unfold rgbaToI420.pixel rgbaToI420.yByte
  dsimp only
  split <;> simp

theorem rgbaToI420.pixel_uPlane (rgba : List Nat) (width : Nat) (img : I420) (y x : Nat) :
    (rgbaToI420.pixel rgba width img y x).uPlane
      = if (fun y1 x1 => decide (y1 % 2 = 0 ∧ x1 % 2 = 0)) y x
        then img.uPlane.set (y / 2 * (width / 2) + x / 2) (rgbaToI420.uByte rgba width y x)
        else img.uPlane := by
  unfold rgbaToI420.pixel rgbaToI420.uByte
  dsimp only
  by_cases h : y % 2 = 0 ∧ x % 2 = 0
  · rw [if_pos h]; simp [h]
  · rw [if_neg h]; simp [h]

theorem rgbaToI420.pixel_vPlane (rgba : List Nat) (width : Nat) (img : I420) (y x : Nat) :
    (rgbaToI420.pixel rgba width img y x).vPlane
      = if (fun y1 x1 => decide (y1 % 2 = 0 ∧ x1 % 2 = 0)) y x
        then img.vPlane.set (y / 2 * (width / 2) + x / 2) (rgbaToI420.vByte rgba width y x)
        else img.vPlane := by
  unfold rgbaToI420.pixel rgbaToI420.vByte
  dsimp only
  by_cases h : y % 2 = 0 ∧ x % 2 = 0
  · rw [if_pos h]; simp [h]
  · rw [if_neg h]; simp [h]

theorem VP8Encoder.rgbaToI420_yPlane (e : VP8Encoder) (rgba : List Nat) (img : I420) :
    (e.rgbaToI420 rgba img).yPlane
      = writeLoops e.height.toNat e.width.toNat (fun _ _ => true)
          (fun y x => y * e.width.toNat + x) (rgbaToI420.yByte rgba e.width.toNat)
          img.yPlane := by
  unfold VP8Encoder.rgbaToI420 writeLoops
  exact forLoop_proj I420.yPlane _ _
    (fun st y => forLoop_proj I420.yPlane _ _
      (fun st1 x => rgbaToI420.pixel_yPlane rgba e.width.toNat st1 y x) _ st) _ img

theorem VP8Encoder.rgbaToI420_uPlane (e : VP8Encoder) (rgba : List Nat) (img : I420) :
    (e.rgbaToI420 rgba img).uPlane
      = writeLoops e.height.toNat e.width.toNat
          (fun y1 x1 => decide (y1 % 2 = 0 ∧ x1 % 2 = 0))
          (fun y x => y / 2 * (e.width.toNat / 2) + x / 2)
          (rgbaToI420.uByte rgba e.width.toNat) img.uPlane := by
  unfold VP8Encoder.rgbaToI420 writeLoops
  exact forLoop_proj I420.uPlane _ _
    (fun st y => forLoop_proj I420.uPlane _ _
      (fun st1 x => rgbaToI420.pixel_uPlane rgba e.width.toNat st1 y x) _ st) _ img

theorem VP8Encoder.rgbaToI420_vPlane (e : VP8Encoder) (rgba : List Nat) (img : I420) :
    (e.rgbaToI420 rgba img).vPlane
      = writeLoops e.height.toNat e.width.toNat
          (fun y1 x1 => decide (y1 % 2 = 0 ∧ x1 % 2 = 0))
          (fun y x => y / 2 * (e.width.toNat / 2) + x / 2)
          (rgbaToI420.vByte rgba e.width.toNat) img.vPlane := by
  unfold VP8Encoder.rgbaToI420 writeLoops
  exact forLoop_proj I420.vPlane _ _
    (fun st y => forLoop_proj I420.vPlane _ _
      (fun st1 x => rgbaToI420.pixel_vPlane rgba e.width.toNat st1 y x) _ st) _ img

theorem chroma_index_inj (h w : Nat) (hw : w % 2 = 0) :
    ∀ y x y1 x1, y < h → x < w → y1 < h → x1 < w →
      (fun y2 x2 => decide (y2 % 2 = 0 ∧ x2 % 2 = 0)) y x = true →
      (fun y2 x2 => decide (y2 % 2 = 0 ∧ x2 % 2 = 0)) y1 x1 = true →
      (fun y2 x2 => y2 / 2 * (w / 2) + x2 / 2) y x
        = (fun y2 x2 => y2 / 2 * (w / 2) + x2 / 2) y1 x1 →
      y = y1 ∧ x = x1 := by
  intro y x y1 x1 _ hx _ hx1 hc hc1 heq
  simp only [decide_eq_true_eq] at hc hc1
  have h1 := pair_index_inj (w / 2) (y / 2) (x / 2) (y1 / 2) (x1 / 2) (by omega) (by omega) heq
  omega

theorem even_quarter (w h : Nat) (hw : w % 2 = 0) (hh : h % 2 = 0) :
    w * h / 4 = h / 2 * (w / 2) := by
  obtain ⟨a, rfl⟩ : ∃ a, w = 2 * a := ⟨w / 2, by omega⟩
  obtain ⟨b, rfl⟩ : ∃ b, h = 2 * b := ⟨h / 2, by omega⟩
  have h1 : 2 * a * (2 * b) = 4 * (b * a) := by ring
  rw [h1, Nat.mul_div_cancel_left _ (by norm_num), Nat.mul_div_cancel_left _ (by norm_num),
    Nat.mul_div_cancel_left _ (by norm_num)]

theorem shiftRight_eight (m : Int) : m >>> (8 : Nat) = Int.fdiv m 256 := by
  rw [Int.shiftRight_eq_div_pow, Int.fdiv_eq_ediv _ (by norm_num)]
  norm_num

theorem rgbaToI420.pixel_alpha (rgba rgba1 : List Nat) (width : Nat)
    (hsame : ∀ i, i % 4 ≠ 3 → rgba1.getD i 0 = rgba.getD i 0) (img : I420) (y x : Nat) :
    rgbaToI420.pixel rgba1 width img y x = rgbaToI420.pixel rgba width img y x := by
  unfold rgbaToI420.pixel
  dsimp only
  rw [hsame ((y * width + x) * 4) (by omega), hsame ((y * width + x) * 4 + 1) (by omega),
    hsame ((y * width + x) * 4 + 2) (by omega)]

/-- C14 (RGBA to 4:2:0 equals the reference): for an encoder of even width
`w` and even height `h` and planes of `w*h`, `w*h/4` and `w*h/4` bytes,
`rgbaToI420` leaves in `Y[y*w+x]` the byte `clamp(((66R+129G+25B+128) >> 8)
+ 16)` of the pixel `(x, y)` with components `R`, `G`, `B`, and in
`U[br*(w/2)+bx]` and `V[br*(w/2)+bx]` the bytes
`clamp(((-38R-74G+112B+128) >> 8) + 128)` and
`clamp(((112R-94G-18B+128) >> 8) + 128)` of the pixel `(2bx, 2br)`; the
shift is the floor division by 256, the clamp is to `[0, 255]`, and two
buffers that differ only in alpha bytes give the same planes. -/
theorem C14_rgbaToI420_reference (w h : Nat) (fps : Int) (rgba : List Nat) (img : I420)
    (hw : w % 2 = 0) (hh : h % 2 = 0)
    (hy : img.yPlane.length = w * h) (hu : img.uPlane.length = w * h / 4)
    (hv : img.vPlane.length = w * h / 4) :
    (∀ x y R G B, x < w → y < h →
      rgba[(y * w + x) * 4]? = some R → rgba[(y * w + x) * 4 + 1]? = some G →
      rgba[(y * w + x) * 4 + 2]? = some B →
      ((VP8Encoder.mk w h fps).rgbaToI420 rgba img).yPlane[y * w + x]?
        = some (clampByte (yValOf R G B)).toNat) ∧
    (∀ bx br R G B, bx < w / 2 → br < h / 2 →
      rgba[(2 * br * w + 2 * bx) * 4]? = some R →
      rgba[(2 * br * w + 2 * bx) * 4 + 1]? = some G →
      rgba[(2 * br * w + 2 * bx) * 4 + 2]? = some B →
      ((VP8Encoder.mk w h fps).rgbaToI420 rgba img).uPlane[br * (w / 2) + bx]?
        = some (clampByte (uValOf R G B)).toNat ∧
      ((VP8Encoder.mk w h fps).rgbaToI420 rgba img).vPlane[br * (w / 2) + bx]?
        = some (clampByte (vValOf R G B)).toNat) ∧
    (∀ r g b : Int,
      yValOf r g b = Int.fdiv (66 * r + 129 * g + 25 * b + 128) 256 + 16 ∧
      uValOf r g b = Int.fdiv (-38 * r - 74 * g + 112 * b + 128) 256 + 128 ∧
      vValOf r g b = Int.fdiv (112 * r - 94 * g - 18 * b + 128) 256 + 128) ∧
    (∀ v : Int, clampByte v = max 0 (min 255 v)) ∧
    (∀ rgba1 : List Nat, (∀ i, i % 4 ≠ 3 → rgba1.getD i 0 = rgba.getD i 0) →
      (VP8Encoder.mk w h fps).rgbaToI420 rgba1 img
        = (VP8Encoder.mk w h fps).rgbaToI420 rgba img) := by
  refine ⟨?_, ?_, ?_, ?_, ?_⟩
  · intro x y R G B hx hyy hR hG hB
    rw [VP8Encoder.rgbaToI420_yPlane]
    simp only [Int.toNat_ofNat]
    have hval : rgbaToI420.yByte rgba w y x = (clampByte (yValOf R G B)).toNat := by
      simp [rgbaToI420.yByte, List.getD_eq_getElem?_getD, hR, hG, hB]
    rw [← hval]
    apply writeLoops_written h w (fun _ _ => true) (fun y1 x1 => y1 * w + x1)
      (rgbaToI420.yByte rgba w) img.yPlane _ y x hyy hx rfl
    · rw [hy, Nat.mul_comm w h]
      exact pair_index_lt w h y x hyy hx
    · intro y1 x1 y2 x2 _ h1 _ h2 _ _ heq
      exact pair_index_inj w y1 x1 y2 x2 h1 h2 heq
  · intro bx br R G B hbx hbr hR hG hB
    have hidx : br * (w / 2) + bx = (2 * br) / 2 * (w / 2) + (2 * bx) / 2 := by
      rw [Nat.mul_div_cancel_left _ (by norm_num), Nat.mul_div_cancel_left _ (by norm_num)]
    have hcond : (fun y1 x1 => decide (y1 % 2 = 0 ∧ x1 % 2 = 0)) (2 * br) (2 * bx) = true := by
      simp
    have hlt : br * (w / 2) + bx < w * h / 4 := by
      rw [even_quarter w h hw hh]
      exact pair_index_lt (w / 2) (h / 2) br bx hbr hbx
    constructor
    · rw [VP8Encoder.rgbaToI420_uPlane]
      simp only [Int.toNat_ofNat]
      have hval : rgbaToI420.uByte rgba w (2 * br) (2 * bx)
          = (clampByte (uValOf R G B)).toNat := by
        simp [rgbaToI420.uByte, List.getD_eq_getElem?_getD, hR, hG, hB]
      rw [← hval, hidx]
      apply writeLoops_written h w (fun y1 x1 => decide (y1 % 2 = 0 ∧ x1 % 2 = 0))
        (fun y1 x1 => y1 / 2 * (w / 2) + x1 / 2) (rgbaToI420.uByte rgba w) img.uPlane
        (chroma_index_inj h w hw) (2 * br) (2 * bx) (by omega) (by omega) hcond
      rw [← hidx, hu]
      exact hlt
    · rw [VP8Encoder.rgbaToI420_vPlane]
      simp only [Int.toNat_ofNat]
      have hval : rgbaToI420.vByte rgba w (2 * br) (2 * bx)
          = (clampByte (vValOf R G B)).toNat := by
        simp [rgbaToI420.vByte, List.getD_eq_getElem?_getD, hR, hG, hB]
      rw [← hval, hidx]
      apply writeLoops_written h w (fun y1 x1 => decide (y1 % 2 = 0 ∧ x1 % 2 = 0))
        (fun y1 x1 => y1 / 2 * (w / 2) + x1 / 2) (rgbaToI420.vByte rgba w) img.vPlane
        (chroma_index_inj h w hw) (2 * br) (2 * bx) (by omega) (by omega) hcond
      rw [← hidx, hv]
      exact hlt
  · intro r g b
    unfold yValOf uValOf vValOf
    rw [shiftRight_eight, shiftRight_eight, shiftRight_eight]
    exact ⟨rfl, rfl, rfl⟩
  · intro v
    unfold clampByte
    split
    · omega
    · split <;> omega
  · intro rgba1 hsame
    unfold VP8Encoder.rgbaToI420
    exact forLoop_congr _ _ (fun st y => forLoop_congr _ _
      (fun st1 x => rgbaToI420.pixel_alpha rgba rgba1 _ hsame st1 y x) _ st) _ img

/-- Witness for C14: the buffer `fourPixels` (red, green, blue, white) on an
encoder of 2 by 2: the luma of the red pixel is 82, the chroma of the block
is taken from the red pixel. -/
theorem C14_rgbaToI420_reference_witness :
    ((VP8Encoder.mk 2 2 30).rgbaToI420 fourPixels fourPixelPlanes).yPlane[0 * 2 + 0]?
      = some 82 ∧
    ((VP8Encoder.mk 2 2 30).rgbaToI420 fourPixels fourPixelPlanes).uPlane[0 * (2 / 2) + 0]?
      = some 90 ∧
    ((VP8Encoder.mk 2 2 30).rgbaToI420 fourPixels fourPixelPlanes).vPlane[0 * (2 / 2) + 0]?
      = some 240 :=
  ⟨(C14_rgbaToI420_reference 2 2 30 fourPixels fourPixelPlanes rfl rfl rfl rfl rfl).1
      0 0 255 0 0 (by decide) (by decide) rfl rfl rfl,
   (C14_rgbaToI420_reference 2 2 30 fourPixels fourPixelPlanes rfl rfl rfl rfl rfl).2.1
      0 0 255 0 0 (by decide) (by decide) rfl rfl rfl⟩

/-! ## Properties of the encoder input -/

theorem pixWrite_length {pix out : List Nat} {off : Int} {v : Nat}
    (h : pixWrite pix off v = some out) : out.length = pix.length := by
  unfold pixWrite at h
  split at h
  · cases h
    exact List.length_set _ _ _
  · cases h

theorem copyByte_length {src dst out : List Nat} {srcOffset dstOffset : Int}
    (h : copyByte src srcOffset dst dstOffset = some out) : out.length = dst.length := by
  unfold copyByte at h
  split at h
  · exact pixWrite_length h
  · cases h

theorem downscaleFrame.pixel_length {src dst out : RGBA}
    {xRatio srcRowOffset dstRowOffset : Int} {x : Nat}
    (h : downscaleFrame.pixel src xRatio srcRowOffset dstRowOffset dst x = some out) :
    out.Pix.length = dst.Pix.length := by
  unfold downscaleFrame.pixel at h
  dsimp only at h
  simp only [Option.bind_eq_some, Option.map_eq_some'] at h
  obtain ⟨p0, h0, p1, h1, p2, h2, p3, h3, hout⟩ := h
  rw [← hout]
  show p3.length = dst.Pix.length
  rw [copyByte_length h3, copyByte_length h2, copyByte_length h1, copyByte_length h0]

theorem downscaleFrame_length (src out : RGBA) (targetWidth targetHeight : Int)
    (hsize : src.Bounds.Dx ≠ targetWidth ∨ src.Bounds.Dy ≠ targetHeight)
    (h : downscaleFrame src targetWidth targetHeight = some out) :
    out.Pix.length = (NewRGBA (Rect 0 0 targetWidth targetHeight)).Pix.length := by
  unfold downscaleFrame at h
  dsimp only at h
  rw [if_neg (by tauto)] at h
  split at h
  · cases h
  · refine forLoopM_invariant
      (fun d => d.Pix.length = (NewRGBA (Rect 0 0 targetWidth targetHeight)).Pix.length)
      _ ?_ _ _ out rfl h
    intro st y st1 hst hrow
    unfold downscaleFrame.row at hrow
    dsimp only at hrow
    refine forLoopM_invariant
      (fun d => d.Pix.length = (NewRGBA (Rect 0 0 targetWidth targetHeight)).Pix.length)
      _ ?_ _ _ st1 hst hrow
    intro d x d1 hd hpix
    rw [downscaleFrame.pixel_length hpix]
    exact hd

/-- C15 (encode dimension law): for every encoder and every buffer whose
length differs from `width*height*4`, `Encode` returns an error and no data,
and nothing is converted or handed to the codec; and for every frame as the
capturers produce it (packed rows, 4 bytes per pixel), the image that
`downscaleFrame(frame, 1920, 1080)` returns has a `Pix` of exactly
`1920*1080*4` bytes. -/
theorem C15_encode_dimension_law (e : VP8Encoder) (env : CodecEnv) (frameData : List Nat)
    (frameCount : Int) (frame out : RGBA) :
    ((frameData.length : Int) ≠ e.width * e.height * 4 →
      (e.Encode env frameData frameCount).err ≠ none ∧
      (e.Encode env frameData frameCount).data = [] ∧
      (e.Encode env frameData frameCount).codecInput = none) ∧
    (frame.Packed → downscaleFrame frame 1920 1080 = some out →
      out.Pix.length = 1920 * 1080 * 4) := by
  constructor
  · intro hne
    unfold VP8Encoder.Encode
    dsimp only
    rw [if_pos hne]
    exact ⟨by simp, rfl, rfl⟩
  · intro hpacked hout
    by_cases hsize : frame.Bounds.Dx = 1920 ∧ frame.Bounds.Dy = 1080
    · have hsame : out = frame := by
        unfold downscaleFrame at hout
        dsimp only at hout
        rw [if_pos hsize] at hout
        exact (Option.some.inj hout).symm
      obtain ⟨_, _, _, _, hlen⟩ := hpacked
      have hdx : frame.Rect.Dx = 1920 := hsize.1
      have hdy : frame.Rect.Dy = 1080 := hsize.2
      rw [hdx, hdy] at hlen
      rw [hsame]
      omega
    · rw [downscaleFrame_length frame out 1920 1080 (by tauto) hout]
      unfold NewRGBA
      rw [List.length_replicate]
      decide

theorem fullHDFrame_packed : fullHDFrame.Packed := by
  refine ⟨by decide, by decide, by decide, rfl, ?_⟩
  unfold fullHDFrame NewRGBA
  rw [List.length_replicate]
  decide

/-- Witness for C15: an encoder of 2 by 2 offered 15 bytes, and a frame that
already has the encoded size. -/
theorem C15_encode_dimension_law_witness :
    ((VP8Encoder.mk 2 2 30).Encode idleCodec (fourPixels.take 15) 0).codecInput = none ∧
    fullHDFrame.Pix.length = 1920 * 1080 * 4 :=
  ⟨((C15_encode_dimension_law (VP8Encoder.mk 2 2 30) idleCodec (fourPixels.take 15) 0
      fullHDFrame fullHDFrame).1 (by decide)).2.2,
   (C15_encode_dimension_law (VP8Encoder.mk 2 2 30) idleCodec (fourPixels.take 15) 0
      fullHDFrame fullHDFrame).2 fullHDFrame_packed rfl⟩

/-- The rescaler on a small frame: a frame of 1 by 1 enlarged to 2 by 2
repeats its pixel. -/
theorem downscaleFrame_tiny :
    downscaleFrame (tinyFrame 9) 2 2
      = some { Pix := [9, 0, 0, 255, 9, 0, 0, 255, 9, 0, 0, 255, 9, 0, 0, 255], Stride := 8,
               Rect := Rect 0 0 2 2 } := by
  decide

/-! ## Properties of key names and mouse buttons -/

theorem string_of_one_byte (key : String) (h : key.utf8ByteSize = 1) :
    key = String.singleton (key.get 0) := by
  obtain ⟨cs⟩ := key
  cases cs with
  | nil => simp [String.utf8ByteSize, String.utf8ByteSize.go] at h
  | cons c rest =>
    cases rest with
    | nil => rfl
    | cons d rest2 =>
      simp [String.utf8ByteSize, String.utf8ByteSize.go] at h
      have h1 := Char.utf8Size_pos c
      have h2 := Char.utf8Size_pos d
      omega

theorem singleton_ne_long (c : Char) (key : String) (h : key.length ≠ 1) :
    key ≠ String.singleton c := by
  intro heq
  apply h
  rw [heq]
  rfl

theorem convertKeyToVK_recognised (key : String) (h : convertKeyToVK key ≠ 0) :
    documentedKey key ∨ key ∈ keyAliases := by
  unfold convertKeyToVK at h
  split at h
  all_goals first
    | exact Or.inl (Or.inl (by decide))
    | exact Or.inr (by decide)
    | skip
  split at h
  · rename_i hsize
    left
    right
    refine ⟨key.get 0, string_of_one_byte key hsize, ?_⟩
    dsimp only at h
    split at h
    · left; assumption
    · split at h
      · right; left; assumption
      · split at h
        · right; right; assumption
        · exact absurd rfl h
  · exact absurd rfl h

/-- C21 as stated fails: the key name "Shift" is not in the documented
vocabulary (which has "ShiftLeft" and "ShiftRight"), yet `InjectKeyPress`
injects one keyboard event for it, with the code `VK_SHIFT`. -/
theorem C21_alias_key_is_injected :
    ¬ documentedKey "Shift" ∧
    virtualInjector.InjectKeyPress 1 "Shift" true
      = (none, [{ InputType := 1,
                  Ki := { WVk := 0x10, WScan := 0, DwFlags := 0, Time := 0,
                          DwExtraInfo := 0 } }]) := by
  refine ⟨?_, by decide⟩
  rintro (h | ⟨c, h, _⟩)
  · revert h; decide
  · exact singleton_ne_long c "Shift" (by decide) h

/-- C21 amended: for every key name that `convertKeyToVK` does not recognise
(code 0) and either value of `pressed`, `InjectKeyPress` injects no keyboard
event and returns no error; and every key name outside the documented
vocabulary is unrecognised, except the aliases "Shift", "Control", "Alt",
"Meta", "OSLeft", "OSRight" and " ". -/
theorem C21_unknown_key_is_noop (wii : WindowsInputInjector) (ret : Nat) (key : String)
    (pressed : Bool) :
    (convertKeyToVK key = 0 → wii.InjectKeyPress ret key pressed = (none, [])) ∧
    (¬ documentedKey key → key ∉ keyAliases → convertKeyToVK key = 0) := by
  constructor
  · intro h
    simp [WindowsInputInjector.InjectKeyPress, h]
  · intro h1 h2
    by_contra h
    rcases convertKeyToVK_recognised key h with h3 | h3
    · exact h1 h3
    · exact h2 h3

/-- Witness for C21 amended: the key name "Hyper". -/
theorem C21_unknown_key_is_noop_witness :
    convertKeyToVK "Hyper" = 0 ∧
    virtualInjector.InjectKeyPress 1 "Hyper" true = (none, []) :=
  ⟨by decide, (C21_unknown_key_is_noop virtualInjector 1 "Hyper" true).1 (by decide)⟩

/-- C22 (scroll conversion), evaluated on the code: for `deltaY = 100`
`InjectMouseScroll` hands one wheel event to `SendInput` whose amount is
`uint32(int32(-100))` = 4294967196, that is -100 read as a signed 32-bit
integer: the sign is inverted but nothing is scaled, and -100 is not a
multiple of `WHEEL_DELTA` = 120. For `deltaY = -2147483648` the amount read
as a signed integer is -2147483648, of the same sign as `deltaY`. -/
theorem C22_scroll_amount_not_scaled :
    virtualInjector.InjectMouseScroll 1 0 100
      = (none, [{ InputType := 0,
                  Mi := { Dx := 0, Dy := 0, MouseData := 4294967196, DwFlags := 0x0800,
                          Time := 0, DwExtraInfo := 0 } }]) ∧
    wrapInt32 4294967196 = -100 ∧
    ¬ ((WHEEL_DELTA : Int) ∣ -100) ∧
    ((virtualInjector.InjectMouseScroll 1 0 (-2147483648)).2.map
      (fun i => wrapInt32 i.Mi.MouseData)) = [-2147483648] := by
  decide

/-- C23 as stated fails: the button name "center" is outside
`{left, right, middle}`, yet `InjectMouseButton` returns no error for it and
injects one event with the flag `MOUSEEVENTF_MIDDLEDOWN`. -/
theorem C23_center_button_is_accepted :
    "center" ∉ ["left", "right", "middle"] ∧
    virtualInjector.InjectMouseButton 1 "center" true
      = (none, [{ InputType := 0,
                  Mi := { Dx := 0, Dy := 0, MouseData := 0, DwFlags := 0x0020, Time := 0,
                          DwExtraInfo := 0 } }]) := by
  decide

/-- C23 amended: for a button among "left", "right", "middle" and its alias
"center" and either value of `pressed`, `InjectMouseButton` hands exactly one
mouse input to `SendInput`, with `Dx = Dy = 0` and flags exactly the matching
DOWN or UP flag (the middle flags for "center"), none of which has a MOVE or
ABSOLUTE bit; for every other button name it returns an error and injects
nothing. -/
theorem C23_mouse_button_injection (wii : WindowsInputInjector) (ret : Nat) (button : String)
    (pressed : Bool) :
    (∀ flags, mouseButtonFlags button pressed = some flags →
      wii.InjectMouseButton ret button pressed
        = (sendMouseInput ret,
            [{ InputType := INPUT_TYPE_MOUSE,
               Mi := { Dx := 0, Dy := 0, MouseData := 0, DwFlags := flags, Time := 0,
                       DwExtraInfo := 0 } }]) ∧
      flags &&& (MOUSEEVENTF_MOVE ||| MOUSEEVENTF_ABSOLUTE) = 0) ∧
    mouseButtonFlags "left" pressed
      = some (if pressed then MOUSEEVENTF_LEFTDOWN else MOUSEEVENTF_LEFTUP) ∧
    mouseButtonFlags "right" pressed
      = some (if pressed then MOUSEEVENTF_RIGHTDOWN else MOUSEEVENTF_RIGHTUP) ∧
    mouseButtonFlags "middle" pressed
      = some (if pressed then MOUSEEVENTF_MIDDLEDOWN else MOUSEEVENTF_MIDDLEUP) ∧
    mouseButtonFlags "center" pressed = mouseButtonFlags "middle" pressed ∧
    (button ∉ ["left", "right", "middle", "center"] →
      (wii.InjectMouseButton ret button pressed).1 ≠ none ∧
      (wii.InjectMouseButton ret button pressed).2 = []) := by
  refine ⟨?_, by cases pressed <;> rfl, by cases pressed <;> rfl, by cases pressed <;> rfl,
    rfl, ?_⟩
  · intro flags hflags
    constructor
    · simp [WindowsInputInjector.InjectMouseButton, hflags]
    · unfold mouseButtonFlags at hflags
      split at hflags <;> cases pressed <;> cases hflags <;> decide
  · intro hnot
    have hnone : mouseButtonFlags button pressed = none := by
      unfold mouseButtonFlags
      split
      all_goals first
        | rfl
        | exact absurd (by decide) hnot
    simp [WindowsInputInjector.InjectMouseButton, hnone]

/-- Witness for C23 amended: the button names "left" and "wheel". -/
theorem C23_mouse_button_injection_witness :
    virtualInjector.InjectMouseButton 1 "left" true
      = (none, [{ InputType := 0,
                  Mi := { Dx := 0, Dy := 0, MouseData := 0, DwFlags := 0x0002, Time := 0,
                          DwExtraInfo := 0 } }]) ∧
    (virtualInjector.InjectMouseButton 1 "wheel" true).2 = [] :=
  ⟨((C23_mouse_button_injection virtualInjector 1 "left" true).1 0x0002 (by decide)).1,
   ((C23_mouse_button_injection virtualInjector 1 "wheel" true).2.2.2.2.2 (by decide)).2⟩

/-! ## Properties of the control channel -/

/-- C24 (control-channel tags), evaluated on the code. `HandleDataChannel`
returns an error, injects nothing and leaves frame source and input handler
alone for a message that is not valid JSON, has no string `type` or has a
`type` outside `{mouse, keyboard, monitor}`. But the mouse message
`{type:"mouse", eventType:"drag"}` is not rejected: `handleMouseInput` has no
`default` case, so the call injects nothing and returns `nil`, no error. -/
theorem C24_unknown_mouse_event_not_rejected :
    (∀ host sys sc ih,
      HandleDataChannel host sys none sc ih
        = some { err := some "invalid data channel message", mouse := [], keyboard := [],
                 screenCapture := sc, inputHandler := ih }) ∧
    (∀ host sys (message : Message) sc ih, (message.asString "type").2 = false →
      HandleDataChannel host sys (some message) sc ih
        = some { err := some "missing message type", mouse := [], keyboard := [],
                 screenCapture := sc, inputHandler := ih }) ∧
    (∀ host sys (message : Message) sc ih, (message.asString "type").2 = true →
      (message.asString "type").1 ∉ ["mouse", "keyboard", "monitor"] →
      HandleDataChannel host sys (some message) sc ih
        = some { err := some ("unknown message type: " ++ (message.asString "type").1),
                 mouse := [], keyboard := [], screenCapture := sc, inputHandler := ih }) ∧
    HandleDataChannel windowsHost windowsSys (some dragMessage) startedCapture sessionInput
      = some { err := none, mouse := [], keyboard := [], screenCapture := startedCapture,
               inputHandler := sessionInput } := by
  refine ⟨fun _ _ _ _ => rfl, ?_, ?_, by decide⟩
  · intro host sys message sc ih h
    simp [HandleDataChannel, h]
  · intro host sys message sc ih h hnot
    unfold HandleDataChannel
    simp only [h, Bool.not_true, Bool.false_eq_true, if_false]
    split
    all_goals first
      | rfl
      | (rename_i heq; rw [heq] at hnot; exact absurd (by decide) hnot)

/-! ## Properties of the input handler without an injector -/

/-- C25 (input on an unsupported platform), evaluated on the code with
`runtime.GOOS` as a parameter: for every `GOOS` other than "windows"
`newPlatformInputInjector` returns nil and `Initialize` returns the error
"no input injector available for platform: GOOS", not success; for "linux"
`SetMonitorInfo` returns the error "no input injector available", and
`HandleKeyboardEvent` and `HandleMouseEvent` (for a move) call a method of
the nil injector, which panics. -/
theorem C25_no_injector_is_not_a_noop :
    (∀ goos width height, goos ≠ "windows" →
      newPlatformInputInjector goos = none ∧
      (NewInputHandler goos).Initialize goos width height
        = (some ("no input injector available for platform: " ++ goos),
           NewInputHandler goos)) ∧
    ((NewInputHandler "linux").Initialize "linux" 1920 1080).1
      = some "no input injector available for platform: linux" ∧
    ((NewInputHandler "linux").SetMonitorInfo 0 sideBySide).1
      = some "no input injector available" ∧
    (NewInputHandler "linux").HandleKeyboardEvent 1 { Key := "a", Down := true } = none ∧
    (NewInputHandler "linux").HandleMouseEvent windowsSys
      { EventType := "move", X := 1, Y := 1, Button := "", Down := false, DeltaX := 0,
        DeltaY := 0 } = none := by
  refine ⟨?_, by decide, by decide, by decide, by decide⟩
  intro goos width height h
  have hnil : newPlatformInputInjector goos = none := by
    simp [newPlatformInputInjector, h]
  refine ⟨hnil, ?_⟩
  unfold InputHandler.Initialize NewInputHandler
  simp only [hnil]

/-! ## Properties of start and stop -/

theorem ScreenCapture.stopTimes_stopped (n : Nat) (sc : ScreenCapture)
    (h : sc.running = false) : sc.stopTimes n = some sc := by
  induction n with
  | zero => rfl
  | succ n ih =>
    have hstop : sc.Stop = some sc := by simp [ScreenCapture.Stop, h]
    simp only [ScreenCapture.stopTimes, hstop, Option.bind_some]
    exact ih

/-- C26 (frame source start/stop): for a frame source reached by `Start`,
capture-loop iterations, receives and monitor switches: if it is running,
`Start` returns the error "screen capture already running" and the frame
source unchanged, and `Stop` returns it with `running = false` and the queue
closed, everything else kept; if it is not running (never started), `Stop`
returns it unchanged; and `Stop` called `n + 1` times in a row never panics
and gives the same frame source as `Stop` called once. -/
theorem C26_start_stop (host : Host) (sc : ScreenCapture) (h : CaptureReachable host sc)
    (n : Nat) :
    (sc.running = true → sc.Start host = (some "screen capture already running", sc)) ∧
    (sc.running = true →
      sc.Stop = some { sc with running := false,
                               frameChan := { sc.frameChan with closed := true } }) ∧
    (sc.running = false → sc.Stop = some sc) ∧
    sc.Stop ≠ none ∧
    sc.stopTimes (n + 1) = sc.Stop := by
  obtain ⟨_, _, hopen⟩ := h.chan
  have hstop : sc.running = true →
      sc.Stop = some { sc with running := false,
                               frameChan := { sc.frameChan with closed := true } } := by
    intro hr
    simp [ScreenCapture.Stop, hr, hopen]
  have hidle : sc.running = false → sc.Stop = some sc := by
    intro hr
    simp [ScreenCapture.Stop, hr]
  refine ⟨?_, hstop, hidle, ?_, ?_⟩
  · intro hr
    simp [ScreenCapture.Start, hr]
  · cases hr : sc.running
    · rw [hidle hr]; simp
    · rw [hstop hr]; simp
  · cases hr : sc.running
    · rw [hidle hr]
      exact ScreenCapture.stopTimes_stopped (n + 1) sc hr
    · rw [hstop hr]
      simp only [ScreenCapture.stopTimes, hstop hr, Option.bind_some]
      exact ScreenCapture.stopTimes_stopped n _ rfl

/-- Witness for C26: the started frame source `startedCapture`, stopped three
times. -/
theorem C26_start_stop_witness :
    CaptureReachable windowsHost startedCapture ∧
    startedCapture.stopTimes 3 = startedCapture.Stop ∧
    (startedCapture.Start windowsHost).1 = some "screen capture already running" := by
  have h : CaptureReachable windowsHost startedCapture :=
    CaptureReachable.start CaptureReachable.new
  have hthm := C26_start_stop windowsHost startedCapture h 2
  exact ⟨h, hthm.2.2.2.2, by rw [hthm.1 (by decide)]⟩

/-! ## Properties of the colour range -/

/-- C30 (colour conversion range): for all `R`, `G`, `B` in `0..255` the
values computed before the clamp satisfy `16 ≤ Y ≤ 235`, `16 ≤ U ≤ 240` and
`16 ≤ V ≤ 240`, so the clamp returns them unchanged and the conversion to a
byte loses nothing; a grey pixel (`R = G = B`) gives `U = V = 128`. -/
theorem C30_colour_range (r g b : Int) (hr : 0 ≤ r ∧ r ≤ 255) (hg : 0 ≤ g ∧ g ≤ 255)
    (hb : 0 ≤ b ∧ b ≤ 255) :
    (16 ≤ yValOf r g b ∧ yValOf r g b ≤ 235) ∧
    (16 ≤ uValOf r g b ∧ uValOf r g b ≤ 240) ∧
    (16 ≤ vValOf r g b ∧ vValOf r g b ≤ 240) ∧
    clampByte (yValOf r g b) = yValOf r g b ∧
    clampByte (uValOf r g b) = uValOf r g b ∧
    clampByte (vValOf r g b) = vValOf r g b ∧
    (((clampByte (yValOf r g b)).toNat : Int) = yValOf r g b ∧
     ((clampByte (uValOf r g b)).toNat : Int) = uValOf r g b ∧
     ((clampByte (vValOf r g b)).toNat : Int) = vValOf r g b) ∧
    (uValOf r r r = 128 ∧ vValOf r r r = 128) := by
  have hy : yValOf r g b = (66 * r + 129 * g + 25 * b + 128) / 256 + 16 := by
    unfold yValOf; rw [Int.shiftRight_eq_div_pow]; norm_num
  have hu : uValOf r g b = (-38 * r - 74 * g + 112 * b + 128) / 256 + 128 := by
    unfold uValOf; rw [Int.shiftRight_eq_div_pow]; norm_num
  have hv : vValOf r g b = (112 * r - 94 * g - 18 * b + 128) / 256 + 128 := by
    unfold vValOf; rw [Int.shiftRight_eq_div_pow]; norm_num
  have hu0 : uValOf r r r = (-38 * r - 74 * r + 112 * r + 128) / 256 + 128 := by
    unfold uValOf; rw [Int.shiftRight_eq_div_pow]; norm_num
  have hv0 : vValOf r r r = (112 * r - 94 * r - 18 * r + 128) / 256 + 128 := by
    unfold vValOf; rw [Int.shiftRight_eq_div_pow]; norm_num
  have by1 : 16 ≤ yValOf r g b ∧ yValOf r g b ≤ 235 := by rw [hy]; omega
  have bu1 : 16 ≤ uValOf r g b ∧ uValOf r g b ≤ 240 := by rw [hu]; omega
  have bv1 : 16 ≤ vValOf r g b ∧ vValOf r g b ≤ 240 := by rw [hv]; omega
  have cy : clampByte (yValOf r g b) = yValOf r g b := by
    unfold clampByte; split <;> [omega; (split <;> omega)]
  have cu : clampByte (uValOf r g b) = uValOf r g b := by
    unfold clampByte; split <;> [omega; (split <;> omega)]
  have cv : clampByte (vValOf r g b) = vValOf r g b := by
    unfold clampByte; split <;> [omega; (split <;> omega)]
  refine ⟨by1, bu1, bv1, cy, cu, cv, ⟨?_, ?_, ?_⟩, ?_, ?_⟩
  · rw [cy]; omega
  · rw [cu]; omega
  · rw [cv]; omega
  · rw [hu0]; omega
  · rw [hv0]; omega

/-- Witness for C30: the red pixel `(255, 0, 0)`: `Y = 82`, `U = 90`,
`V = 240`. -/
theorem C30_colour_range_witness :
    (16 ≤ yValOf 255 0 0 ∧ yValOf 255 0 0 ≤ 235) ∧
    (16 ≤ uValOf 255 0 0 ∧ uValOf 255 0 0 ≤ 240) ∧
    (16 ≤ vValOf 255 0 0 ∧ vValOf 255 0 0 ≤ 240) :=
  ⟨(C30_colour_range 255 0 0 (by decide) (by decide) (by decide)).1,
   (C30_colour_range 255 0 0 (by decide) (by decide) (by decide)).2.1,
   (C30_colour_range 255 0 0 (by decide) (by decide) (by decide)).2.2.1⟩

/-! ## Properties of the rescaler -/

theorem forLoopM_induct {σ : Type} (P : Nat → σ → Prop) (body : σ → Nat → Option σ) (n : Nat)
    (init : σ) (hinit : P 0 init)
    (hstep : ∀ i st, i < n → P i st → ∃ st1, body st i = some st1 ∧ P (i + 1) st1) :
    ∃ out, forLoopM n body init = some out ∧ P n out := by
  have key : ∀ k, k ≤ n → ∃ out, forLoopM k body init = some out ∧ P k out := by
    intro k
    induction k with
    | zero => exact fun _ => ⟨init, rfl, hinit⟩
    | succ k ih =>
      intro hk
      obtain ⟨mid, hmid, hP⟩ := ih (by omega)
      obtain ⟨st1, hst1, hP1⟩ := hstep k mid (by omega) hP
      exact ⟨st1, by rw [forLoopM_succ, hmid]; exact hst1, hP1⟩
  exact key n (Nat.le_refl n)

theorem scaled_index_lt (W tW x : Nat) (hW : 0 < W) (hx : x < tW) :
    x * (W * 65536 / tW) / 65536 < W := by
  rw [Nat.div_lt_iff_lt_mul (by decide)]
  have h1 : W * 65536 / tW * tW ≤ W * 65536 := Nat.div_mul_le_self _ _
  have h2 : x * (W * 65536 / tW) ≤ tW * (W * 65536 / tW) :=
    Nat.mul_le_mul_right _ (Nat.le_of_lt hx)
  rcases Nat.eq_zero_or_pos (W * 65536 / tW) with hq | hq
  · rw [hq]; omega
  · have h3 : x * (W * 65536 / tW) < tW * (W * 65536 / tW) :=
      Nat.mul_lt_mul_of_pos_right hx hq
    rw [Nat.mul_comm tW] at h3
    omega

theorem scaled_product_le (W tW x : Nat) (hx : x < tW) :
    x * (W * 65536 / tW) ≤ W * 65536 := by
  have h1 : W * 65536 / tW * tW ≤ W * 65536 := Nat.div_mul_le_self _ _
  have h2 : x * (W * 65536 / tW) ≤ tW * (W * 65536 / tW) :=
    Nat.mul_le_mul_right _ (Nat.le_of_lt hx)
  rw [Nat.mul_comm tW] at h2
  omega

theorem ratio_cast (W tW : Nat) :
    Int.tdiv ((W : Int) * 65536) (tW : Int) = ((W * 65536 / tW : Nat) : Int) := by
  rw [Int.tdiv_eq_ediv (by positivity) (by positivity)]
  push_cast
  rfl

theorem scaled_index_cast (x q : Nat) :
    ((x : Int) * (q : Int)) >>> (16 : Nat) = ((x * q / 65536 : Nat) : Int) := by
  rw [Int.shiftRight_eq_div_pow]
  push_cast
  rfl

theorem pixRead_natCast (pix : List Nat) (n : Nat) : pixRead pix (n : Int) = pix[n]? := by
  simp [pixRead]

theorem copyByte_natCast (src dst : List Nat) (a b : Nat) (ha : a < src.length)
    (hb : b < dst.length) :
    copyByte src (a : Int) dst (b : Int) = some (dst.set b (src.getD a 0)) := by
  unfold copyByte
  rw [pixRead_natCast, List.getElem?_eq_getElem ha]
  simp [pixWrite, hb, List.getD_eq_getElem?_getD, List.getElem?_eq_getElem ha]

theorem set_four_get (l : List Nat) (b v0 v1 v2 v3 : Nat) (hb : b + 3 < l.length) :
    (∀ c, c < 4 →
      ((((l.set b v0).set (b + 1) v1).set (b + 2) v2).set (b + 3) v3)[b + c]?
        = some (if c = 0 then v0 else if c = 1 then v1 else if c = 2 then v2 else v3)) ∧
    (∀ i, (i < b ∨ b + 4 ≤ i) →
      ((((l.set b v0).set (b + 1) v1).set (b + 2) v2).set (b + 3) v3)[i]? = l[i]?) := by
  constructor
  · intro c hc
    have hcases : c = 0 ∨ c = 1 ∨ c = 2 ∨ c = 3 := by omega
    rcases hcases with h | h | h | h <;> subst h <;>
      simp [List.getElem?_set, List.length_set] <;> omega
  · intro i hi
    simp only [List.getElem?_set, List.length_set]
    repeat' split
    all_goals first | rfl | omega

theorem downscaleFrame.pixel_natCast (src dst : RGBA) (q sro dro x : Nat)
    (hsrc : sro + x * q / 65536 * 4 + 3 < src.Pix.length)
    (hdst : dro + x * 4 + 3 < dst.Pix.length) :
    ∃ out, downscaleFrame.pixel src (q : Int) (sro : Int) (dro : Int) dst x = some out ∧
      out.Stride = dst.Stride ∧ out.Rect = dst.Rect ∧ out.Pix.length = dst.Pix.length ∧
      (∀ c, c < 4 → out.Pix[dro + x * 4 + c]? = src.Pix[sro + x * q / 65536 * 4 + c]?) ∧
      (∀ i, (i < dro + x * 4 ∨ dro + x * 4 + 4 ≤ i) → out.Pix[i]? = dst.Pix[i]?) := by
  have hA : (sro : Int) + (((x : Int) * (q : Int)) >>> (16 : Nat)) * 4
      = ((sro + x * q / 65536 * 4 : Nat) : Int) := by
    rw [scaled_index_cast]; push_cast; rfl
  have hB : (dro : Int) + (x : Int) * 4 = ((dro + x * 4 : Nat) : Int) := by
    push_cast; rfl
  have h1 : ∀ n : Nat, (n : Int) + 1 = ((n + 1 : Nat) : Int) := fun n => by push_cast; rfl
  have h2 : ∀ n : Nat, (n : Int) + 2 = ((n + 2 : Nat) : Int) := fun n => by push_cast; rfl
  have h3 : ∀ n : Nat, (n : Int) + 3 = ((n + 3 : Nat) : Int) := fun n => by push_cast; rfl
  unfold downscaleFrame.pixel
  dsimp only
  rw [hA, hB, h1, h1, h2, h2, h3, h3]
  rw [copyByte_natCast _ _ _ _ (by omega) (by omega)]
  rw [Option.some_bind, copyByte_natCast _ _ _ _ (by omega) (by rw [List.length_set]; omega)]
  rw [Option.some_bind,
    copyByte_natCast _ _ _ _ (by omega) (by rw [List.length_set, List.length_set]; omega)]
  rw [Option.some_bind,
    copyByte_natCast _ _ _ _ (by omega)
      (by rw [List.length_set, List.length_set, List.length_set]; omega)]
  rw [Option.map_some']
  obtain ⟨hget, hother⟩ := set_four_get dst.Pix (dro + x * 4)
    (src.Pix.getD (sro + x * q / 65536 * 4) 0) (src.Pix.getD (sro + x * q / 65536 * 4 + 1) 0)
    (src.Pix.getD (sro + x * q / 65536 * 4 + 2) 0) (src.Pix.getD (sro + x * q / 65536 * 4 + 3) 0)
    hdst
  refine ⟨_, rfl, rfl, rfl, ?_, ?_, ?_⟩
  · simp only [List.length_set]
  · intro c hc
    show (_ : List Nat)[dro + x * 4 + c]? = _
    rw [hget c hc]
    have hcases : c = 0 ∨ c = 1 ∨ c = 2 ∨ c = 3 := by omega
    rcases hcases with h | h | h | h <;> subst h <;>
      simp [List.getD_eq_getElem?_getD, List.getElem?_eq_getElem, hsrc] <;>
      rw [List.getElem?_eq_getElem (by omega)] <;> rfl
  · intro i hi
    exact hother i hi

theorem downscaleFrame.row_natCast (src dst : RGBA) (W H S tW tH y : Nat) (hW : 0 < W)
    (hH : 0 < H) (hS : 4 * W ≤ S) (hlen : S * H ≤ src.Pix.length) (hstride : src.Stride = (S : Int))
    (hy : y < tH) (hdS : dst.Stride = ((4 * tW : Nat) : Int))
    (hdlen : dst.Pix.length = 4 * (tH * tW)) (val : Nat → Nat → Option Nat)
    (hval : ∀ x, x < tW → ∀ c, c < 4 → val (y * tW + x) c
      = src.Pix[y * (H * 65536 / tH) / 65536 * S + x * (W * 65536 / tW) / 65536 * 4 + c]?)
    (hprev : ∀ p, p < y * tW → ∀ c, c < 4 → dst.Pix[4 * p + c]? = val p c) :
    ∃ out, downscaleFrame.row src (tW : Int) ((W * 65536 / tW : Nat) : Int)
        ((H * 65536 / tH : Nat) : Int) dst y = some out ∧
      out.Stride = dst.Stride ∧ out.Rect = dst.Rect ∧ out.Pix.length = dst.Pix.length ∧
      ∀ p, p < (y + 1) * tW → ∀ c, c < 4 → out.Pix[4 * p + c]? = val p c := by
  have hsy : y * (H * 65536 / tH) / 65536 < H := scaled_index_lt H tH y hH hy
  have hrow : (y * (H * 65536 / tH) / 65536 + 1) * S ≤ H * S := Nat.mul_le_mul_right S hsy
  have hrow1 : (y * (H * 65536 / tH) / 65536 + 1) * S
      = y * (H * 65536 / tH) / 65536 * S + S := by ring
  have hcomm : S * H = H * S := Nat.mul_comm S H
  have hsro : (((y : Int) * ((H * 65536 / tH : Nat) : Int)) >>> (16 : Nat)) * src.Stride
      = ((y * (H * 65536 / tH) / 65536 * S : Nat) : Int) := by
    rw [scaled_index_cast, hstride]; push_cast; rfl
  have hdro : (y : Int) * dst.Stride = ((4 * (y * tW) : Nat) : Int) := by
    rw [hdS]; push_cast; ring
  unfold downscaleFrame.row
  dsimp only
  rw [hsro, hdro, Int.toNat_ofNat]
  obtain ⟨out, hout, h1, h2, h3, h4⟩ := forLoopM_induct
    (fun j d => d.Stride = dst.Stride ∧ d.Rect = dst.Rect ∧ d.Pix.length = dst.Pix.length ∧
      ∀ p, p < y * tW + j → ∀ c, c < 4 → d.Pix[4 * p + c]? = val p c)
    (downscaleFrame.pixel src ((W * 65536 / tW : Nat) : Int)
      ((y * (H * 65536 / tH) / 65536 * S : Nat) : Int) ((4 * (y * tW) : Nat) : Int)) tW dst
    ⟨rfl, rfl, rfl, fun p hp c hc => hprev p (by omega) c hc⟩
    (by
      intro j d hj ⟨hd1, hd2, hd3, hd4⟩
      have hsx : j * (W * 65536 / tW) / 65536 < W := scaled_index_lt W tW j hW hj
      have hidx : y * tW + j < tH * tW := pair_index_lt tW tH y j hy hj
      obtain ⟨d1, hstep, e1, e2, e3, e4, e5⟩ := downscaleFrame.pixel_natCast src d
        (W * 65536 / tW) (y * (H * 65536 / tH) / 65536 * S) (4 * (y * tW)) j (by omega)
        (by omega)
      refine ⟨d1, hstep, e1.trans hd1, e2.trans hd2, e3.trans hd3, ?_⟩
      intro p hp c hc
      rcases Nat.lt_or_ge p (y * tW + j) with hlt | hge
      · rw [e5 (4 * p + c) (Or.inl (by omega))]
        exact hd4 p hlt c hc
      · have hp1 : p = y * tW + j := by omega
        have hix : 4 * p + c = 4 * (y * tW) + j * 4 + c := by omega
        rw [hix, e4 c hc, hp1, hval j hj c hc])
  refine ⟨out, hout, h1, h2, h3, ?_⟩
  intro p hp c hc
  have hsucc : (y + 1) * tW = y * tW + tW := by ring
  exact h4 p (by omega) c hc

theorem pair_index_div (W a b : Nat) (hb : b < W) :
    (a * W + b) / W = a ∧ (a * W + b) % W = b := by
  have hW : 0 < W := by omega
  constructor
  · rw [Nat.mul_comm, Nat.mul_add_div hW, Nat.div_eq_of_lt hb, Nat.add_zero]
  · rw [Nat.mul_comm, Nat.mul_add_mod, Nat.mod_eq_of_lt hb]

theorem NewRGBA_natCast (w h : Nat) :
    (NewRGBA (Rect 0 0 (w : Int) (h : Int))).Stride = ((4 * w : Nat) : Int) ∧
    (NewRGBA (Rect 0 0 (w : Int) (h : Int))).Rect = Rect 0 0 (w : Int) (h : Int) ∧
    (NewRGBA (Rect 0 0 (w : Int) (h : Int))).Pix.length = 4 * (h * w) ∧
    (Rect 0 0 (w : Int) (h : Int)).Dx = (w : Int) ∧
    (Rect 0 0 (w : Int) (h : Int)).Dy = (h : Int) ∧
    ∀ i, i < 4 * (h * w) → (NewRGBA (Rect 0 0 (w : Int) (h : Int))).Pix[i]? = some 0 := by
  have hw : ¬ (0 : Int) > (w : Int) := by omega
  have hh : ¬ (0 : Int) > (h : Int) := by omega
  have hdx : (Rect 0 0 (w : Int) (h : Int)).Dx = (w : Int) := by
    simp [Rect, Rectangle.Dx, hw]
  have hdy : (Rect 0 0 (w : Int) (h : Int)).Dy = (h : Int) := by
    simp [Rect, Rectangle.Dy, hh]
  have hn : (4 * (w : Int) * (h : Int)).toNat = 4 * (h * w) := by
    have : 4 * (w : Int) * (h : Int) = ((4 * (h * w) : Nat) : Int) := by push_cast; ring
    rw [this, Int.toNat_ofNat]
  refine ⟨?_, rfl, ?_, hdx, hdy, ?_⟩
  · unfold NewRGBA; rw [hdx]; push_cast; rfl
  · unfold NewRGBA; rw [List.length_replicate, hdx, hdy, hn]
  · intro i hi
    unfold NewRGBA
    rw [hdx, hdy, hn]
    exact List.getElem?_replicate_of_lt hi

/-- The rescaler on a source of `W` by `H` pixels with rows of `S` bytes: when
the target size `tW` by `tH` is another size, it returns a packed image of
the target size whose pixel `(x, y)` is the source pixel
`(x * (W * 65536 / tW) / 65536, y * (H * 65536 / tH) / 65536)`. -/
theorem downscaleFrame_natCast (src : RGBA) (W H S tW tH : Nat) (hW : 0 < W) (hH : 0 < H)
    (htW : 0 < tW) (htH : 0 < tH) (hS : 4 * W ≤ S) (hlen : S * H ≤ src.Pix.length)
    (hstride : src.Stride = (S : Int)) (hdx : src.Rect.Dx = (W : Int))
    (hdy : src.Rect.Dy = (H : Int)) (hne : ¬ (W = tW ∧ H = tH)) :
    ∃ out, downscaleFrame src (tW : Int) (tH : Int) = some out ∧
      out.Stride = ((4 * tW : Nat) : Int) ∧ out.Rect = Rect 0 0 (tW : Int) (tH : Int) ∧
      out.Pix.length = 4 * (tH * tW) ∧
      ∀ x, x < tW → ∀ y, y < tH → ∀ c, c < 4 → out.Pix[4 * (y * tW + x) + c]?
        = src.Pix[y * (H * 65536 / tH) / 65536 * S + x * (W * 65536 / tW) / 65536 * 4 + c]? := by
  obtain ⟨n1, n2, n3, _, _, _⟩ := NewRGBA_natCast tW tH
  have hsize : ¬ (src.Bounds.Dx = (tW : Int) ∧ src.Bounds.Dy = (tH : Int)) := by
    intro ⟨h1, h2⟩
    have h3 : src.Rect.Dx = (tW : Int) := h1
    have h4 : src.Rect.Dy = (tH : Int) := h2
    rw [hdx] at h3
    rw [hdy] at h4
    exact hne ⟨by exact_mod_cast h3, by exact_mod_cast h4⟩
  have hzero : ¬ ((tW : Int) = 0 ∨ (tH : Int) = 0) := by omega
  have hbx : src.Bounds.Dx = (W : Int) := hdx
  have hby : src.Bounds.Dy = (H : Int) := hdy
  unfold downscaleFrame
  dsimp only
  rw [if_neg hsize, if_neg hzero, hbx, hby, ratio_cast, ratio_cast, Int.toNat_ofNat]
  obtain ⟨out, hout, h1, h2, h3, h4⟩ := forLoopM_induct
    (fun k d => d.Stride = ((4 * tW : Nat) : Int) ∧ d.Rect = Rect 0 0 (tW : Int) (tH : Int) ∧
      d.Pix.length = 4 * (tH * tW) ∧
      ∀ p, p < k * tW → ∀ c, c < 4 → d.Pix[4 * p + c]?
        = src.Pix[p / tW * (H * 65536 / tH) / 65536 * S
            + p % tW * (W * 65536 / tW) / 65536 * 4 + c]?)
    (downscaleFrame.row src (tW : Int) ((W * 65536 / tW : Nat) : Int)
      ((H * 65536 / tH : Nat) : Int)) tH (NewRGBA (Rect 0 0 (tW : Int) (tH : Int)))
    ⟨n1, n2, n3, fun p hp => by omega⟩
    (by
      intro k d hk ⟨hd1, hd2, hd3, hd4⟩
      obtain ⟨d1, hstep, e1, e2, e3, e4⟩ := downscaleFrame.row_natCast src d W H S tW tH k hW hH
        hS hlen hstride hk hd1 hd3
        (fun p c => src.Pix[p / tW * (H * 65536 / tH) / 65536 * S
            + p % tW * (W * 65536 / tW) / 65536 * 4 + c]?)
        (by
          intro x hx c _
          obtain ⟨q1, q2⟩ := pair_index_div tW k x hx
          show src.Pix[(k * tW + x) / tW * (H * 65536 / tH) / 65536 * S
            + (k * tW + x) % tW * (W * 65536 / tW) / 65536 * 4 + c]? = _
          rw [q1, q2])
        hd4
      exact ⟨d1, hstep, e1.trans hd1, e2.trans hd2, e3.trans hd3, e4⟩)
  refine ⟨out, hout, h1, h2, h3, ?_⟩
  intro x hx y hy c hc
  obtain ⟨q1, q2⟩ := pair_index_div tW y x hx
  have hidx : y * tW + x < tH * tW := pair_index_lt tW tH y x hy hx
  rw [h4 (y * tW + x) hidx c hc, q1, q2]

theorem RGBA.channel_natCast (p : RGBA) (S x y c : Nat) (hmin : p.Rect.Min = { X := 0, Y := 0 })
    (hS : p.Stride = (S : Int)) :
    p.channel (x : Int) (y : Int) c = p.Pix[y * S + x * 4 + c]? := by
  unfold RGBA.channel RGBA.PixOffset
  rw [hmin, hS]
  have h : ((y : Int) - 0) * (S : Int) + ((x : Int) - 0) * 4 + (c : Int)
      = ((y * S + x * 4 + c : Nat) : Int) := by push_cast; ring
  show pixRead p.Pix (((y : Int) - 0) * (S : Int) + ((x : Int) - 0) * 4 + (c : Int)) = _
  rw [h, pixRead_natCast]

theorem source_index_lt (W H S sx sy c : Nat) (hS : 4 * W ≤ S) (hsx : sx < W) (hsy : sy < H)
    (hc : c < 4) : sy * S + sx * 4 + c < S * H := by
  have h1 : (sy + 1) * S ≤ H * S := Nat.mul_le_mul_right S hsy
  have h2 : (sy + 1) * S = sy * S + S := by ring
  have h3 : S * H = H * S := Nat.mul_comm S H
  omega

/-- The rescaler on a well-formed source of `W` by `H` pixels: it returns an
image whose pixel `(x, y)` is the source pixel
`(x * (W * 65536 / tW) / 65536, y * (H * 65536 / tH) / 65536)`, a packed image
of the target size when the sizes differ and the source itself when they are
the same; every byte it reads lies inside `src.Pix`. -/
theorem downscaleFrame_channels (src : RGBA) (W H S tW tH : Nat) (hW : 0 < W) (hH : 0 < H)
    (htW : 0 < tW) (htH : 0 < tH) (hS : 4 * W ≤ S) (hlen : S * H ≤ src.Pix.length)
    (hstride : src.Stride = (S : Int)) (hmin : src.Rect.Min = { X := 0, Y := 0 })
    (hdx : src.Rect.Dx = (W : Int)) (hdy : src.Rect.Dy = (H : Int)) :
    ∃ out, downscaleFrame src (tW : Int) (tH : Int) = some out ∧
      (¬ (W = tW ∧ H = tH) → out.Rect = Rect 0 0 (tW : Int) (tH : Int) ∧
        out.Pix.length = 4 * (tH * tW)) ∧
      ((W = tW ∧ H = tH) → out = src) ∧
      ∀ x, x < tW → ∀ y, y < tH → ∀ c, c < 4 →
        out.channel (x : Int) (y : Int) c
          = src.Pix[y * (H * 65536 / tH) / 65536 * S + x * (W * 65536 / tW) / 65536 * 4 + c]? ∧
        src.channel ((x * (W * 65536 / tW) / 65536 : Nat) : Int)
            ((y * (H * 65536 / tH) / 65536 : Nat) : Int) c
          = src.Pix[y * (H * 65536 / tH) / 65536 * S + x * (W * 65536 / tW) / 65536 * 4 + c]? ∧
        y * (H * 65536 / tH) / 65536 * S + x * (W * 65536 / tW) / 65536 * 4 + c
          < src.Pix.length := by
  have hread : ∀ x, x < tW → ∀ y, y < tH → ∀ c, c < 4 →
      y * (H * 65536 / tH) / 65536 * S + x * (W * 65536 / tW) / 65536 * 4 + c
        < src.Pix.length := by
    intro x hx y hy c hc
    have := source_index_lt W H S _ _ c hS (scaled_index_lt W tW x hW hx)
      (scaled_index_lt H tH y hH hy) hc
    omega
  by_cases hsame : W = tW ∧ H = tH
  · obtain ⟨h1, h2⟩ := hsame
    subst h1 h2
    refine ⟨src, ?_, fun h => absurd ⟨rfl, rfl⟩ h, fun _ => rfl, ?_⟩
    · unfold downscaleFrame
      dsimp only
      rw [if_pos ⟨hdx, hdy⟩]
    · intro x hx y hy c hc
      have hqx : x * (W * 65536 / W) / 65536 = x := by
        rw [Nat.mul_div_cancel_left _ hW, Nat.mul_div_cancel _ (by decide)]
      have hqy : y * (H * 65536 / H) / 65536 = y := by
        rw [Nat.mul_div_cancel_left _ hH, Nat.mul_div_cancel _ (by decide)]
      have hr := hread x hx y hy c hc
      rw [hqx, hqy] at hr ⊢
      exact ⟨RGBA.channel_natCast src S x y c hmin hstride,
        RGBA.channel_natCast src S x y c hmin hstride, hr⟩
  · obtain ⟨out, hout, h1, h2, h3, h4⟩ := downscaleFrame_natCast src W H S tW tH hW hH htW htH hS
      hlen hstride hdx hdy hsame
    refine ⟨out, hout, fun _ => ⟨h2, h3⟩, fun h => absurd h hsame, ?_⟩
    intro x hx y hy c hc
    have homin : out.Rect.Min = { X := 0, Y := 0 } := by
      rw [h2]
      have hw : ¬ (0 : Int) > (tW : Int) := by omega
      have hh : ¬ (0 : Int) > (tH : Int) := by omega
      simp [Rect, hw, hh]
    have hix : y * (4 * tW) + x * 4 + c = 4 * (y * tW + x) + c := by ring
    refine ⟨?_, RGBA.channel_natCast src S _ _ c hmin hstride, hread x hx y hy c hc⟩
    rw [RGBA.channel_natCast out (4 * tW) x y c homin h1, hix]
    exact h4 x hx y hy c hc

/-- C27 (nearest-neighbour rescale): for every frame as the capturers produce
it (origin `(0, 0)`, packed rows of 4 bytes per pixel) of positive size
`srcW x srcH` and every positive target size `tW x tH`, `downscaleFrame`
returns an image of bounds `(0, 0)-(tW, tH)` whose `Pix` has `tW*tH*4` bytes
and in which every byte of pixel `(x, y)` is the same byte of the source pixel
`((x*xr) >> 16, (y*yr) >> 16)`, `xr = (srcW << 16) / tW` and
`yr = (srcH << 16) / tH`; when `srcW = tW` and `srcH = tH` the image returned
is the source. -/
theorem C27_nearest_neighbour_rescale (src : RGBA) (targetWidth targetHeight : Int)
    (hpacked : src.Packed) (hw : 0 < src.Rect.Dx) (hh : 0 < src.Rect.Dy)
    (htw : 0 < targetWidth) (hth : 0 < targetHeight) :
    ∃ out, downscaleFrame src targetWidth targetHeight = some out ∧
      out.Rect = Rect 0 0 targetWidth targetHeight ∧
      (out.Pix.length : Int) = targetWidth * targetHeight * 4 ∧
      (∀ x y : Int, 0 ≤ x → x < targetWidth → 0 ≤ y → y < targetHeight → ∀ c, c < 4 →
        out.channel x y c ≠ none ∧
        out.channel x y c
          = src.channel ((x * Int.tdiv (src.Rect.Dx * 65536) targetWidth) >>> (16 : Nat))
              ((y * Int.tdiv (src.Rect.Dy * 65536) targetHeight) >>> (16 : Nat)) c) ∧
      (src.Rect.Dx = targetWidth ∧ src.Rect.Dy = targetHeight → out = src) := by
  obtain ⟨hmin, hmx, hmy, hstride, hlen⟩ := hpacked
  obtain ⟨W, hW⟩ := Int.eq_ofNat_of_zero_le (le_of_lt hw)
  obtain ⟨H, hH⟩ := Int.eq_ofNat_of_zero_le (le_of_lt hh)
  lift targetWidth to ℕ using le_of_lt htw with tW
  lift targetHeight to ℕ using le_of_lt hth with tH
  rw [hW, hH] at hlen
  rw [hW] at hstride hw
  rw [hH] at hh
  have hstride1 : src.Stride = ((4 * W : Nat) : Int) := by rw [hstride]; push_cast; rfl
  have hlen1 : 4 * W * H = src.Pix.length := by
    have : ((4 * W * H : Nat) : Int) = (src.Pix.length : Int) := by rw [hlen]; push_cast; rfl
    exact_mod_cast this
  obtain ⟨out, hout, hdiff, hsame, hpix⟩ := downscaleFrame_channels src W H (4 * W) tW tH
    (by omega) (by omega) (by omega) (by omega) (Nat.le_refl _) (by omega) hstride1 hmin hW hH
  have hrect : src.Rect = Rect 0 0 (W : Int) (H : Int) := by
    have hw0 : ¬ (0 : Int) > (W : Int) := by omega
    have hh0 : ¬ (0 : Int) > (H : Int) := by omega
    rcases hsrc : src.Rect with ⟨⟨a, b⟩, ⟨c, d⟩⟩
    rw [hsrc] at hmin hW hH
    simp only [Point.mk.injEq] at hmin
    simp only [Rectangle.Dx, Rectangle.Dy] at hW hH
    obtain ⟨ha, hb⟩ := hmin
    subst ha hb
    simp only [Rect, hw0, hh0, if_false]
    rw [← hW, ← hH]
    simp
  refine ⟨out, hout, ?_, ?_, ?_, ?_⟩
  · by_cases hid : W = tW ∧ H = tH
    · rw [hsame hid, hrect, hid.1, hid.2]
    · exact (hdiff hid).1
  · by_cases hid : W = tW ∧ H = tH
    · rw [hsame hid, ← hlen1, hid.1, hid.2]; push_cast; ring
    · rw [(hdiff hid).2]; push_cast; ring
  · intro x y hx0 hx hy0 hy c hc
    lift x to ℕ using hx0
    lift y to ℕ using hy0
    obtain ⟨e1, e2, e3⟩ := hpix x (by omega) y (by omega) c hc
    rw [hW, hH, ratio_cast, ratio_cast, scaled_index_cast, scaled_index_cast, e1, e2]
    refine ⟨?_, rfl⟩
    rw [List.getElem?_eq_getElem e3]
    exact Option.some_ne_none _
  · intro ⟨h1, h2⟩
    rw [hW] at h1
    rw [hH] at h2
    exact hsame ⟨by exact_mod_cast h1, by exact_mod_cast h2⟩

theorem tinyFrame_packed : (tinyFrame 9).Packed := by
  refine ⟨rfl, by decide, by decide, by decide, by decide⟩

/-- Witness for C27: a frame of 1 by 1 enlarged to 2 by 2. -/
theorem C27_nearest_neighbour_rescale_witness :
    (tinyFrame 9).Packed ∧
    ∃ out, downscaleFrame (tinyFrame 9) 2 2 = some out ∧ out.Rect = Rect 0 0 2 2 ∧
      (out.Pix.length : Int) = 2 * 2 * 4 :=
  ⟨tinyFrame_packed,
   (C27_nearest_neighbour_rescale (tinyFrame 9) 2 2 (tinyFrame_packed) (by decide) (by decide)
      (by decide) (by decide)).imp fun _ h => ⟨h.1, h.2.1, h.2.2.1⟩⟩

/-- C29 (rescale index safety): for every source image of positive size
`srcW x srcH` with origin `(0, 0)`, `Stride >= 4*srcW` and
`len(Pix) >= Stride*srcH`, and every positive target size `tW x tH`, all four
below `2^31`: every source coordinate satisfies `0 <= (x*xr) >> 16 < srcW` and
`0 <= (y*yr) >> 16 < srcH` for `0 <= x < tW` and `0 <= y < tH`, the products
`srcW << 16`, `x*xr`, `srcH << 16` and `y*yr` stay below `2^63`, every byte
read lies inside `src.Pix`, and `downscaleFrame` returns an image (no index
is out of range) in which every target pixel lies inside `Pix`. -/
theorem C29_rescale_index_safety (src : RGBA) (targetWidth targetHeight : Int)
    (horigin : src.Rect.Min = { X := 0, Y := 0 }) (hw : 0 < src.Rect.Dx)
    (hh : 0 < src.Rect.Dy) (hstride : 4 * src.Rect.Dx ≤ src.Stride)
    (hlen : src.Stride * src.Rect.Dy ≤ (src.Pix.length : Int)) (htw : 0 < targetWidth)
    (hth : 0 < targetHeight)
    (hbound : src.Rect.Dx < 2 ^ 31 ∧ src.Rect.Dy < 2 ^ 31 ∧ targetWidth < 2 ^ 31 ∧
      targetHeight < 2 ^ 31) :
    (∀ x : Int, 0 ≤ x → x < targetWidth →
      0 ≤ (x * Int.tdiv (src.Rect.Dx * 65536) targetWidth) >>> (16 : Nat) ∧
      (x * Int.tdiv (src.Rect.Dx * 65536) targetWidth) >>> (16 : Nat) < src.Rect.Dx ∧
      src.Rect.Dx * 65536 < 2 ^ 63 ∧
      x * Int.tdiv (src.Rect.Dx * 65536) targetWidth < 2 ^ 63) ∧
    (∀ y : Int, 0 ≤ y → y < targetHeight →
      0 ≤ (y * Int.tdiv (src.Rect.Dy * 65536) targetHeight) >>> (16 : Nat) ∧
      (y * Int.tdiv (src.Rect.Dy * 65536) targetHeight) >>> (16 : Nat) < src.Rect.Dy ∧
      src.Rect.Dy * 65536 < 2 ^ 63 ∧
      y * Int.tdiv (src.Rect.Dy * 65536) targetHeight < 2 ^ 63) ∧
    ∃ out, downscaleFrame src targetWidth targetHeight = some out ∧
      ∀ x y : Int, 0 ≤ x → x < targetWidth → 0 ≤ y → y < targetHeight → ∀ c, c < 4 →
        src.channel ((x * Int.tdiv (src.Rect.Dx * 65536) targetWidth) >>> (16 : Nat))
          ((y * Int.tdiv (src.Rect.Dy * 65536) targetHeight) >>> (16 : Nat)) c ≠ none ∧
        out.channel x y c ≠ none := by
  obtain ⟨W, hW⟩ := Int.eq_ofNat_of_zero_le (le_of_lt hw)
  obtain ⟨H, hH⟩ := Int.eq_ofNat_of_zero_le (le_of_lt hh)
  obtain ⟨S, hS⟩ := Int.eq_ofNat_of_zero_le (show 0 ≤ src.Stride by omega)
  lift targetWidth to ℕ using le_of_lt htw with tW
  lift targetHeight to ℕ using le_of_lt hth with tH
  rw [hW, hH] at hbound
  rw [hW, hS] at hstride
  rw [hH, hS] at hlen
  rw [hW] at hw
  rw [hH] at hh
  have hlen1 : S * H ≤ src.Pix.length := by exact_mod_cast hlen
  have hcoord : ∀ (D t : Nat) (x : Int), 0 < D → (D : Int) < 2 ^ 31 → 0 ≤ x → x < (t : Int) →
      0 ≤ (x * Int.tdiv ((D : Int) * 65536) (t : Int)) >>> (16 : Nat) ∧
      (x * Int.tdiv ((D : Int) * 65536) (t : Int)) >>> (16 : Nat) < (D : Int) ∧
      (D : Int) * 65536 < 2 ^ 63 ∧
      x * Int.tdiv ((D : Int) * 65536) (t : Int) < 2 ^ 63 := by
    intro D t x hD hD31 hx0 hx
    lift x to ℕ using hx0
    have hlt : x * (D * 65536 / t) / 65536 < D := scaled_index_lt D t x hD (by omega)
    have hle : x * (D * 65536 / t) ≤ D * 65536 := scaled_product_le D t x (by omega)
    rw [ratio_cast, scaled_index_cast]
    have hprod : (x : Int) * ((D * 65536 / t : Nat) : Int)
        = ((x * (D * 65536 / t) : Nat) : Int) := by push_cast; rfl
    rw [hprod]
    refine ⟨by omega, by omega, by omega, ?_⟩
    have : ((x * (D * 65536 / t) : Nat) : Int) ≤ ((D * 65536 : Nat) : Int) := by
      exact_mod_cast hle
    push_cast at this
    omega
  obtain ⟨out, hout, hdiff, hsame, hpix⟩ := downscaleFrame_channels src W H S tW tH
    (by omega) (by omega) (by omega) (by omega) (by omega) hlen1 hS horigin hW hH
  refine ⟨?_, ?_, out, hout, ?_⟩
  · intro x hx0 hx
    rw [hW]
    exact hcoord W tW x (by omega) hbound.1 hx0 hx
  · intro y hy0 hy
    rw [hH]
    exact hcoord H tH y (by omega) hbound.2.1 hy0 hy
  · intro x y hx0 hx hy0 hy c hc
    lift x to ℕ using hx0
    lift y to ℕ using hy0
    obtain ⟨e1, e2, e3⟩ := hpix x (by omega) y (by omega) c hc
    rw [hW, hH, ratio_cast, ratio_cast, scaled_index_cast, scaled_index_cast, e1, e2,
      List.getElem?_eq_getElem e3]
    exact ⟨Option.some_ne_none _, Option.some_ne_none _⟩

/-- Witness for C29: a frame of 2 by 1 with rows of 12 bytes, enlarged to 4 by
2. -/
theorem C29_rescale_index_safety_witness :
    paddedFrame.Rect.Min = { X := 0, Y := 0 } ∧ 4 * paddedFrame.Rect.Dx ≤ paddedFrame.Stride ∧
    ∃ out, downscaleFrame paddedFrame 4 2 = some out :=
  ⟨rfl, by decide,
   (C29_rescale_index_safety paddedFrame 4 2 rfl (by decide) (by decide) (by decide) (by decide)
      (by decide) (by decide) (by decide)).2.2.imp fun _ h => h.1⟩

/-! ## Properties of the virtual-desktop composition -/

theorem copyPixel_natCast (dst src : List Nat) (d s : Nat) (hd : d + 3 < dst.length)
    (hs : s + 3 < src.length) :
    ∃ out, copyPixel dst (d : Int) src (s : Int) = some out ∧ out.length = dst.length ∧
      (∀ c, c < 4 → out[d + c]? = src[s + c]?) ∧
      (∀ i, (i < d ∨ d + 4 ≤ i) → out[i]? = dst[i]?) := by
  obtain ⟨hget, hother⟩ := set_four_get dst d (src.getD s 0) (src.getD (s + 1) 0)
    (src.getD (s + 2) 0) (src.getD (s + 3) 0) hd
  have hcond : 0 ≤ (d : Int) ∧ (d : Int) + 4 ≤ (dst.length : Int) ∧ 0 ≤ (s : Int) ∧
      (s : Int) + 4 ≤ (src.length : Int) := by omega
  unfold copyPixel
  rw [if_pos hcond, Int.toNat_ofNat, Int.toNat_ofNat]
  refine ⟨_, rfl, by simp only [List.length_set], ?_, hother⟩
  intro c hc
  rw [hget c hc]
  have hcases : c = 0 ∨ c = 1 ∨ c = 2 ∨ c = 3 := by omega
  rcases hcases with h | h | h | h <;> subst h <;>
    simp [List.getD_eq_getElem?_getD, List.getElem?_eq_getElem, hs] <;>
    rw [List.getElem?_eq_getElem (by omega)] <;> rfl

theorem captureVirtualDesktop.pixel_blit (monitors : MultiMonitorInfo) (img canvas : RGBA)
    (V Hh S ox oy x y : Nat) (hV : monitors.VirtualWidth = (V : Int))
    (hH : monitors.VirtualHeight = (Hh : Int)) (hS : img.Stride = (S : Int))
    (hcS : canvas.Stride = ((4 * V : Nat) : Int)) (hclen : canvas.Pix.length = 4 * (Hh * V))
    (hx : ox + x < V) (hy : oy + y < Hh) (hsrc : y * S + x * 4 + 3 < img.Pix.length) :
    ∃ out, captureVirtualDesktop.pixel monitors img (ox : Int) (oy : Int) y canvas x = some out ∧
      out.Stride = canvas.Stride ∧ out.Rect = canvas.Rect ∧
      out.Pix.length = canvas.Pix.length ∧
      (∀ c, c < 4 → out.Pix[4 * ((oy + y) * V + ox) + 4 * x + c]? = img.Pix[y * S + 4 * x + c]?) ∧
      (∀ i, (i < 4 * ((oy + y) * V + ox) + 4 * x ∨ 4 * ((oy + y) * V + ox) + 4 * x + 4 ≤ i) →
        out.Pix[i]? = canvas.Pix[i]?) := by
  have hidx : (oy + y) * V + (ox + x) < Hh * V := pair_index_lt V Hh (oy + y) (ox + x) hy hx
  have hcond : (ox : Int) + (x : Int) ≥ 0 ∧ (ox : Int) + (x : Int) < monitors.VirtualWidth ∧
      (oy : Int) + (y : Int) ≥ 0 ∧ (oy : Int) + (y : Int) < monitors.VirtualHeight := by
    rw [hV, hH]; omega
  have hs : (y : Int) * img.Stride + (x : Int) * 4 = ((y * S + x * 4 : Nat) : Int) := by
    rw [hS]; push_cast; rfl
  have hd : ((oy : Int) + (y : Int)) * canvas.Stride + ((ox : Int) + (x : Int)) * 4
      = ((4 * ((oy + y) * V + ox) + 4 * x : Nat) : Int) := by
    rw [hcS]; push_cast; ring
  obtain ⟨p, hp, hplen, hpget, hpother⟩ := copyPixel_natCast canvas.Pix img.Pix
    (4 * ((oy + y) * V + ox) + 4 * x) (y * S + x * 4) (by omega) hsrc
  unfold captureVirtualDesktop.pixel
  dsimp only
  rw [if_pos hcond, hs, hd, hp, Option.map_some']
  refine ⟨_, rfl, rfl, rfl, hplen, ?_, hpother⟩
  intro c hc
  have e : y * S + 4 * x + c = y * S + x * 4 + c := by omega
  rw [e]
  exact hpget c hc

theorem captureVirtualDesktop.row_blit (monitors : MultiMonitorInfo) (img canvas : RGBA)
    (V Hh S ox oy w y : Nat) (hV : monitors.VirtualWidth = (V : Int))
    (hH : monitors.VirtualHeight = (Hh : Int)) (hS : img.Stride = (S : Int))
    (hcS : canvas.Stride = ((4 * V : Nat) : Int)) (hclen : canvas.Pix.length = 4 * (Hh * V))
    (hw : ox + w ≤ V) (hy : oy + y < Hh) (hsrc : y * S + 4 * w ≤ img.Pix.length) :
    ∃ out, forLoopM w (captureVirtualDesktop.pixel monitors img (ox : Int) (oy : Int) y) canvas
        = some out ∧
      out.Stride = canvas.Stride ∧ out.Rect = canvas.Rect ∧
      out.Pix.length = canvas.Pix.length ∧
      (∀ t, t < 4 * w → out.Pix[4 * ((oy + y) * V + ox) + t]? = img.Pix[y * S + t]?) ∧
      (∀ i, (i < 4 * ((oy + y) * V + ox) ∨ 4 * ((oy + y) * V + ox) + 4 * w ≤ i) →
        out.Pix[i]? = canvas.Pix[i]?) := by
  obtain ⟨out, hout, h1, h2, h3, h4, h5⟩ := forLoopM_induct
    (fun j d => d.Stride = canvas.Stride ∧ d.Rect = canvas.Rect ∧
      d.Pix.length = canvas.Pix.length ∧
      (∀ t, t < 4 * j → d.Pix[4 * ((oy + y) * V + ox) + t]? = img.Pix[y * S + t]?) ∧
      (∀ i, (i < 4 * ((oy + y) * V + ox) ∨ 4 * ((oy + y) * V + ox) + 4 * j ≤ i) →
        d.Pix[i]? = canvas.Pix[i]?))
    (captureVirtualDesktop.pixel monitors img (ox : Int) (oy : Int) y) w canvas
    ⟨rfl, rfl, rfl, fun t ht => by omega, fun _ _ => rfl⟩
    (by
      intro j d hj ⟨hd1, hd2, hd3, hd4, hd5⟩
      obtain ⟨d1, hstep, e1, e2, e3, e4, e5⟩ := captureVirtualDesktop.pixel_blit monitors img d
        V Hh S ox oy j y hV hH hS (hd1.trans hcS) (hd3.trans hclen) (by omega) hy (by omega)
      refine ⟨d1, hstep, e1.trans hd1, e2.trans hd2, e3.trans hd3, ?_, ?_⟩
      · intro t ht
        rcases Nat.lt_or_ge t (4 * j) with hlt | hge
        · rw [e5 _ (Or.inl (by omega))]
          exact hd4 t hlt
        · have ht1 : t = 4 * j + (t - 4 * j) := by omega
          have := e4 (t - 4 * j) (by omega)
          rw [ht1]
          rw [← Nat.add_assoc, ← Nat.add_assoc]
          exact this
      · intro i hi
        rw [e5 i (by omega)]
        exact hd5 i (by omega))
  exact ⟨out, hout, h1, h2, h3, h4, h5⟩

theorem row_base_step (V a b : Nat) (h : a < b) : a * V + V ≤ b * V := by
  have h1 : (a + 1) * V ≤ b * V := Nat.mul_le_mul_right V h
  have h2 : (a + 1) * V = a * V + V := by ring
  omega

theorem captureVirtualDesktop.blit (monitors : MultiMonitorInfo) (img canvas : RGBA)
    (V Hh S ox oy w h : Nat) (hV : monitors.VirtualWidth = (V : Int))
    (hH : monitors.VirtualHeight = (Hh : Int)) (hS : img.Stride = (S : Int))
    (hcS : canvas.Stride = ((4 * V : Nat) : Int)) (hclen : canvas.Pix.length = 4 * (Hh * V))
    (hw : ox + w ≤ V) (hh : oy + h ≤ Hh) (hSw : 4 * w ≤ S) (hsrc : S * h ≤ img.Pix.length) :
    ∃ out, forLoopM h (fun cv y =>
        forLoopM w (captureVirtualDesktop.pixel monitors img (ox : Int) (oy : Int) y) cv) canvas
        = some out ∧
      out.Stride = canvas.Stride ∧ out.Rect = canvas.Rect ∧
      out.Pix.length = canvas.Pix.length ∧
      (∀ y, y < h → ∀ t, t < 4 * w →
        out.Pix[4 * ((oy + y) * V + ox) + t]? = img.Pix[y * S + t]?) ∧
      (∀ i, (∀ y, y < h → i < 4 * ((oy + y) * V + ox) ∨ 4 * ((oy + y) * V + ox) + 4 * w ≤ i) →
        out.Pix[i]? = canvas.Pix[i]?) := by
  obtain ⟨out, hout, h1, h2, h3, h4, h5⟩ := forLoopM_induct
    (fun k d => d.Stride = canvas.Stride ∧ d.Rect = canvas.Rect ∧
      d.Pix.length = canvas.Pix.length ∧
      (∀ y, y < k → ∀ t, t < 4 * w →
        d.Pix[4 * ((oy + y) * V + ox) + t]? = img.Pix[y * S + t]?) ∧
      (∀ i, (∀ y, y < k → i < 4 * ((oy + y) * V + ox) ∨ 4 * ((oy + y) * V + ox) + 4 * w ≤ i) →
        d.Pix[i]? = canvas.Pix[i]?))
    (fun cv y =>
      forLoopM w (captureVirtualDesktop.pixel monitors img (ox : Int) (oy : Int) y) cv) h canvas
    ⟨rfl, rfl, rfl, fun y hy => by omega, fun _ _ => rfl⟩
    (by
      intro k d hk ⟨hd1, hd2, hd3, hd4, hd5⟩
      have hrow : k * S + S ≤ h * S := row_base_step S k h hk
      have hcomm : S * h = h * S := Nat.mul_comm S h
      obtain ⟨d1, hstep, e1, e2, e3, e4, e5⟩ := captureVirtualDesktop.row_blit monitors img d
        V Hh S ox oy w k hV hH hS (hd1.trans hcS) (hd3.trans hclen) hw (by omega) (by omega)
      refine ⟨d1, hstep, e1.trans hd1, e2.trans hd2, e3.trans hd3, ?_, ?_⟩
      · intro y hy t ht
        rcases Nat.lt_or_ge y k with hlt | hge
        · have hb : (oy + y) * V + V ≤ (oy + k) * V := row_base_step V _ _ (by omega)
          rw [e5 _ (Or.inl (by omega))]
          exact hd4 y hlt t ht
        · have hyk : y = k := by omega
          subst hyk
          exact e4 t ht
      · intro i hi
        rw [e5 i (hi k (by omega))]
        exact hd5 i (fun y hy => hi y (by omega)))
  exact ⟨out, hout, h1, h2, h3, h4, h5⟩

theorem rows_disjoint (V ox oy w h ox1 oy1 w1 h1 y t y1 : Nat) (hw : ox + w ≤ V)
    (hw1 : ox1 + w1 ≤ V)
    (hdis : ox + w ≤ ox1 ∨ ox1 + w1 ≤ ox ∨ oy + h ≤ oy1 ∨ oy1 + h1 ≤ oy) (hy : y < h)
    (ht : t < 4 * w) (hy1 : y1 < h1) :
    4 * ((oy + y) * V + ox) + t < 4 * ((oy1 + y1) * V + ox1) ∨
    4 * ((oy1 + y1) * V + ox1) + 4 * w1 ≤ 4 * ((oy + y) * V + ox) + t := by
  rcases Nat.lt_trichotomy (oy + y) (oy1 + y1) with hlt | heq | hgt
  · have := row_base_step V _ _ hlt
    omega
  · have hrow : (oy + y) * V = (oy1 + y1) * V := by rw [heq]
    omega
  · have := row_base_step V _ _ hgt
    omega

theorem captureVirtualDesktop.monitor_step (monitors : MultiMonitorInfo)
    (captureDisplay : Int → Option RGBA) (canvas : RGBA) (mon : MonitorInfo) (V Hh : Nat)
    (hV : monitors.VirtualWidth = (V : Int)) (hH : monitors.VirtualHeight = (Hh : Int))
    (hcS : canvas.Stride = ((4 * V : Nat) : Int)) (hclen : canvas.Pix.length = 4 * (Hh * V))
    (hwithin : mon.within monitors)
    (hsized : ∀ img, captureDisplay mon.Index = some img → img.Sized mon.Width mon.Height) :
    ∃ out, captureVirtualDesktop.monitor monitors captureDisplay canvas mon = some out ∧
      out.Stride = canvas.Stride ∧ out.Rect = canvas.Rect ∧
      out.Pix.length = canvas.Pix.length ∧
      (∀ img, captureDisplay mon.Index = some img →
        ∀ y, y < mon.Height.toNat → ∀ t, t < 4 * mon.Width.toNat →
          out.Pix[4 * (((mon.Y - monitors.VirtualMinY).toNat + y) * V
            + (mon.X - monitors.VirtualMinX).toNat) + t]? = img.Pix[y * img.Stride.toNat + t]?) ∧
      (∀ i, (captureDisplay mon.Index ≠ none → ∀ y, y < mon.Height.toNat →
          i < 4 * (((mon.Y - monitors.VirtualMinY).toNat + y) * V
            + (mon.X - monitors.VirtualMinX).toNat) ∨
          4 * (((mon.Y - monitors.VirtualMinY).toNat + y) * V
            + (mon.X - monitors.VirtualMinX).toNat) + 4 * mon.Width.toNat ≤ i) →
        out.Pix[i]? = canvas.Pix[i]?) := by
  obtain ⟨hw0, hh0, hx0, hx1, hy0, hy1⟩ := hwithin
  rw [hV] at hx1
  rw [hH] at hy1
  cases hcap : captureDisplay mon.Index with
  | none =>
    refine ⟨canvas, ?_, rfl, rfl, rfl, fun img himg => (by cases himg), fun _ _ => rfl⟩
    unfold captureVirtualDesktop.monitor
    rw [hcap]
  | some img =>
    obtain ⟨_, _, _, _, hstride, hlen⟩ := hsized img hcap
    have hox : mon.X - monitors.VirtualMinX
        = (((mon.X - monitors.VirtualMinX).toNat : Nat) : Int) :=
      (Int.toNat_of_nonneg (by omega)).symm
    have hoy : mon.Y - monitors.VirtualMinY
        = (((mon.Y - monitors.VirtualMinY).toNat : Nat) : Int) :=
      (Int.toNat_of_nonneg (by omega)).symm
    have hS : img.Stride = ((img.Stride.toNat : Nat) : Int) :=
      (Int.toNat_of_nonneg (by omega)).symm
    have hw : mon.Width = ((mon.Width.toNat : Nat) : Int) := (Int.toNat_of_nonneg hw0).symm
    have hh : mon.Height = ((mon.Height.toNat : Nat) : Int) := (Int.toNat_of_nonneg hh0).symm
    have hsrc : img.Stride.toNat * mon.Height.toNat ≤ img.Pix.length := by
      rw [hS, hh] at hlen
      exact_mod_cast hlen
    obtain ⟨out, hout, h1, h2, h3, h4, h5⟩ := captureVirtualDesktop.blit monitors img canvas V Hh
      img.Stride.toNat (mon.X - monitors.VirtualMinX).toNat (mon.Y - monitors.VirtualMinY).toNat
      mon.Width.toNat mon.Height.toNat hV hH hS hcS hclen (by omega) (by omega) (by omega) hsrc
    refine ⟨out, ?_, h1, h2, h3, ?_, ?_⟩
    · unfold captureVirtualDesktop.monitor
      rw [hcap]
      dsimp only
      rw [hox, hoy]
      exact hout
    · intro img1 himg1
      cases himg1
      exact h4
    · intro i hi
      exact h5 i (hi (by simp))

theorem captureVirtualDesktop.fold (monitors : MultiMonitorInfo)
    (captureDisplay : Int → Option RGBA) (V Hh : Nat) (hV : monitors.VirtualWidth = (V : Int))
    (hH : monitors.VirtualHeight = (Hh : Int)) (init : RGBA)
    (hiS : init.Stride = ((4 * V : Nat) : Int)) (hilen : init.Pix.length = 4 * (Hh * V))
    (hzero : ∀ i, i < 4 * (Hh * V) → init.Pix[i]? = some 0) (ms : List MonitorInfo) :
    (∀ m, m ∈ ms → m.within monitors) → ms.Pairwise MonitorInfo.disjoint →
    (∀ m, m ∈ ms → ∀ img, captureDisplay m.Index = some img → img.Sized m.Width m.Height) →
    ∃ out, ms.foldlM (captureVirtualDesktop.monitor monitors captureDisplay) init = some out ∧
      out.Stride = init.Stride ∧ out.Rect = init.Rect ∧ out.Pix.length = init.Pix.length ∧
      (∀ m, m ∈ ms → ∀ img, captureDisplay m.Index = some img →
        ∀ y, y < m.Height.toNat → ∀ t, t < 4 * m.Width.toNat →
          out.Pix[4 * (((m.Y - monitors.VirtualMinY).toNat + y) * V
            + (m.X - monitors.VirtualMinX).toNat) + t]? = img.Pix[y * img.Stride.toNat + t]?) ∧
      (∀ i, i < 4 * (Hh * V) →
        (∀ m, m ∈ ms → captureDisplay m.Index ≠ none → ∀ y, y < m.Height.toNat →
          i < 4 * (((m.Y - monitors.VirtualMinY).toNat + y) * V
            + (m.X - monitors.VirtualMinX).toNat) ∨
          4 * (((m.Y - monitors.VirtualMinY).toNat + y) * V
            + (m.X - monitors.VirtualMinX).toNat) + 4 * m.Width.toNat ≤ i) →
        out.Pix[i]? = some 0) := by
  induction ms using List.reverseRecOn with
  | nil =>
    intro _ _ _
    exact ⟨init, rfl, rfl, rfl, rfl, fun m hm => (by cases hm), fun i hi _ => hzero i hi⟩
  | append_singleton ms m1 ih =>
    intro hwithin hdis hsized
    rw [List.pairwise_append] at hdis
    obtain ⟨hdis0, _, hcross⟩ := hdis
    obtain ⟨mid, hmid, c1, c2, c3, c4, c5⟩ := ih
      (fun m hm => hwithin m (List.mem_append_left _ hm)) hdis0
      (fun m hm => hsized m (List.mem_append_left _ hm))
    have hm1 : m1 ∈ ms ++ [m1] := List.mem_append_right _ (List.mem_singleton_self m1)
    obtain ⟨out, hout, e1, e2, e3, e4, e5⟩ := captureVirtualDesktop.monitor_step monitors
      captureDisplay mid m1 V Hh hV hH (c1.trans hiS) (c3.trans hilen) (hwithin m1 hm1)
      (hsized m1 hm1)
    refine ⟨out, ?_, e1.trans c1, e2.trans c2, e3.trans c3, ?_, ?_⟩
    · rw [List.foldlM_append, hmid]
      simp only [Option.bind_eq_bind, Option.some_bind, List.foldlM_cons, List.foldlM_nil,
        Option.pure_def, Option.bind_some]
      exact hout
    · intro m hm img himg y hy t ht
      rcases List.mem_append.mp hm with hold | hnew
      · have hd : m.disjoint m1 := hcross m hold m1 (List.mem_singleton_self m1)
        obtain ⟨a1, a2, a3, a4, a5, a6⟩ := hwithin m hm
        obtain ⟨b1, b2, b3, b4, b5, b6⟩ := hwithin m1 hm1
        rw [hV] at a4 b4
        rw [hH] at a6 b6
        unfold MonitorInfo.disjoint at hd
        rw [e5 _ (fun _ y1 hy1 => rows_disjoint V (m.X - monitors.VirtualMinX).toNat
          (m.Y - monitors.VirtualMinY).toNat m.Width.toNat m.Height.toNat
          (m1.X - monitors.VirtualMinX).toNat (m1.Y - monitors.VirtualMinY).toNat
          m1.Width.toNat m1.Height.toNat y t y1 (by omega) (by omega) (by omega) hy ht hy1)]
        exact c4 m hold img himg y hy t ht
      · rw [List.mem_singleton] at hnew
        subst hnew
        exact e4 img himg y hy t ht
    · intro i hi hout1
      rw [e5 i (fun hc y hy => hout1 m1 hm1 hc y hy)]
      exact c5 i hi (fun m hm hc y hy => hout1 m (List.mem_append_left _ hm) hc y hy)

theorem covered_of_row (V ox oy w X Y c y : Nat) (hw : ox + w ≤ V) (hX : X < V) (hc : c < 4)
    (hlo : 4 * ((oy + y) * V + ox) ≤ Y * (4 * V) + X * 4 + c)
    (hhi : Y * (4 * V) + X * 4 + c < 4 * ((oy + y) * V + ox) + 4 * w) :
    Y = oy + y ∧ ox ≤ X ∧ X < ox + w := by
  have e : Y * (4 * V) = 4 * (Y * V) := by ring
  rcases Nat.lt_trichotomy Y (oy + y) with hlt | heq | hgt
  · have := row_base_step V _ _ hlt
    omega
  · have hrow : Y * V = (oy + y) * V := by rw [heq]
    omega
  · have := row_base_step V _ _ hgt
    omega

/-- C28 (virtual-desktop composition): for every monitor set with virtual
bounds of a size that is not negative, whose monitor rectangles are pairwise
disjoint and lie inside the virtual bounds, with each successful per-monitor
capture of size `Width x Height`, `captureVirtualDesktop` returns a canvas of
`VirtualWidth x VirtualHeight` (bounds at the origin, `Pix` of
`4*VirtualWidth*VirtualHeight` bytes) in which, for every monitor `m` whose
capture succeeded and every `(x, y)` inside it, every byte of canvas pixel
`(m.X - VirtualMinX + x, m.Y - VirtualMinY + y)` is the same byte of pixel
`(x, y)` of the capture of `m`; and every byte of a canvas pixel that no
successfully captured monitor covers (so a pixel covered by no monitor, or by
a monitor whose capture failed) is zero. -/
theorem C28_virtual_desktop_composition (monitors : MultiMonitorInfo)
    (captureDisplay : Int → Option RGBA) (hvw : 0 ≤ monitors.VirtualWidth)
    (hvh : 0 ≤ monitors.VirtualHeight)
    (hwithin : ∀ m, m ∈ monitors.Monitors → m.within monitors)
    (hdis : monitors.Monitors.Pairwise MonitorInfo.disjoint)
    (hsized : ∀ m, m ∈ monitors.Monitors → ∀ img, captureDisplay m.Index = some img →
      img.Sized m.Width m.Height) :
    ∃ canvas, captureVirtualDesktop monitors captureDisplay = some canvas ∧
      canvas.Rect = Rect 0 0 monitors.VirtualWidth monitors.VirtualHeight ∧
      (canvas.Pix.length : Int) = 4 * monitors.VirtualWidth * monitors.VirtualHeight ∧
      (∀ m, m ∈ monitors.Monitors → ∀ img, captureDisplay m.Index = some img →
        ∀ x y : Int, 0 ≤ x → x < m.Width → 0 ≤ y → y < m.Height → ∀ c, c < 4 →
          img.channel x y c ≠ none ∧
          canvas.channel (m.X - monitors.VirtualMinX + x) (m.Y - monitors.VirtualMinY + y) c
            = img.channel x y c) ∧
      (∀ x y : Int, 0 ≤ x → x < monitors.VirtualWidth → 0 ≤ y → y < monitors.VirtualHeight →
        (∀ m, m ∈ monitors.Monitors → captureDisplay m.Index ≠ none →
          ¬ m.covers (monitors.VirtualMinX + x) (monitors.VirtualMinY + y)) →
        ∀ c, c < 4 → canvas.channel x y c = some 0) := by
  obtain ⟨V, hV⟩ := Int.eq_ofNat_of_zero_le hvw
  obtain ⟨Hh, hH⟩ := Int.eq_ofNat_of_zero_le hvh
  obtain ⟨n1, n2, n3, _, _, n6⟩ := NewRGBA_natCast V Hh
  obtain ⟨canvas, hfold, c1, c2, c3, c4, c5⟩ := captureVirtualDesktop.fold monitors
    captureDisplay V Hh hV hH (NewRGBA (Rect 0 0 (V : Int) (Hh : Int))) n1 n3 n6
    monitors.Monitors hwithin hdis hsized
  have hstride : canvas.Stride = ((4 * V : Nat) : Int) := c1.trans n1
  have hrect : canvas.Rect = Rect 0 0 (V : Int) (Hh : Int) := c2.trans n2
  have hlen : canvas.Pix.length = 4 * (Hh * V) := c3.trans n3
  have hmin : canvas.Rect.Min = { X := 0, Y := 0 } := by
    rw [hrect]
    have hw : ¬ (0 : Int) > (V : Int) := by omega
    have hh : ¬ (0 : Int) > (Hh : Int) := by omega
    simp [Rect, hw, hh]
  refine ⟨canvas, ?_, ?_, ?_, ?_, ?_⟩
  · unfold captureVirtualDesktop
    rw [hV, hH]
    exact hfold
  · rw [hV, hH]
    exact hrect
  · rw [hV, hH, hlen]
    push_cast
    ring
  · intro m hm img himg x y hx0 hx hy0 hy c hc
    obtain ⟨a1, a2, a3, a4, a5, a6⟩ := hwithin m hm
    obtain ⟨s1, s2, s3, s4, s5, s6⟩ := hsized m hm img himg
    lift x to ℕ using hx0
    lift y to ℕ using hy0
    have hS : img.Stride = ((img.Stride.toNat : Nat) : Int) :=
      (Int.toNat_of_nonneg (by omega)).symm
    have hsrc : img.Stride.toNat * m.Height.toNat ≤ img.Pix.length := by
      have hh : m.Height = ((m.Height.toNat : Nat) : Int) := (Int.toNat_of_nonneg a2).symm
      rw [hS, hh] at s6
      exact_mod_cast s6
    have hidx := source_index_lt m.Width.toNat m.Height.toNat img.Stride.toNat x y c (by omega)
      (by omega) (by omega) hc
    have hcx : m.X - monitors.VirtualMinX + (x : Int)
        = (((m.X - monitors.VirtualMinX).toNat + x : Nat) : Int) := by
      push_cast
      rw [Int.toNat_of_nonneg (by omega)]
    have hcy : m.Y - monitors.VirtualMinY + (y : Int)
        = (((m.Y - monitors.VirtualMinY).toNat + y : Nat) : Int) := by
      push_cast
      rw [Int.toNat_of_nonneg (by omega)]
    have hix : ((m.Y - monitors.VirtualMinY).toNat + y) * (4 * V)
          + ((m.X - monitors.VirtualMinX).toNat + x) * 4 + c
        = 4 * (((m.Y - monitors.VirtualMinY).toNat + y) * V
          + (m.X - monitors.VirtualMinX).toNat) + (4 * x + c) := by ring
    have hsx : y * img.Stride.toNat + x * 4 + c = y * img.Stride.toNat + (4 * x + c) := by
      omega
    rw [RGBA.channel_natCast img img.Stride.toNat x y c s1 hS, hcx, hcy,
      RGBA.channel_natCast canvas (4 * V) _ _ c hmin hstride, hix, hsx,
      c4 m hm img himg y (by omega) (4 * x + c) (by omega)]
    refine ⟨?_, rfl⟩
    rw [List.getElem?_eq_getElem (by omega)]
    exact Option.some_ne_none _
  · intro x y hx0 hx hy0 hy hnot c hc
    lift x to ℕ using hx0
    lift y to ℕ using hy0
    rw [hV] at hx
    rw [hH] at hy
    have hidx : y * V + x < Hh * V := pair_index_lt V Hh y x (by omega) (by omega)
    have e : y * (4 * V) = 4 * (y * V) := by ring
    rw [RGBA.channel_natCast canvas (4 * V) x y c hmin hstride]
    refine c5 _ (by omega) ?_
    intro m hm hcap y1 hy1
    by_contra hcon
    obtain ⟨a1, a2, a3, a4, a5, a6⟩ := hwithin m hm
    rw [hV] at a4
    rw [hH] at a6
    obtain ⟨q1, q2, q3⟩ := covered_of_row V (m.X - monitors.VirtualMinX).toNat
      (m.Y - monitors.VirtualMinY).toNat m.Width.toNat x y c y1 (by omega)
      (by omega) hc (by omega) (by omega)
    refine hnot m hm hcap ⟨?_, ?_, ?_, ?_⟩ <;> omega

theorem twoDisplays_monitors :
    twoDisplays.Monitors
      = [{ Index := 0, Name := "Monitor 1", X := 0, Y := 0, Width := 1, Height := 1,
           Primary := true },
         { Index := 1, Name := "Monitor 2", X := 1, Y := 0, Width := 1, Height := 1,
           Primary := false }] := by
  decide

theorem twoDisplays_within : ∀ m, m ∈ twoDisplays.Monitors → m.within twoDisplays := by
  intro m hm
  rw [twoDisplays_monitors] at hm
  simp only [List.mem_cons, List.mem_singleton, List.not_mem_nil, or_false] at hm
  rcases hm with h | h <;> subst h <;> unfold MonitorInfo.within <;> decide

theorem twoDisplays_disjoint : twoDisplays.Monitors.Pairwise MonitorInfo.disjoint := by
  rw [twoDisplays_monitors]
  refine List.Pairwise.cons ?_ (List.Pairwise.cons ?_ List.Pairwise.nil)
  · intro m hm
    rw [List.mem_singleton] at hm
    subst hm
    unfold MonitorInfo.disjoint
    decide
  · intro m hm
    cases hm

theorem redThenError_sized : ∀ m, m ∈ twoDisplays.Monitors → ∀ img,
    redThenError m.Index = some img → img.Sized m.Width m.Height := by
  intro m hm img himg
  rw [twoDisplays_monitors] at hm
  simp only [List.mem_cons, List.mem_singleton, List.not_mem_nil, or_false] at hm
  rcases hm with h | h <;> subst h
  · have himg1 : img = tinyFrame 9 := by
      have : redThenError 0 = some (tinyFrame 9) := by decide
      rw [this] at himg
      exact (Option.some.inj himg).symm
    subst himg1
    unfold RGBA.Sized
    decide
  · have : redThenError 1 = none := by decide
    rw [this] at himg
    cases himg

/-- Witness for C28: two displays of 1 by 1 side by side, the first captured
as a red pixel, the capture of the second failing. -/
theorem C28_virtual_desktop_composition_witness :
    twoDisplays.Monitors.Pairwise MonitorInfo.disjoint ∧
    ∃ canvas, captureVirtualDesktop twoDisplays redThenError = some canvas ∧
      canvas.Rect = Rect 0 0 twoDisplays.VirtualWidth twoDisplays.VirtualHeight ∧
      (canvas.Pix.length : Int) = 4 * twoDisplays.VirtualWidth * twoDisplays.VirtualHeight :=
  ⟨twoDisplays_disjoint,
   (C28_virtual_desktop_composition twoDisplays redThenError (by decide) (by decide)
      twoDisplays_within twoDisplays_disjoint redThenError_sized).imp
      fun _ h => ⟨h.1, h.2.1, h.2.2.1⟩⟩

end RemoteControl
